import Mathlib

/-!
# Team task manager: model layer, controller, Flux store and action layer

A shallow embedding of `team-task-manager/src/utils.js`,
`team-task-manager/src/flux/TaskStore.js`,
`team-task-manager/src/flux/TaskActions.js`, the form handlers of
`team-task-manager/src/components/TeamMembers.js` and
`team-task-manager/src/components/TaskForm.js`, the data loading of
`team-task-manager/src/components/Dashboard.js`, and the reducer, form, controller and
fake API of `weather-app-example/src`.

* JavaScript objects that are mutated in place (`Task` instances) live in an
  object heap and are named by references; arrays (`taskController.tasks`,
  `TaskStore.tasks`) live in an array heap, so that two variables may hold the
  same array.
* The system clock (`new Date()`, `Date.now()`) and `Math.random()` are oracles:
  the k-th read returns `env.clock k` / `env.random k`, and the state counts the
  reads made so far.
* Library functions whose definition is not part of the repository
  (`Date` parsing and printing, `String.prototype.toLowerCase`) are fields of
  `Env`; every theorem holds for all of them unless it states an assumption.
* A `TeamMember` instance is the list of its own properties, because
  `Object.assign` may write any key onto it; React state is a record that the
  handlers return updated.
* `Number` arithmetic is IEEE 754 binary64, modelled exactly on the dyadic
  rationals for the non-negative values the statistics code computes.
-/

namespace TaskManager

/-! ## Values and plain objects -/

/-- JavaScript values carried by task fields, identifiers and filter options:
strings, `null` and `undefined`. -/
inductive Val
  | undefined
  | null
  | str (s : String)
  deriving DecidableEq, Repr, Inhabited

/-- ToBoolean: `undefined`, `null` and the empty string are falsy. -/
def Val.truthy : Val → Bool
  | .str s => s != ""
  | _ => false

/-- A plain object (`taskData`, `updates`, `filters`, a parsed JSON record):
its own properties in insertion order. -/
abbrev Obj := List (String × Val)

/-- Property read `o[k]`: a property that is not there reads as `undefined`. -/
def Obj.prop (o : Obj) (k : String) : Val :=
  match o.lookup k with
  | some v => v
  | none => .undefined

/-- The list `Object.keys(o)`. -/
def Obj.keys (o : Obj) : List String := o.map Prod.fst

/-- Property write `o[k] = v`: overwrite in place, or append a new property. -/
def Obj.assign : Obj → String → Val → Obj
  | [], k, v => [(k, v)]
  | (k', v') :: rest, k, v =>
    if k' = k then (k, v) :: rest else (k', v') :: Obj.assign rest k v

/-- Object spread: the properties of `a` overwritten or extended by those of `b`,
as in `{ ...a, ...b }`. -/
def Obj.spread (a b : Obj) : Obj :=
  b.foldl (fun acc kv => Obj.assign acc kv.1 kv.2) a

/-! ## Environment -/

/-- Everything the code reads from outside the repository. -/
structure Env where
  /-- The k-th reading of the system clock, in milliseconds. -/
  clock : Nat → Int
  /-- The k-th value of `Math.random().toString(36).substr(2, 9)`. -/
  random : Nat → String
  /-- Time value of `new Date(s)` for a string `s`; `none` is an Invalid Date. -/
  parseDate : String → Option Int
  /-- Result of `Date.prototype.toISOString` on a valid date. -/
  toISOString : Int → String
  /-- Result of `String.prototype.toLowerCase`. -/
  toLowerCase : String → String

/-- Time value of `new Date(v)`; `none` is an Invalid Date. -/
def newDate (env : Env) : Val → Option Int
  | .undefined => none
  | .null => some 0
  | .str s => env.parseDate s

/-! ## Task model (`class Task`) -/

/-- An instance of `class Task`. `createdAt` and `updatedAt` are `Date` objects,
given by their time value (`none` for an Invalid Date). -/
structure Task where
  id : Val
  title : Val
  description : Val
  assignee : Val
  priority : Val
  status : Val
  dueDate : Val
  createdAt : Option Int
  updatedAt : Option Int
  deriving DecidableEq, Repr, Inhabited

/-- A default parameter value applies when the argument is `undefined`. -/
def orDefault (arg dflt : Val) : Val :=
  if arg = .undefined then dflt else arg

/-- Method `generateId`: one `Math.random()` value and one `Date.now()` reading. -/
def Task.generateId (rnd : String) (now : Int) : Val :=
  .str ("task_" ++ rnd ++ "_" ++ toString now)

/-- The `Task` constructor. It consumes one random value and three clock readings:
`Date.now()` inside `generateId`, then `new Date()` for `createdAt`, then
`new Date()` for `updatedAt`. -/
def Task.new (rnd : String) (t0 t1 t2 : Int)
    (title description assignee priority dueDate : Val) : Task where
  id := Task.generateId rnd t0
  title := title
  description := orDefault description (.str "")
  assignee := orDefault assignee (.str "")
  priority := orDefault priority (.str "medium")
  status := .str "todo"
  dueDate := orDefault dueDate .null
  createdAt := some t1
  updatedAt := some t2

/-- The array `validStatuses`. -/
def validStatuses : List Val := [.str "todo", .str "in-progress", .str "completed"]

/-- Method `updateStatus(newStatus)` at clock reading `now`: the task afterwards and
the returned boolean. The clock is read only on the valid branch. -/
def Task.updateStatus (now : Int) (t : Task) (newStatus : Val) : Task × Bool :=
  if validStatuses.contains newStatus then
    ({ t with status := newStatus, updatedAt := some now }, true)
  else (t, false)

/-- The array `allowedFields` of `Task.updateTask`. -/
def allowedFields : List String :=
  ["title", "description", "assignee", "priority", "dueDate"]

/-- Assignment `this[key] = v` for the keys that pass the whitelist. -/
def Task.setField (t : Task) (key : String) (v : Val) : Task :=
  if key = "title" then { t with title := v }
  else if key = "description" then { t with description := v }
  else if key = "assignee" then { t with assignee := v }
  else if key = "priority" then { t with priority := v }
  else if key = "dueDate" then { t with dueDate := v }
  else t

/-- One iteration of the `forEach` over `Object.keys(updates)`. -/
def Task.applyKey (updates : Obj) (t : Task) (key : String) : Task :=
  if allowedFields.contains key && updates.prop key != .undefined then
    t.setField key (updates.prop key)
  else t

/-- Method `updateTask(updates)` at clock reading `now`. -/
def Task.updateTask (now : Int) (t : Task) (updates : Obj) : Task :=
  { (updates.keys.foldl (Task.applyKey updates) t) with updatedAt := some now }

/-- Method `isOverdue()` when `k` clock readings have been consumed: the result and
the number of readings consumed afterwards. `new Date() > new Date(this.dueDate)`
is false when the due date is an Invalid Date. -/
def Task.isOverdue (env : Env) (t : Task) (k : Nat) : Bool × Nat :=
  if !t.dueDate.truthy then (false, k)
  else
    ((match newDate env t.dueDate with
      | some due => decide (due < env.clock k)
      | none => false) && t.status != .str "completed", k + 1)

/-- Serialisation of a `Date` by `JSON.stringify`: `toISOString()`, or `null` for an
Invalid Date. -/
def dateToJSON (env : Env) : Option Int → Val
  | some t => .str (env.toISOString t)
  | none => .null

/-- The record `JSON.parse(JSON.stringify(task))`: own properties in insertion
order, properties whose value is `undefined` left out. -/
def Task.toJSON (env : Env) (t : Task) : Obj :=
  ([("id", t.id), ("title", t.title), ("description", t.description),
    ("assignee", t.assignee), ("priority", t.priority), ("status", t.status),
    ("dueDate", t.dueDate), ("createdAt", dateToJSON env t.createdAt),
    ("updatedAt", dateToJSON env t.updatedAt)] : Obj).filter
    (fun kv => kv.2 != .undefined)

/-- Static method `Task.fromJSON(json)`; the constructor it calls consumes one
random value and three clock readings, all overwritten or unused. -/
def Task.fromJSON (env : Env) (rnd : String) (t0 t1 t2 : Int) (json : Obj) : Task :=
  let task := Task.new rnd t0 t1 t2 (json.prop "title") (json.prop "description")
    (json.prop "assignee") (json.prop "priority") (json.prop "dueDate")
  { task with
    id := json.prop "id"
    status := json.prop "status"
    createdAt := newDate env (json.prop "createdAt")
    updatedAt := newDate env (json.prop "updatedAt") }

/-! ## Number arithmetic (IEEE 754 binary64) -/

/-- A finite non-negative binary64 value `mant / 2 ^ scale`. -/
structure Float64 where
  mant : Nat
  scale : Nat
  deriving DecidableEq, Repr

/-- Floor of the binary logarithm, by halving at most `fuel` times. -/
def ilog2 : Nat → Nat → Nat
  | 0, _ => 0
  | fuel + 1, n => if 2 ≤ n then ilog2 fuel (n / 2) + 1 else 0

/-- The binary64 value nearest to `p / q` (round to nearest, ties to even), for
`0 < p`, `0 < q` and `p / q` in the normal range below `2 ^ 52`: the scale is chosen
so that the significand has 53 bits. -/
def roundToFloat64 (p q : Nat) : Float64 :=
  let s0 := 52 + ilog2 q q - ilog2 p p
  let s := if p * 2 ^ s0 < q * 2 ^ 52 then s0 + 1 else s0
  let n := p * 2 ^ s
  let m := n / q
  let r := n % q
  { mant := if 2 * r < q then m
            else if q < 2 * r then m + 1
            else if m % 2 = 0 then m else m + 1
    scale := s }

/-- The quotient `a / b` of two array lengths, `0 < b`. -/
def Float64.ofDiv (a b : Nat) : Float64 :=
  if a = 0 then { mant := 0, scale := 0 } else roundToFloat64 a b

/-- The product `x * k` with a positive integer constant `k`. -/
def Float64.mulNat (x : Float64) (k : Nat) : Float64 :=
  if x.mant = 0 then { mant := 0, scale := 0 }
  else roundToFloat64 (x.mant * k) (2 ^ x.scale)

/-- The result of `Math.round`: `floor(x + 1/2)`, exact on binary64 values. -/
def Math.round (x : Float64) : Nat :=
  (2 * x.mant + 2 ^ x.scale) / 2 ^ (x.scale + 1)

/-- Nearest integer to `p / q`, halves rounded up (the mathematical `round`). -/
def roundHalfUp (p q : Nat) : Nat := (2 * p + q) / (2 * q)

/-! ## Program state -/

/-- The content of the `localStorage` slot `tasks`. The JSON text is represented by
the array of records it denotes. -/
inductive Slot
  | empty
  | invalid
  | json (records : List Obj)
  deriving DecidableEq, Repr

/-- What a change listener can read from the store when it is notified. -/
structure Snapshot where
  tasks : List Task
  isLoading : Bool
  error : Val
  filters : Obj
  deriving DecidableEq, Repr

/-- The state of the module singletons `taskController` and `TaskStore`, with the
heaps their fields point into. -/
structure State where
  /-- Object heap: a `Task` reference is an index into this list. -/
  objs : List Task
  /-- Array heap: an array reference is an index; an array holds task references. -/
  arrs : List (List Nat)
  /-- Field `taskController.tasks`. -/
  ctrlTasks : Nat
  /-- The slot `localStorage['tasks']`. -/
  storage : Slot
  /-- Field `TaskStore.tasks`. -/
  storeTasks : Nat
  /-- Field `TaskStore.isLoading`. -/
  isLoading : Bool
  /-- Field `TaskStore.error`. -/
  error : Val
  /-- Field `TaskStore.filters`. -/
  filters : Obj
  /-- The `change` events emitted so far, each with the store as it was then. -/
  changes : List Snapshot
  /-- Number of clock readings consumed so far. -/
  clockReads : Nat
  /-- Number of random values consumed so far. -/
  randomReads : Nat
  deriving DecidableEq, Repr

/-- Dereference a task reference. -/
def State.task (s : State) (r : Nat) : Task := s.objs.getD r default

/-- Dereference an array reference. -/
def State.array (s : State) (a : Nat) : List Nat := s.arrs.getD a []

/-- The tasks an array holds, in array order. -/
def State.view (s : State) (a : Nat) : List Task := (s.array a).map s.task

/-- The collection held by the controller. -/
def State.ctrlView (s : State) : List Task := s.view s.ctrlTasks

/-- The collection held by the store. -/
def State.storeView (s : State) : List Task := s.view s.storeTasks

/-- In-place `array.push(r)`. -/
def State.push (s : State) (a r : Nat) : State :=
  { s with arrs := s.arrs.set a (s.array a ++ [r]) }

/-- Allocation of a new array. -/
def State.allocArray (s : State) (elems : List Nat) : Nat × State :=
  (s.arrs.length, { s with arrs := s.arrs ++ [elems] })

/-- Index of the first element satisfying `p` (`Array.prototype.findIndex`). -/
def findIndex {α : Type} (p : α → Bool) : List α → Option Nat
  | [] => none
  | x :: xs => if p x then some 0 else (findIndex p xs).map (· + 1)

/-- Heap well-formedness: the two array fields and every element of every array
point into the heaps. -/
def State.WF (s : State) : Prop :=
  s.ctrlTasks < s.arrs.length ∧ s.storeTasks < s.arrs.length ∧
    ∀ a ∈ s.arrs, ∀ r ∈ a, r < s.objs.length

instance (s : State) : Decidable s.WF := by
  unfold State.WF
  infer_instance

/-! ## Task controller (`class TaskController`) -/

/-- Method `saveTasksToStorage`: the slot receives the JSON of the task array. -/
def TaskController.saveTasksToStorage (env : Env) (s : State) : State :=
  { s with storage := .json (s.ctrlView.map (Task.toJSON env)) }

/-- Method `createTask(taskData)`: the reference of the new task and the state
afterwards. -/
def TaskController.createTask (env : Env) (taskData : Obj) (s : State) : Nat × State :=
  let task := Task.new (env.random s.randomReads) (env.clock s.clockReads)
    (env.clock (s.clockReads + 1)) (env.clock (s.clockReads + 2))
    (taskData.prop "title") (taskData.prop "description") (taskData.prop "assignee")
    (taskData.prop "priority") (taskData.prop "dueDate")
  let r := s.objs.length
  let s1 := { s with
    objs := s.objs ++ [task]
    clockReads := s.clockReads + 3
    randomReads := s.randomReads + 1 }
  (r, TaskController.saveTasksToStorage env (s1.push s1.ctrlTasks r))

/-- Method `getAllTasks()`: the array itself, not a copy. -/
def TaskController.getAllTasks (s : State) : Nat := s.ctrlTasks

/-- Method `getTaskById(id)`: `none` stands for the `undefined` that `find` returns. -/
def TaskController.getTaskById (id : Val) (s : State) : Option Nat :=
  (s.array s.ctrlTasks).find? (fun r => decide ((s.task r).id = id))

/-- Method `updateTask(id, updates)`: `none` stands for the returned `null`. -/
def TaskController.updateTask (env : Env) (id : Val) (updates : Obj) (s : State) :
    Option Nat × State :=
  match TaskController.getTaskById id s with
  | some r =>
    let s1 := { s with
      objs := s.objs.set r (Task.updateTask (env.clock s.clockReads) (s.task r) updates)
      clockReads := s.clockReads + 1 }
    (some r, TaskController.saveTasksToStorage env s1)
  | none => (none, s)

/-- Method `deleteTask(id)`: `none` stands for the returned `null`. -/
def TaskController.deleteTask (env : Env) (id : Val) (s : State) : Option Nat × State :=
  match findIndex (fun r => decide ((s.task r).id = id)) (s.array s.ctrlTasks) with
  | some index =>
    let deletedTask := (s.array s.ctrlTasks).getD index 0
    let s1 := { s with arrs := s.arrs.set s.ctrlTasks ((s.array s.ctrlTasks).eraseIdx index) }
    (some deletedTask, TaskController.saveTasksToStorage env s1)
  | none => (none, s)

/-- The references in `refs` whose task has the given status. -/
def State.byStatus (s : State) (refs : List Nat) (status : Val) : List Nat :=
  refs.filter (fun r => decide ((s.task r).status = status))

/-- The filter `task => task.isOverdue()` over `refs` when `k` clock readings have
been consumed: the references kept and the readings consumed afterwards. -/
def State.overdue (env : Env) (s : State) : List Nat → Nat → List Nat × Nat
  | [], k => ([], k)
  | r :: rs, k =>
    let res := Task.isOverdue env (s.task r) k
    let rest := State.overdue env s rs res.2
    (if res.1 then r :: rest.1 else rest.1, rest.2)

/-- Method `getTasksByStatus(status)`. -/
def TaskController.getTasksByStatus (status : Val) (s : State) : List Nat :=
  s.byStatus (s.array s.ctrlTasks) status

/-- Method `getOverdueTasks()`. -/
def TaskController.getOverdueTasks (env : Env) (s : State) : List Nat × State :=
  let res := s.overdue env (s.array s.ctrlTasks) s.clockReads
  (res.1, { s with clockReads := res.2 })

/-- The object returned by `getTaskStatistics`. -/
structure Stats where
  total : Nat
  todo : Nat
  inProgress : Nat
  completed : Nat
  overdue : Nat
  completionRate : Nat
  deriving DecidableEq, Repr

/-- The expression `total > 0 ? Math.round((completed / total) * 100) : 0`. -/
def completionRate (completed total : Nat) : Nat :=
  if 0 < total then Math.round ((Float64.ofDiv completed total).mulNat 100) else 0

/-- Method `TaskController.getTaskStatistics()`. -/
def TaskController.getTaskStatistics (env : Env) (s : State) : Stats × State :=
  let total := (s.array s.ctrlTasks).length
  let todo := (TaskController.getTasksByStatus (.str "todo") s).length
  let inProgress := (TaskController.getTasksByStatus (.str "in-progress") s).length
  let completed := (TaskController.getTasksByStatus (.str "completed") s).length
  let od := TaskController.getOverdueTasks env s
  ({ total := total, todo := todo, inProgress := inProgress, completed := completed,
     overdue := od.1.length, completionRate := completionRate completed total }, od.2)

/-- The reconstruction `parsedTasks.map(taskData => Task.fromJSON(taskData))`: the
references of the new tasks and the state afterwards. -/
def TaskController.reconstruct (env : Env) : List Obj → State → List Nat × State
  | [], s => ([], s)
  | json :: rest, s =>
    let task := Task.fromJSON env (env.random s.randomReads) (env.clock s.clockReads)
      (env.clock (s.clockReads + 1)) (env.clock (s.clockReads + 2)) json
    let s1 := { s with
      objs := s.objs ++ [task]
      clockReads := s.clockReads + 3
      randomReads := s.randomReads + 1 }
    let res := TaskController.reconstruct env rest s1
    (s.objs.length :: res.1, res.2)

/-- Method `loadTasksFromStorage`. An absent slot leaves `tasks` as it is; a text
that cannot be parsed and reconstructed resets `tasks` to a new empty array. -/
def TaskController.loadTasksFromStorage (env : Env) (s : State) : State :=
  match s.storage with
  | .empty => s
  | .invalid =>
    let a := s.allocArray []
    { a.2 with ctrlTasks := a.1 }
  | .json records =>
    let res := TaskController.reconstruct env records s
    let a := res.2.allocArray res.1
    { a.2 with ctrlTasks := a.1 }

/-! ## Event emitter (`class EventEmitter`) -/

/-- A registered callback: its identity as a function object and what a call does to
the world `σ` outside the emitter, either returning normally or throwing. -/
structure Listener (σ : Type) where
  ident : Nat
  run : σ → Except String σ

/-- The field `events`: for each event name the array of its callbacks. -/
abbrev Events (σ : Type) := List (String × List (Listener σ))

/-- Method `on(event, callback)`: create the array on first use, then push. -/
def EventEmitter.on {σ : Type} : Events σ → String → Listener σ → Events σ
  | [], event, cb => [(event, [cb])]
  | (e, cbs) :: rest, event, cb =>
    if e = event then (e, cbs ++ [cb]) :: rest
    else (e, cbs) :: EventEmitter.on rest event cb

/-- Method `removeListener(event, callback)`. -/
def EventEmitter.removeListener {σ : Type} (events : Events σ) (event : String)
    (cb : Listener σ) : Events σ :=
  events.map (fun entry =>
    if entry.1 = event then (entry.1, entry.2.filter (fun c => c.ident != cb.ident))
    else entry)

/-- What one emission did: the callbacks invoked, in order of invocation, the world
afterwards, and the exception that escaped, if any. -/
structure Emission (σ : Type) where
  invoked : List Nat
  world : σ
  raised : Option String

/-- The loop `callbacks.forEach(callback => callback(data))`: an exception thrown by
a callback leaves `forEach` at once. -/
def EventEmitter.forEach {σ : Type} : List (Listener σ) → σ → Emission σ
  | [], w => { invoked := [], world := w, raised := none }
  | cb :: rest, w =>
    match cb.run w with
    | .ok w1 =>
      let e := EventEmitter.forEach rest w1
      { e with invoked := cb.ident :: e.invoked }
    | .error msg => { invoked := [cb.ident], world := w, raised := some msg }

/-- Method `emit(event, data)`. -/
def EventEmitter.emit {σ : Type} (events : Events σ) (event : String) (w : σ) :
    Emission σ :=
  match events.lookup event with
  | some cbs => EventEmitter.forEach cbs w
  | none => { invoked := [], world := w, raised := none }

/-- Method `TaskStore.addChangeListener(callback)`. -/
def TaskStore.addChangeListener {σ : Type} (events : Events σ) (cb : Listener σ) :
    Events σ :=
  EventEmitter.on events "change" cb

/-- Method `TaskStore.removeChangeListener(callback)`. -/
def TaskStore.removeChangeListener {σ : Type} (events : Events σ) (cb : Listener σ) :
    Events σ :=
  EventEmitter.removeListener events "change" cb

/-! ## Flux store (`class TaskStore`) -/

/-- What a listener reads through the getters at this moment. -/
def State.snapshot (s : State) : Snapshot :=
  { tasks := s.storeView, isLoading := s.isLoading, error := s.error,
    filters := s.filters }

/-- The call `this.emit('change')`, recorded with the store as it is now. -/
def State.emitChange (s : State) : State :=
  { s with changes := s.changes ++ [s.snapshot] }

/-- The filter object the constructor and `clearFilters` install. -/
def emptyFilters : Obj :=
  [("status", .str ""), ("assignee", .str ""), ("priority", .str ""), ("search", .str "")]

/-- Method `loadTasks`, given what the call `taskController.getAllTasks()` gives:
an array, or a thrown exception. -/
def TaskStore.loadTasksFrom (result : Except String Nat) (s : State) : State :=
  let s1 := ({ s with isLoading := true, error := .null } : State).emitChange
  let s2 : State :=
    match result with
    | .ok a => { s1 with storeTasks := a, isLoading := false }
    | .error _ => { s1 with error := .str "Failed to load tasks", isLoading := false }
  s2.emitChange

/-- Method `loadTasks`. -/
def TaskStore.loadTasks (s : State) : State :=
  TaskStore.loadTasksFrom (.ok (TaskController.getAllTasks s)) s

/-- Method `getTasks`. -/
def TaskStore.getTasks (s : State) : Nat := s.storeTasks

/-- The test `haystack.includes(needle)` of `String.prototype.includes`. -/
def includes (haystack needle : String) : Bool :=
  decide (needle.toList <:+: haystack.toList)

/-- The callback of `tasks.filter` in `filterTasks(tasks, filters)` of `utils.js`, which
reads its parameter `filters`; `none` is the TypeError of calling `toLowerCase` on a
value that is not a string. -/
def matchesFilters (env : Env) (filters : Obj) (t : Task) : Option Bool :=
  if (filters.prop "status").truthy && t.status != filters.prop "status" then some false
  else if (filters.prop "assignee").truthy && t.assignee != filters.prop "assignee" then
    some false
  else if (filters.prop "priority").truthy && t.priority != filters.prop "priority" then
    some false
  else
    match filters.prop "search" with
    | .str search =>
      if search != "" then
        let searchLower := env.toLowerCase search
        match t.title with
        | .str title =>
          if includes (env.toLowerCase title) searchLower then some true
          else
            match t.description with
            | .str description =>
              some (includes (env.toLowerCase description) searchLower)
            | _ => none
        | _ => none
      else some true
    | _ => some true

/-- The loop of `Array.prototype.filter` with a callback that may throw. -/
def filterM {α : Type} (p : α → Option Bool) : List α → Option (List α)
  | [] => some []
  | x :: xs =>
    match p x with
    | none => none
    | some keep =>
      match filterM p xs with
      | none => none
      | some rest => some (if keep then x :: rest else rest)

/-- Function `filterTasks(tasks, filters)` of `utils.js`. -/
def filterTasks (env : Env) (tasks : List Task) (filters : Obj) : Option (List Task) :=
  filterM (matchesFilters env filters) tasks

/-- The callback of `this.tasks.filter` in `TaskStore.getFilteredTasks()`, which reads
the field `this.filters`; `none` is the TypeError of calling `toLowerCase` on a value
that is not a string. -/
def TaskStore.passesFilters (env : Env) (s : State) (task : Task) : Option Bool :=
  if (s.filters.prop "status").truthy && task.status != s.filters.prop "status" then
    some false
  else if (s.filters.prop "assignee").truthy &&
      task.assignee != s.filters.prop "assignee" then
    some false
  else if (s.filters.prop "priority").truthy &&
      task.priority != s.filters.prop "priority" then
    some false
  else
    match s.filters.prop "search" with
    | .str search =>
      if search != "" then
        let searchLower := env.toLowerCase search
        match task.title with
        | .str title =>
          if includes (env.toLowerCase title) searchLower then some true
          else
            match task.description with
            | .str description =>
              some (includes (env.toLowerCase description) searchLower)
            | _ => none
        | _ => none
      else some true
    | _ => some true

/-- Method `TaskStore.getFilteredTasks()`. -/
def TaskStore.getFilteredTasks (env : Env) (s : State) : Option (List Task) :=
  filterM (TaskStore.passesFilters env s) s.storeView

/-- Method `TaskStore.getTasksByStatus(status)`. -/
def TaskStore.getTasksByStatus (status : Val) (s : State) : List Nat :=
  s.byStatus (s.array s.storeTasks) status

/-- Method `TaskStore.getTaskStatistics()`. -/
def TaskStore.getTaskStatistics (env : Env) (s : State) : Stats × State :=
  let total := (s.array s.storeTasks).length
  let todo := (TaskStore.getTasksByStatus (.str "todo") s).length
  let inProgress := (TaskStore.getTasksByStatus (.str "in-progress") s).length
  let completed := (TaskStore.getTasksByStatus (.str "completed") s).length
  let od := s.overdue env (s.array s.storeTasks) s.clockReads
  ({ total := total, todo := todo, inProgress := inProgress, completed := completed,
     overdue := od.1.length, completionRate := completionRate completed total },
   { s with clockReads := od.2 })

/-- Method `TaskStore.createTask(taskData)`. The controller call does not throw on an
object argument, so the `catch` branch is not entered. -/
def TaskStore.createTask (env : Env) (taskData : Obj) (s : State) : State :=
  let res := TaskController.createTask env taskData s
  let s1 := res.2.push res.2.storeTasks res.1
  ({ s1 with error := .null } : State).emitChange

/-- Method `TaskStore.updateTask(id, updates)`. -/
def TaskStore.updateTask (env : Env) (id : Val) (updates : Obj) (s : State) : State :=
  let res := TaskController.updateTask env id updates s
  match res.1 with
  | some updatedTask =>
    let a := res.2.allocArray ((res.2.array res.2.storeTasks).map
      (fun r => if (res.2.task r).id = id then updatedTask else r))
    ({ a.2 with storeTasks := a.1, error := .null } : State).emitChange
  | none => res.2.emitChange

/-- Method `TaskStore.deleteTask(id)`. -/
def TaskStore.deleteTask (env : Env) (id : Val) (s : State) : State :=
  let res := TaskController.deleteTask env id s
  match res.1 with
  | some _ =>
    let a := res.2.allocArray ((res.2.array res.2.storeTasks).filter
      (fun r => decide ((res.2.task r).id ≠ id)))
    ({ a.2 with storeTasks := a.1, error := .null } : State).emitChange
  | none => res.2.emitChange

/-- Method `TaskStore.setFilters(filters)`. -/
def TaskStore.setFilters (filters : Obj) (s : State) : State :=
  ({ s with filters := Obj.spread s.filters filters } : State).emitChange

/-- Method `TaskStore.clearFilters()`. -/
def TaskStore.clearFilters (s : State) : State :=
  ({ s with filters := emptyFilters } : State).emitChange

/-- An action object handed to `TaskStore.handleAction`. -/
structure Action where
  type : String
  id : Val := .undefined
  data : Obj := []
  filters : Obj := []
  deriving DecidableEq, Repr

/-- Method `TaskStore.handleAction(action)`. -/
def TaskStore.handleAction (env : Env) (action : Action) (s : State) : State :=
  if action.type = "CREATE_TASK" then TaskStore.createTask env action.data s
  else if action.type = "UPDATE_TASK" then TaskStore.updateTask env action.id action.data s
  else if action.type = "DELETE_TASK" then TaskStore.deleteTask env action.id s
  else if action.type = "SET_FILTERS" then TaskStore.setFilters action.filters s
  else if action.type = "CLEAR_FILTERS" then TaskStore.clearFilters s
  else if action.type = "RELOAD_TASKS" then TaskStore.loadTasks s
  else s

/-- The heaps before any constructor has run: `TaskController` starts from
`this.tasks = []`, and the slot holds what an earlier session left. -/
def State.boot (slot : Slot) : State :=
  { objs := [], arrs := [[]], ctrlTasks := 0, storage := slot, storeTasks := 0,
    isLoading := false, error := .null, filters := [], changes := [],
    clockReads := 0, randomReads := 0 }

/-- The module singletons after start-up with the given slot content: the
`TaskController` constructor, then the `TaskStore` constructor. -/
def State.initial (env : Env) (slot : Slot) : State :=
  let s1 := TaskController.loadTasksFromStorage env (State.boot slot)
  let a := s1.allocArray []
  TaskStore.loadTasks
    { a.2 with storeTasks := a.1, isLoading := false, error := .null,
               filters := emptyFilters }

/-! ## Action layer (`class TaskActions`) -/

/-- What a call into the action layer leaves behind: the state, and the message of
the `Error` it threw, if any. -/
structure Outcome where
  state : State
  raised : Option String
  deriving DecidableEq, Repr

/-- Method `TaskActions.createTask(taskData)`. -/
def TaskActions.createTask (env : Env) (taskData : Obj) (s : State) : Outcome :=
  if !(taskData.prop "title").truthy then
    { state := s, raised := some "Task title is required" }
  else
    { state := TaskStore.handleAction env { type := "CREATE_TASK", data := taskData } s
      raised := none }

/-- Method `TaskActions.updateTask(id, updates)`. -/
def TaskActions.updateTask (env : Env) (id : Val) (updates : Obj) (s : State) : Outcome :=
  if !id.truthy then { state := s, raised := some "Task ID is required" }
  else
    { state := TaskStore.handleAction env { type := "UPDATE_TASK", id := id, data := updates } s
      raised := none }

/-- Method `TaskActions.deleteTask(id)`. -/
def TaskActions.deleteTask (env : Env) (id : Val) (s : State) : Outcome :=
  if !id.truthy then { state := s, raised := some "Task ID is required" }
  else
    { state := TaskStore.handleAction env { type := "DELETE_TASK", id := id } s
      raised := none }

/-- Method `TaskActions.updateTaskStatus(id, status)`. -/
def TaskActions.updateTaskStatus (env : Env) (id status : Val) (s : State) : Outcome :=
  if !validStatuses.contains status then
    { state := s, raised := some "Invalid task status" }
  else TaskActions.updateTask env id [("status", status)] s

/-- The loop `taskIds.forEach(id => body(id))`: a throw leaves the loop at once and
keeps the state reached so far. -/
def forEachId (body : Val → State → Outcome) : List Val → State → Outcome
  | [], s => { state := s, raised := none }
  | id :: rest, s =>
    match (body id s).raised with
    | some msg => { state := (body id s).state, raised := some msg }
    | none => forEachId body rest (body id s).state

/-- Method `TaskActions.batchUpdateTasks(taskIds, updates)` for an array `taskIds`. -/
def TaskActions.batchUpdateTasks (env : Env) (taskIds : List Val) (updates : Obj)
    (s : State) : Outcome :=
  if taskIds.length = 0 then { state := s, raised := some "Task IDs array is required" }
  else forEachId (fun id => TaskActions.updateTask env id updates) taskIds s

/-- Method `TaskActions.batchDeleteTasks(taskIds)` for an array `taskIds`. -/
def TaskActions.batchDeleteTasks (env : Env) (taskIds : List Val) (s : State) : Outcome :=
  if taskIds.length = 0 then { state := s, raised := some "Task IDs array is required" }
  else forEachId (fun id => TaskActions.deleteTask env id) taskIds s

/-- What a caller may pass as `taskIds`: an array of ids, or a value that is not an
array. -/
inductive Argument
  | array (ids : List Val)
  | other (v : Val)
  deriving DecidableEq, Repr

/-- Method `TaskActions.batchDeleteTasks(taskIds)` on any argument: the guard
`!Array.isArray(taskIds) || taskIds.length === 0` throws before the loop is entered. -/
def TaskActions.batchDeleteTasksCall (env : Env) : Argument → State → Outcome
  | .other _, s => { state := s, raised := some "Task IDs array is required" }
  | .array ids, s => TaskActions.batchDeleteTasks env ids s

/-! ## Team member model (`class TeamMember`) -/

/-- Values a property of a `TeamMember` object can hold: the values of `Val`, booleans
(`isActive`) and `Date` objects (`joinedAt`), a date being given by its time value.
Strict equality is equality of these values; the code never compares two dates. -/
inductive MVal
  | val (v : Val)
  | bool (b : Bool)
  | date (time : Option Int)
  deriving DecidableEq, Repr, Inhabited

/-- ToBoolean on member values: an object such as a `Date` is truthy. -/
def MVal.truthy : MVal → Bool
  | .val v => v.truthy
  | .bool b => b
  | .date _ => true

/-- A `TeamMember` instance, or a plain object handed to the member controller: its own
properties in insertion order. -/
abbrev MObj := List (String × MVal)

/-- Property read `o[k]`: a property that is not there reads as `undefined`. -/
def MObj.prop (o : MObj) (k : String) : MVal :=
  match o.lookup k with
  | some v => v
  | none => .val .undefined

/-- The list `Object.keys(o)`. -/
def MObj.keys (o : MObj) : List String := o.map Prod.fst

/-- Property write `o[k] = v`: overwrite in place, or append a new property. -/
def MObj.assign : MObj → String → MVal → MObj
  | [], k, v => [(k, v)]
  | (k', v') :: rest, k, v =>
    if k' = k then (k, v) :: rest else (k', v') :: MObj.assign rest k v

/-- The call `Object.assign(target, source)`: every own property of `source` is
written onto `target`, whatever its key and whatever its value. -/
def MObj.assignAll (target source : MObj) : MObj :=
  source.keys.foldl (fun acc key => MObj.assign acc key (source.prop key)) target

/-- A default parameter value applies when the argument is `undefined`. -/
def MVal.orDefault (arg dflt : MVal) : MVal :=
  if arg = .val .undefined then dflt else arg

/-- Method `TeamMember.generateId`: one `Math.random()` value. -/
def TeamMember.generateId (rnd : String) : MVal :=
  .val (.str ("member_" ++ rnd))

/-- The `TeamMember` constructor: one random value, one clock reading. -/
def TeamMember.new (rnd : String) (now : Int) (name email role : MVal) : MObj :=
  [("id", TeamMember.generateId rnd), ("name", name), ("email", email),
   ("role", MVal.orDefault role (.val (.str "member"))), ("joinedAt", .date (some now)),
   ("isActive", .bool true)]

/-- Method `deactivate()`. -/
def TeamMember.deactivate (m : MObj) : MObj := MObj.assign m "isActive" (.bool false)

/-- Method `activate()`. -/
def TeamMember.activate (m : MObj) : MObj := MObj.assign m "isActive" (.bool true)

/-- Time value of `new Date(v)` for a member value. -/
def MVal.newDate (env : Env) : MVal → Option Int
  | .val v => TaskManager.newDate env v
  | .bool b => some (if b then 1 else 0)
  | .date time => time

/-- Static method `TeamMember.fromJSON(json)`. -/
def TeamMember.fromJSON (env : Env) (rnd : String) (now : Int) (json : MObj) : MObj :=
  let member := TeamMember.new rnd now (json.prop "name") (json.prop "email") (json.prop "role")
  let member := MObj.assign member "id" (json.prop "id")
  let member := MObj.assign member "joinedAt" (.date (MVal.newDate env (json.prop "joinedAt")))
  MObj.assign member "isActive" (json.prop "isActive")

/-- The record `JSON.parse(JSON.stringify(member))`: a `Date` becomes its ISO string
(`null` when invalid), properties whose value is `undefined` are left out. -/
def TeamMember.toJSON (env : Env) (m : MObj) : MObj :=
  (m.map (fun kv =>
    (kv.1, match kv.2 with
      | .date time => MVal.val (dateToJSON env time)
      | other => other))).filter (fun kv => kv.2 != .val .undefined)

/-! ## Team member controller (`class TeamMemberController`) -/

/-- The content of the `localStorage` slot `teamMembers`. -/
inductive MemberSlot
  | empty
  | invalid
  | json (records : List MObj)
  deriving DecidableEq, Repr

/-- The state of the module singleton `memberController`. Its array `members` is held
by no other variable, so it is kept as the list of the references it holds. -/
structure MemberState where
  /-- Object heap: a `TeamMember` reference is an index into this list. -/
  objs : List MObj
  /-- Field `memberController.members`. -/
  members : List Nat
  /-- The slot `localStorage['teamMembers']`. -/
  storage : MemberSlot
  /-- Number of clock readings consumed so far. -/
  clockReads : Nat
  /-- Number of random values consumed so far. -/
  randomReads : Nat
  deriving DecidableEq, Repr

/-- Dereference a member reference. -/
def MemberState.member (ms : MemberState) (r : Nat) : MObj := ms.objs.getD r []

/-- Heap well-formedness: every element of `members` points into the heap. -/
def MemberState.WF (ms : MemberState) : Prop := ∀ r ∈ ms.members, r < ms.objs.length

instance (ms : MemberState) : Decidable ms.WF := by
  unfold MemberState.WF
  infer_instance

/-- Method `saveMembersToStorage`. -/
def TeamMemberController.saveMembersToStorage (env : Env) (ms : MemberState) : MemberState :=
  { ms with storage := .json (ms.members.map (fun r => TeamMember.toJSON env (ms.member r))) }

/-- Method `createMember(memberData)`: the reference of the new member and the state
afterwards. -/
def TeamMemberController.createMember (env : Env) (memberData : MObj) (ms : MemberState) :
    Nat × MemberState :=
  let member := TeamMember.new (env.random ms.randomReads) (env.clock ms.clockReads)
    (memberData.prop "name") (memberData.prop "email") (memberData.prop "role")
  let r := ms.objs.length
  (r, TeamMemberController.saveMembersToStorage env
    { ms with
      objs := ms.objs ++ [member]
      members := ms.members ++ [r]
      clockReads := ms.clockReads + 1
      randomReads := ms.randomReads + 1 })

/-- Method `getAllMembers()`: a new array of the active members. -/
def TeamMemberController.getAllMembers (ms : MemberState) : List Nat :=
  ms.members.filter (fun r => ((ms.member r).prop "isActive").truthy)

/-- Method `getMemberById(id)`: `none` stands for the `undefined` that `find` returns. -/
def TeamMemberController.getMemberById (id : MVal) (ms : MemberState) : Option Nat :=
  ms.members.find? (fun r => decide ((ms.member r).prop "id" = id))

/-- Method `updateMember(id, updates)`: `none` stands for the returned `null`. -/
def TeamMemberController.updateMember (env : Env) (id : MVal) (updates : MObj)
    (ms : MemberState) : Option Nat × MemberState :=
  match TeamMemberController.getMemberById id ms with
  | some r =>
    (some r, TeamMemberController.saveMembersToStorage env
      { ms with objs := ms.objs.set r (MObj.assignAll (ms.member r) updates) })
  | none => (none, ms)

/-- Method `deleteMember(id)`: `none` stands for the returned `null`. -/
def TeamMemberController.deleteMember (env : Env) (id : MVal) (ms : MemberState) :
    Option Nat × MemberState :=
  match TeamMemberController.getMemberById id ms with
  | some r =>
    (some r, TeamMemberController.saveMembersToStorage env
      { ms with objs := ms.objs.set r (TeamMember.deactivate (ms.member r)) })
  | none => (none, ms)

/-- The reconstruction `parsedMembers.map(memberData => TeamMember.fromJSON(memberData))`. -/
def TeamMemberController.reconstruct (env : Env) : List MObj → MemberState → MemberState
  | [], ms => ms
  | json :: rest, ms =>
    let member := TeamMember.fromJSON env (env.random ms.randomReads)
      (env.clock ms.clockReads) json
    TeamMemberController.reconstruct env rest
      { ms with
        objs := ms.objs ++ [member]
        members := ms.members ++ [ms.objs.length]
        clockReads := ms.clockReads + 1
        randomReads := ms.randomReads + 1 }

/-- Method `loadMembersFromStorage`, run by the constructor on `members = []`. -/
def TeamMemberController.loadMembersFromStorage (env : Env) (ms : MemberState) : MemberState :=
  match ms.storage with
  | .empty => ms
  | .invalid => { ms with members := [] }
  | .json records => TeamMemberController.reconstruct env records { ms with members := [] }

/-- The singleton `memberController` after start-up with the given slot content. -/
def MemberState.initial (env : Env) (slot : MemberSlot) : MemberState :=
  TeamMemberController.loadMembersFromStorage env
    { objs := [], members := [], storage := slot, clockReads := 0, randomReads := 0 }

/-! ## Team members page (`components/TeamMembers.js`) -/

/-- The characters matched by `\s` in a regular expression and removed by
`String.prototype.trim`: white space and line terminators. -/
def isWhiteSpace (c : Char) : Bool :=
  let n := c.toNat
  (9 ≤ n && n ≤ 13) || n = 32 || n = 160 || n = 5760 || (8192 ≤ n && n ≤ 8202) ||
    n = 8232 || n = 8233 || n = 8239 || n = 8287 || n = 12288 || n = 65279

/-- The result of `String.prototype.trim`. -/
def trim (s : String) : String :=
  String.mk ((s.toList.dropWhile isWhiteSpace).reverse.dropWhile isWhiteSpace).reverse

/-- The text starts with a dot followed by a character that is not white space. -/
def dotThenText : List Char → Bool
  | c :: d :: _ => c == '.' && !isWhiteSpace d
  | _ => false

/-- The text starts with a match of `\S+\.\S+`. -/
def domainPart : List Char → Bool
  | [] => false
  | c :: rest => !isWhiteSpace c && (dotThenText rest || domainPart rest)

/-- Some position of the text starts a match of `\S@\S+\.\S+`. -/
def emailScan : List Char → Bool
  | [] => false
  | c :: rest =>
    (!isWhiteSpace c &&
      (match rest with
       | d :: tail => d == '@' && domainPart tail
       | [] => false)) || emailScan rest

/-- The test of the regular expression `\S+@\S+\.\S+` on a string. -/
def emailPattern (s : String) : Bool := emailScan s.toList

/-- The component state `formData`. -/
structure MemberForm where
  name : String
  email : String
  role : String
  deriving DecidableEq, Repr

/-- The React state of the `TeamMembers` component. -/
structure MembersPage where
  /-- State `members`: the listed members. -/
  members : List Nat
  /-- State `formData`. -/
  formData : MemberForm
  /-- State `formErrors`. -/
  formErrors : Obj
  /-- State `editingMember`: `none` stands for `null`. -/
  editingMember : Option Nat
  /-- State `showAddForm`. -/
  showAddForm : Bool
  deriving DecidableEq, Repr

/-- The object `formData` as handed to the controller. -/
def MemberForm.toObj (f : MemberForm) : MObj :=
  [("name", .val (.str f.name)), ("email", .val (.str f.email)), ("role", .val (.str f.role))]

/-- The form after `setFormData({ name: '', email: '', role: 'member' })`. -/
def MemberForm.blank : MemberForm := { name := "", email := "", role := "member" }

/-- Function `loadMembers`. -/
def TeamMembers.loadMembers (ms : MemberState) (page : MembersPage) : MembersPage :=
  { page with members := TeamMemberController.getAllMembers ms }

/-- The duplicate check of `validateForm`: the first listed member with the submitted
email that is not the member being edited. -/
def TeamMembers.existingMember (ms : MemberState) (page : MembersPage) : Option Nat :=
  page.members.find? (fun r =>
    decide ((ms.member r).prop "email" = .val (.str page.formData.email)) &&
    (match page.editingMember with
     | none => true
     | some e => decide ((ms.member r).prop "id" ≠ (ms.member e).prop "id")))

/-- The object `errors` built by `validateForm`. -/
def TeamMembers.formErrors (ms : MemberState) (page : MembersPage) : Obj :=
  let errors : Obj := []
  let errors :=
    if trim page.formData.name = "" then Obj.assign errors "name" (.str "Name is required")
    else errors
  if trim page.formData.email = "" then Obj.assign errors "email" (.str "Email is required")
  else if !emailPattern page.formData.email then
    Obj.assign errors "email" (.str "Email is invalid")
  else
    match TeamMembers.existingMember ms page with
    | some _ => Obj.assign errors "email" (.str "Email already exists")
    | none => errors

/-- Function `validateForm`: the returned boolean and the page after `setFormErrors`. -/
def TeamMembers.validateForm (ms : MemberState) (page : MembersPage) : Bool × MembersPage :=
  let errors := TeamMembers.formErrors ms page
  (decide (errors.keys.length = 0), { page with formErrors := errors })

/-- Handler `handleAddMember`. -/
def TeamMembers.handleAddMember (env : Env) (ms : MemberState) (page : MembersPage) :
    MemberState × MembersPage :=
  let checked := TeamMembers.validateForm ms page
  if !checked.1 then (ms, checked.2)
  else
    let created := TeamMemberController.createMember env page.formData.toObj ms
    (created.2,
     { checked.2 with
       members := checked.2.members ++ [created.1]
       formData := MemberForm.blank
       showAddForm := false
       formErrors := [] })

/-- Handler `handleDeleteMember(memberId)`, given the answer to `window.confirm`. -/
def TeamMembers.handleDeleteMember (env : Env) (confirmed : Bool) (memberId : MVal)
    (ms : MemberState) (page : MembersPage) : MemberState × MembersPage :=
  if !confirmed then (ms, page)
  else
    let deleted := TeamMemberController.deleteMember env memberId ms
    (deleted.2,
     { page with
       members := page.members.filter
         (fun r => decide ((deleted.2.member r).prop "id" ≠ memberId)) })

/-! ## Task form (`components/TaskForm.js`) -/

/-- The `length` of a JavaScript string: its number of UTF-16 code units. A character
outside the Basic Multilingual Plane takes two units. -/
def jsLength (s : String) : Nat :=
  (s.toList.map (fun c => if c.toNat < 65536 then 1 else 2)).sum

/-- The component state `formData` of `TaskForm`: the values of the form controls. -/
structure TaskFormData where
  title : String
  description : String
  assignee : String
  priority : String
  dueDate : String
  deriving DecidableEq, Repr

/-- The object `newErrors` built by `validateForm`. `now` is the reading `new Date()`
takes when a due date is given, and `startOfDay` is what `setHours(0, 0, 0, 0)` makes of
a time value in the local time zone. A due date that does not parse is an Invalid Date
and compares false. -/
def TaskForm.newErrors (env : Env) (startOfDay : Int → Int) (now : Int)
    (formData : TaskFormData) : Obj :=
  let newErrors : Obj := []
  let newErrors :=
    if trim formData.title = "" then Obj.assign newErrors "title" (.str "Title is required")
    else newErrors
  let newErrors :=
    if jsLength formData.title > 100 then
      Obj.assign newErrors "title" (.str "Title must be less than 100 characters")
    else newErrors
  let newErrors :=
    if jsLength formData.description > 500 then
      Obj.assign newErrors "description"
        (.str "Description must be less than 500 characters")
    else newErrors
  if formData.dueDate ≠ "" then
    match env.parseDate formData.dueDate with
    | some dueDate =>
      if dueDate < startOfDay now then
        Obj.assign newErrors "dueDate" (.str "Due date cannot be in the past")
      else newErrors
    | none => newErrors
  else newErrors

/-- Function `validateForm` of `TaskForm`: the returned boolean and the object handed to
`setErrors`. -/
def TaskForm.validateForm (env : Env) (startOfDay : Int → Int) (now : Int)
    (formData : TaskFormData) : Bool × Obj :=
  let newErrors := TaskForm.newErrors env startOfDay now formData
  (decide (newErrors.keys.length = 0), newErrors)

/-! ## Dashboard (`components/Dashboard.js`) -/

/-- The comparator `(a, b) => new Date(b.createdAt) - new Date(a.createdAt)`: the
difference of the two time values; `none` is the NaN that an Invalid Date on either
side gives. -/
def Dashboard.compare (a b : Task) : Option Int :=
  match b.createdAt, a.createdAt with
  | some tb, some ta => some (tb - ta)
  | _, _ => none

/-- The comparator does not ask for `a` to be moved behind `b`: its value is not
positive. `sort` reads a NaN as `+0`. -/
def Dashboard.keepsBefore (a b : Task) : Bool :=
  match Dashboard.compare a b with
  | some d => decide (d ≤ 0)
  | none => true

/-- Insertion of the reference `r` into an ordered list of references, in front of the
first element it need not follow. -/
def State.insertByCreatedAt (s : State) (r : Nat) : List Nat → List Nat
  | [] => [r]
  | x :: xs =>
    if Dashboard.keepsBefore (s.task r) (s.task x) then r :: x :: xs
    else x :: State.insertByCreatedAt s r xs

/-- The order `Array.prototype.sort` gives with the comparator of `Dashboard`: newest
`createdAt` first, tasks that compare equal staying in their previous order (the sort is
stable). -/
def State.sortByCreatedAt (s : State) : List Nat → List Nat
  | [] => []
  | r :: rs => s.insertByCreatedAt r (s.sortByCreatedAt rs)

/-- The React state of the `Dashboard` component. -/
structure DashboardPage where
  /-- State `stats`. -/
  stats : Stats
  /-- State `recentTasks`: the elements of the array that `slice(0, 5)` returned. -/
  recentTasks : List Nat
  /-- State `teamCount`. -/
  teamCount : Nat
  /-- State `isLoading`. -/
  isLoading : Bool
  deriving DecidableEq, Repr

/-- The callback of `useEffect` in `Dashboard`, run once on mount (the timer callback of
`handleRefreshData` has the same body). `allTasks` is the array that `getAllTasks()`
returned, `sort` orders that array in place and returns it, and `slice(0, 5)` copies its
first five elements into a new array. -/
def Dashboard.loadData (env : Env) (ms : MemberState) (s : State) : DashboardPage × State :=
  let taskStats := TaskController.getTaskStatistics env s
  let allTasks := TaskController.getAllTasks taskStats.2
  let sorted := taskStats.2.sortByCreatedAt (taskStats.2.array allTasks)
  let s1 := { taskStats.2 with arrs := taskStats.2.arrs.set allTasks sorted }
  let recent := (s1.array allTasks).take 5
  let members := TeamMemberController.getAllMembers ms
  ({ stats := taskStats.1, recentTasks := recent, teamCount := members.length,
     isLoading := false }, s1)

/-! ## Weather application (`weather-app-example/src`) -/

/-- The object `fakeData` that `fetchFakeWeather` resolves with: `cod`, `name`,
`main.temp`, `weather[0].description` and `wind.speed` (in tenths, 3.5 being 35). -/
structure WeatherData where
  cod : Nat
  name : String
  temp : Nat
  description : String
  windSpeedTenths : Nat
  deriving DecidableEq, Repr

/-- The state of the reducer; `none` stands for `null`. -/
structure WeatherState where
  city : Option String
  weather : Option WeatherData
  error : Option String
  deriving DecidableEq, Repr

/-- The constant `initialState`. -/
def initialState : WeatherState := { city := none, weather := none, error := none }

/-- The actions dispatched in the application, by their `type`, with their payload. -/
inductive WeatherAction
  /-- Type `FETCH_WEATHER`, the payload being the city. -/
  | fetchWeather (payload : String)
  /-- Type `FETCH_SUCCESS`, the payload being the data the fetch resolved with. -/
  | fetchSuccess (payload : WeatherData)
  /-- Type `FETCH_ERROR`, the payload being the message of the rejection. -/
  | fetchError (payload : String)
  /-- Any other type. -/
  | other (type : String)
  deriving DecidableEq, Repr

/-- Function `weatherReducer(state, action)`. -/
def weatherReducer (state : WeatherState) : WeatherAction → WeatherState
  | .fetchWeather payload => { state with city := some payload, error := none, weather := none }
  | .fetchSuccess payload => { state with weather := some payload, error := none }
  | .fetchError payload => { state with error := some payload, weather := none }
  | .other _ => state

/-- What the promise of `fetchFakeWeather(city)` settles with when its timer of 1000 ms
fires: the data it resolves with, or the `cod` and `message` it rejects with. -/
def fetchFakeWeather (env : Env) (city : String) : Except (Nat × String) WeatherData :=
  if env.toLowerCase city = "nowhere" then .error (404, "City not found")
  else .ok { cod := 200, name := city, temp := 28, description := "cloudy",
             windSpeedTenths := 35 }

/-- The running application: the state held by `useReducer`, and the fetches in flight,
oldest first, each given by the city it was started for. Every fetch takes 1000 ms, so
the fetches settle in the order in which they were started. -/
structure WeatherApp where
  state : WeatherState
  pending : List String
  deriving DecidableEq, Repr

/-- The application after mounting: the effect of `WeatherController` has run with
`state.city = null` and has returned at once. -/
def WeatherApp.start : WeatherApp := { state := initialState, pending := [] }

/-- Handler `handleSubmit` of `WeatherForm` with the text of the input field. -/
def WeatherForm.handleSubmit (input : String) (state : WeatherState) : WeatherState :=
  let city := trim input
  if city ≠ "" then weatherReducer state (.fetchWeather city) else state

/-- The effect of `WeatherController` after a render, `previous` being `state.city` at
the render before: it runs when `state.city` has changed, returns at once when
`state.city` is falsy, and otherwise starts a fetch for `state.city`. Nothing cancels a
fetch that is in flight. -/
def WeatherController.effect (previous : Option String) (app : WeatherApp) : WeatherApp :=
  if app.state.city = previous then app
  else
    match app.state.city with
    | none => app
    | some city => if city = "" then app else { app with pending := app.pending ++ [city] }

/-- The continuation of `fetchWeather` when the oldest fetch in flight settles: it
dispatches `FETCH_SUCCESS` with the data, or `FETCH_ERROR` with `err.message`. Both
leave `state.city` as it is, so the effect does not run again. -/
def WeatherController.settle (env : Env) (app : WeatherApp) : WeatherApp :=
  match app.pending with
  | [] => app
  | city :: rest =>
    match fetchFakeWeather env city with
    | .ok data => { state := weatherReducer app.state (.fetchSuccess data), pending := rest }
    | .error err => { state := weatherReducer app.state (.fetchError err.2), pending := rest }

/-- What can happen to the running application: the form is submitted with some text in
the input field, or the oldest timer fires. -/
inductive WeatherEvent
  | submit (input : String)
  | timer
  deriving DecidableEq, Repr

/-- One event: a submission is followed by the render and the effect. -/
def WeatherApp.step (env : Env) (app : WeatherApp) : WeatherEvent → WeatherApp
  | .submit input =>
    WeatherController.effect app.state.city
      { app with state := WeatherForm.handleSubmit input app.state }
  | .timer => WeatherController.settle env app

/-- The application after a sequence of events since mounting. -/
def WeatherApp.run (env : Env) (events : List WeatherEvent) : WeatherApp :=
  events.foldl (WeatherApp.step env) WeatherApp.start

/-! ## Notions used in the statements -/

/-- A value that is missing (`undefined` or `null`) or the empty string. -/
def Val.MissingOrEmpty (v : Val) : Prop :=
  v = .undefined ∨ v = .null ∨ v = .str ""

/-- What the constructor and the mutators guarantee of a task: no defaulted field is
`undefined` and both timestamps are valid dates. -/
def Task.Persistable (t : Task) : Prop :=
  t.description ≠ .undefined ∧ t.assignee ≠ .undefined ∧ t.priority ≠ .undefined ∧
    t.dueDate ≠ .undefined ∧ t.createdAt ≠ none ∧ t.updatedAt ≠ none

instance (t : Task) : Decidable t.Persistable := by
  unfold Task.Persistable
  infer_instance

/-- The emitter after `addChangeListener` has been called with each callback of the
list, in order, starting from `events = {}`. -/
def TaskStore.registered {σ : Type} (cbs : List (Listener σ)) : Events σ :=
  cbs.foldl TaskStore.addChangeListener []

/-- A callback that returns normally. -/
def Listener.Returns {σ : Type} (cb : Listener σ) : Prop :=
  ∀ w, ∃ w', cb.run w = .ok w'

/-- A callback that throws. -/
def Listener.Throws {σ : Type} (cb : Listener σ) : Prop :=
  ∀ w, ∃ msg, cb.run w = .error msg

/-- The value a whitelisted field has after `updateTask(updates)`: the value `updates`
gives under the field's key, unless that is `undefined` (key absent, or present with
the value `undefined`), in which case the old value stays. -/
def updatedField (updates : Obj) (key : String) (old : Val) : Val :=
  if updates.prop key = .undefined then old else updates.prop key

/-- A call of one of the two mutators of `Task`, with the clock reading it takes. -/
inductive Mutation
  | updateStatus (now : Int) (newStatus : Val)
  | updateTask (now : Int) (updates : Obj)

/-- The task after one mutator call. -/
def Task.mutate (t : Task) : Mutation → Task
  | .updateStatus now newStatus => (Task.updateStatus now t newStatus).1
  | .updateTask now updates => Task.updateTask now t updates

/-- The task after a sequence of mutator calls. -/
def Task.mutateAll (t : Task) (calls : List Mutation) : Task :=
  calls.foldl Task.mutate t

/-- The search string occurs case-insensitively as a substring of a text field. A
field that is not a string contains nothing. -/
def occursIn (env : Env) (search : String) (field : Val) : Bool :=
  match field with
  | .str text => includes (env.toLowerCase text) (env.toLowerCase search)
  | _ => false

/-- The filter contract in words: a task passes when, for each of status, assignee and
priority whose filter value is a non-empty string, the task's field equals that value,
and, when the search filter is a non-empty string, the search string occurs
case-insensitively in the title or in the description. -/
def satisfiesFilters (env : Env) (filters : Obj) (t : Task) : Bool :=
  (!(filters.prop "status").truthy || t.status == filters.prop "status") &&
  (!(filters.prop "assignee").truthy || t.assignee == filters.prop "assignee") &&
  (!(filters.prop "priority").truthy || t.priority == filters.prop "priority") &&
  (match filters.prop "search" with
   | .str search =>
     search == "" || occursIn env search t.title || occursIn env search t.description
   | _ => true)

/-- The test `typeof v === 'string'`. -/
def Val.isString : Val → Bool
  | .str _ => true
  | _ => false

/-- A task whose title and description are strings. -/
def Task.HasText (t : Task) : Prop :=
  t.title.isString = true ∧ t.description.isString = true

instance (t : Task) : Decidable t.HasText := by
  unfold Task.HasText
  infer_instance

/-- The clock reading a mutator call consumes: `updateTask` always takes one,
`updateStatus` only when it accepts the status. -/
def Mutation.reading : Mutation → Option Int
  | .updateStatus now newStatus => if validStatuses.contains newStatus then some now else none
  | .updateTask now _ => some now

/-- The order of responses in the weather application: while fetches are in flight the
newest one is for `state.city`, and when none is in flight a non-null `weather` is the
data that the fetch for `state.city` resolves with. -/
def WeatherApp.InStep (env : Env) (app : WeatherApp) : Prop :=
  (app.pending ≠ [] → app.state.city = app.pending.getLast?) ∧
  (app.pending = [] → ∀ data, app.state.weather = some data →
    ∃ city, app.state.city = some city ∧ fetchFakeWeather env city = .ok data)

/-! ## Sample data -/

/-- Code of an instant as a natural number. -/
def encodeInstant (t : Int) : Nat :=
  if 0 ≤ t then 2 * t.toNat else 2 * (-t).toNat - 1

/-- Inverse of `encodeInstant`. -/
def decodeInstant (n : Nat) : Int :=
  if n % 2 = 0 then (n / 2 : Nat) else -(((n + 1) / 2 : Nat) : Int)

/-- A sample environment: the clock starts at 10 and advances by one millisecond at
every reading; a date is printed as a row of strokes and parsed by counting them, so
that the string of one stroke is the instant one millisecond before the epoch. -/
def sampleEnv : Env where
  clock := fun k => 10 + (k : Int)
  random := fun _ => "r"
  parseDate := fun str => some (decodeInstant str.length)
  toISOString := fun t => String.mk (List.replicate (encodeInstant t) '|')
  toLowerCase := fun str => str

/-- The state after start-up on an empty `localStorage`. -/
def freshState : State := State.initial sampleEnv .empty

/-- A persisted record with the given id, status and due date. -/
def sampleRecord (id status dueDate : Val) : Obj :=
  [("id", id), ("title", .str "T"), ("description", .str ""), ("assignee", .str ""),
   ("priority", .str "medium"), ("status", status), ("dueDate", dueDate),
   ("createdAt", .str "||"), ("updatedAt", .str "||")]

/-- Forty persisted records, twenty-three of them completed. -/
def statsRecords : List Obj :=
  List.replicate 23 (sampleRecord (.str "done") (.str "completed") .null) ++
  List.replicate 17 (sampleRecord (.str "open") (.str "todo") .null)

/-- The state after start-up on the forty persisted records. -/
def statsState : State := State.initial sampleEnv (.json statsRecords)

/-- The state after creating one task with a due date before the sample clock. -/
def overdueState : State :=
  (TaskController.createTask sampleEnv [("title", .str "T"), ("dueDate", .str "|")]
    freshState).2

/-- The state after creating one task titled `A`. -/
def oneTaskState : State :=
  (TaskController.createTask sampleEnv [("title", .str "A")] freshState).2

/-- The state after start-up on three persisted tasks: `A` (todo), `B` (in-progress)
and `C` (completed, due one millisecond before the epoch). -/
def scenarioState : State :=
  State.initial sampleEnv (.json
    [sampleRecord (.str "A") (.str "todo") .null,
     sampleRecord (.str "B") (.str "in-progress") .null,
     sampleRecord (.str "C") (.str "completed") (.str "|")])

/-- A sample callback that counts its calls in the world and returns. -/
def countingListener (ident : Nat) : Listener Nat :=
  { ident := ident, run := fun w => .ok (w + 1) }

/-- A sample callback that throws. -/
def throwingListener (ident : Nat) : Listener Nat :=
  { ident := ident, run := fun _ => .error "listener failed" }

/-- The state after creating a task from data without a title and then setting the
search filter to `a`. -/
def untitledSearchState : State :=
  TaskStore.setFilters [("search", .str "a")]
    (TaskController.createTask sampleEnv [("description", .str "about")] freshState).2

/-- The member controller after creating Ann from a name and an email. -/
def oneMemberState : MemberState :=
  (TeamMemberController.createMember sampleEnv
    [("name", .val (.str "Ann")), ("email", .val (.str "ann@team.org"))]
    (MemberState.initial sampleEnv .empty)).2

/-- An `updates` object carrying an id, an activity flag and an unknown key. -/
def intrusiveUpdates : MObj :=
  [("id", .val (.str "other")), ("isActive", .bool false), ("nickname", .val (.str "A"))]

/-- The page listing Ann, with the add form filled in with a name and an email. -/
def addPage (email : String) : MembersPage :=
  { members := TeamMemberController.getAllMembers oneMemberState
    formData := { name := "Bob", email := email, role := "member" }
    formErrors := []
    editingMember := none
    showAddForm := true }

/-- A form with a title of `n` letters `a`, a description of `m` letters `b` and no due
date. -/
def sampleForm (n m : Nat) : TaskFormData :=
  { title := String.mk (List.replicate n 'a'), description := String.mk (List.replicate m 'b'),
    assignee := "", priority := "medium", dueDate := "" }

/-- The state after creating the task `A` and then the task `B`. -/
def twoTaskState : State :=
  (TaskController.createTask sampleEnv [("title", .str "B")] oneTaskState).2

/-! ## Supporting lemmas -/

theorem State.task_append_of_lt (s : State) (t : Task) (r : Nat) (h : r < s.objs.length) :
    (s.objs ++ [t]).getD r default = s.task r := by
  simp [State.task, List.getD_eq_getElem?_getD, List.getElem?_append_left h]

theorem findIndex_eq_none {α : Type} (p : α → Bool) (l : List α)
    (h : ∀ x ∈ l, p x = false) : findIndex p l = none := by
  induction l with
  | nil => rfl
  | cons x xs ih =>
    have hx : p x = false := h x (List.mem_cons_self x xs)
    have hxs : findIndex p xs = none := ih (fun y hy => h y (List.mem_cons_of_mem x hy))
    simp [findIndex, hx, hxs]

theorem State.no_ref_of_no_task (s : State) (id : Val)
    (h : ∀ t ∈ s.ctrlView, t.id ≠ id) :
    ∀ r ∈ s.array s.ctrlTasks, decide ((s.task r).id = id) = false := by
  intro r hr
  have : s.task r ∈ s.ctrlView := List.mem_map.mpr ⟨r, hr, rfl⟩
  simpa using h _ this

theorem State.array_set_same (s : State) (a : Nat) (l : List Nat) (h : a < s.arrs.length) :
    (s.arrs.set a l).getD a [] = l := by
  simp [List.getD_eq_getElem?_getD, List.getElem?_set_self h]

theorem State.map_task_append (s : State) (t : Task) (refs : List Nat)
    (h : ∀ r ∈ refs, r < s.objs.length) :
    refs.map (fun r => (s.objs ++ [t]).getD r default) = refs.map s.task := by
  apply List.map_congr_left
  intro r hr
  exact State.task_append_of_lt s t r (h r hr)

theorem State.refs_lt (s : State) (h : s.WF) (a : Nat) :
    ∀ r ∈ s.array a, r < s.objs.length := by
  intro r hr
  unfold State.array at hr
  rw [List.getD_eq_getElem?_getD] at hr
  cases hget : s.arrs[a]? with
  | none => simp [hget] at hr
  | some l =>
    simp [hget] at hr
    exact h.2.2 l (List.getElem?_mem hget) r hr

theorem TaskController.createTask_fst (env : Env) (data : Obj) (s : State) :
    (TaskController.createTask env data s).1 = s.objs.length := rfl

theorem TaskController.createTask_task (env : Env) (data : Obj) (s : State) :
    (TaskController.createTask env data s).2.task s.objs.length =
      Task.new (env.random s.randomReads) (env.clock s.clockReads)
        (env.clock (s.clockReads + 1)) (env.clock (s.clockReads + 2))
        (data.prop "title") (data.prop "description") (data.prop "assignee")
        (data.prop "priority") (data.prop "dueDate") := by
  simp [TaskController.createTask, TaskController.saveTasksToStorage, State.push, State.task,
    List.getD_eq_getElem?_getD]

theorem TaskController.createTask_ctrlView (env : Env) (data : Obj) (s : State) (h : s.WF) :
    (TaskController.createTask env data s).2.ctrlView =
      s.ctrlView ++ [(TaskController.createTask env data s).2.task s.objs.length] := by
  have hrefs := State.refs_lt s h s.ctrlTasks
  simp only [TaskController.createTask, TaskController.saveTasksToStorage, State.push,
    State.ctrlView, State.view, State.array, State.task]
  rw [State.array_set_same _ _ _ h.1]
  simp only [List.map_append, List.map_cons, List.map_nil]
  congr 1
  · exact State.map_task_append s _ _ hrefs

theorem TaskStore.loadTasks_WF (s : State) (h : s.WF) : (TaskStore.loadTasks s).WF := by
  obtain ⟨h1, _, h3⟩ := h
  exact ⟨h1, h1, h3⟩

theorem TaskStore.createTask_aliased (env : Env) (data : Obj) (s : State) (h : s.WF)
    (halias : s.storeTasks = s.ctrlTasks) :
    (TaskStore.createTask env data s).storeView =
      s.storeView ++ [(TaskController.createTask env data s).2.task s.objs.length,
        (TaskController.createTask env data s).2.task s.objs.length] ∧
    (TaskStore.createTask env data s).ctrlView = (TaskStore.createTask env data s).storeView := by
  have hrefs := State.refs_lt s h s.ctrlTasks
  constructor
  · simp only [TaskStore.createTask, TaskController.createTask,
      TaskController.saveTasksToStorage, State.push, State.emitChange,
      State.storeView, State.view, State.array, State.task, halias]
    rw [State.array_set_same _ _ _ h.1]
    simp only [List.set_set]
    rw [State.array_set_same _ _ _ h.1]
    simp only [List.map_append, List.map_cons, List.map_nil, List.append_assoc,
      List.singleton_append]
    congr 1
    exact State.map_task_append s _ _ hrefs
  · simp only [TaskStore.createTask, TaskController.createTask,
      TaskController.saveTasksToStorage, State.push, State.emitChange,
      State.storeView, State.ctrlView, State.view, halias]

theorem Task.isOverdue_of_no_dueDate (env : Env) (t : Task) (k : Nat)
    (h : t.dueDate.truthy = false) : Task.isOverdue env t k = (false, k) := by
  simp [Task.isOverdue, h]

theorem Task.isOverdue_of_completed (env : Env) (t : Task) (k : Nat)
    (h : t.status = .str "completed") : (Task.isOverdue env t k).1 = false := by
  unfold Task.isOverdue
  split
  · rfl
  · simp [h]

theorem decode_encode (t : Int) : decodeInstant (encodeInstant t) = t := by
  unfold decodeInstant encodeInstant
  split <;> split <;> omega

theorem sampleEnv_dates (t : Int) :
    sampleEnv.parseDate (sampleEnv.toISOString t) = some t := by
  show some (decodeInstant (List.replicate (encodeInstant t) '|').length) = some t
  rw [List.length_replicate, decode_encode]

theorem Obj.prop_cons (k' : String) (v : Val) (rest : Obj) (k : String) :
    Obj.prop ((k', v) :: rest) k = if k = k' then v else Obj.prop rest k := by
  by_cases hk : k = k'
  · simp [Obj.prop, List.lookup, hk]
  · have hne : (k == k') = false := by simpa using hk
    simp [Obj.prop, List.lookup, hk, hne]

theorem Obj.prop_of_not_mem (o : Obj) (k : String) (h : k ∉ o.keys) :
    Obj.prop o k = .undefined := by
  induction o with
  | nil => rfl
  | cons kv rest ih =>
    obtain ⟨k', v⟩ := kv
    simp only [Obj.keys, List.map_cons, List.mem_cons, not_or] at h
    rw [Obj.prop_cons, if_neg h.1]
    exact ih h.2

theorem Obj.prop_filter_defined (o : Obj) (k : String) (h : o.keys.Nodup) :
    Obj.prop (o.filter (fun kv => kv.2 != .undefined)) k = Obj.prop o k := by
  induction o with
  | nil => rfl
  | cons kv rest ih =>
    obtain ⟨k', v⟩ := kv
    simp only [Obj.keys, List.map_cons, List.nodup_cons] at h
    have ih' := ih h.2
    by_cases hv : v = .undefined
    · rw [List.filter_cons_of_neg (by simp [hv]), Obj.prop_cons, ih']
      by_cases hk : k = k'
      · subst hk
        rw [if_pos rfl, hv]
        exact Obj.prop_of_not_mem _ _ h.1
      · rw [if_neg hk]
    · rw [List.filter_cons_of_pos (by simp [hv]), Obj.prop_cons, Obj.prop_cons, ih']

theorem Task.fromJSON_toJSON (env : Env) (rnd : String) (t0 t1 t2 : Int) (t : Task)
    (hdate : ∀ i, env.parseDate (env.toISOString i) = some i) (hp : t.Persistable) :
    Task.fromJSON env rnd t0 t1 t2 (Task.toJSON env t) = t := by
  obtain ⟨h1, h2, h3, h4, h5, h6⟩ := hp
  have hnodup : Obj.keys ([("id", t.id), ("title", t.title), ("description", t.description),
    ("assignee", t.assignee), ("priority", t.priority), ("status", t.status),
    ("dueDate", t.dueDate), ("createdAt", dateToJSON env t.createdAt),
    ("updatedAt", dateToJSON env t.updatedAt)] : Obj) |>.Nodup := by
    simp [Obj.keys]
  cases t with
  | mk id title description assignee priority status dueDate createdAt updatedAt =>
    cases createdAt with
    | none => exact absurd rfl h5
    | some c =>
      cases updatedAt with
      | none => exact absurd rfl h6
      | some u =>
        simp only [Task.fromJSON, Task.toJSON, Obj.prop_filter_defined _ _ hnodup]
        simp [Obj.prop, List.lookup, Task.new, orDefault, dateToJSON, newDate, hdate]
        simp at h1 h2 h3 h4
        simp [h1, h2, h3, h4]

theorem TaskController.reconstruct_toJSON (env : Env)
    (hdate : ∀ i, env.parseDate (env.toISOString i) = some i) (tasks : List Task)
    (hp : ∀ t ∈ tasks, t.Persistable) (s : State) :
    (TaskController.reconstruct env (tasks.map (Task.toJSON env)) s).1 =
      List.range' s.objs.length tasks.length ∧
    (TaskController.reconstruct env (tasks.map (Task.toJSON env)) s).2.objs =
      s.objs ++ tasks ∧
    (TaskController.reconstruct env (tasks.map (Task.toJSON env)) s).2.arrs = s.arrs := by
  induction tasks generalizing s with
  | nil => simp [TaskController.reconstruct]
  | cons t rest ih =>
    have ht := Task.fromJSON_toJSON env (env.random s.randomReads) (env.clock s.clockReads)
      (env.clock (s.clockReads + 1)) (env.clock (s.clockReads + 2)) t hdate
      (hp t (List.mem_cons_self t rest))
    have hrest : ∀ x ∈ rest, x.Persistable := fun x hx => hp x (List.mem_cons_of_mem t hx)
    simp only [List.map_cons, TaskController.reconstruct, ht]
    obtain ⟨h1, h2, h3⟩ := ih hrest
      { s with objs := s.objs ++ [t], clockReads := s.clockReads + 3,
               randomReads := s.randomReads + 1 }
    refine ⟨?_, ?_, ?_⟩
    · rw [h1]
      simp [List.range'_succ]
    · rw [h2]
      simp
    · rw [h3]

theorem List.map_getD_range' {α : Type} (d : α) (pre l : List α) :
    (List.range' pre.length l.length).map (fun i => (pre ++ l).getD i d) = l := by
  induction l generalizing pre with
  | nil => rfl
  | cons x xs ih =>
    have := ih (pre ++ [x])
    simp only [List.length_append, List.length_singleton, List.append_assoc,
      List.singleton_append] at this
    simp only [List.length_cons, List.range'_succ, List.map_cons, this]
    have hx : (pre ++ x :: xs)[pre.length]? = some x := by
      rw [List.getElem?_append_right (le_refl _)]
      simp
    simp [List.getD_eq_getElem?_getD, hx]

theorem State.initial_json_ctrlView (env : Env) (records : List Obj) :
    (State.initial env (.json records)).ctrlView =
      (TaskController.reconstruct env records (State.boot (.json records))).1.map
        (fun r => (TaskController.reconstruct env records
          (State.boot (.json records))).2.objs.getD r default) := by
  simp only [State.initial, TaskController.loadTasksFromStorage, State.boot, State.allocArray,
    TaskStore.loadTasks, TaskStore.loadTasksFrom, TaskController.getAllTasks,
    State.emitChange, State.ctrlView, State.view, State.array]
  generalize TaskController.reconstruct env records _ = res
  have hget : (res.2.arrs ++ [res.1] ++ [[]])[res.2.arrs.length]? = some res.1 := by
    rw [List.append_assoc, List.getElem?_append_right (le_refl _)]
    simp
  simp only [List.getD_eq_getElem?_getD, hget, Option.getD_some]
  apply List.map_congr_left
  intro r _
  simp [State.task, List.getD_eq_getElem?_getD]

theorem Task.setField_id (t : Task) (key : String) (v : Val) : (t.setField key v).id = t.id := by
  unfold Task.setField
  split_ifs <;> rfl

theorem Task.applyKey_id (updates : Obj) (t : Task) (key : String) :
    (Task.applyKey updates t key).id = t.id := by
  unfold Task.applyKey
  split
  · exact Task.setField_id _ _ _
  · rfl

theorem Task.foldl_applyKey_id (updates : Obj) (keys : List String) (t : Task) :
    (keys.foldl (Task.applyKey updates) t).id = t.id := by
  induction keys generalizing t with
  | nil => rfl
  | cons k ks ih => rw [List.foldl_cons, ih, Task.applyKey_id]

theorem Task.updateTask_id (now : Int) (t : Task) (updates : Obj) :
    (Task.updateTask now t updates).id = t.id :=
  Task.foldl_applyKey_id updates updates.keys t

theorem Task.new_persistable (rnd : String) (t0 t1 t2 : Int)
    (title description assignee priority dueDate : Val) :
    (Task.new rnd t0 t1 t2 title description assignee priority dueDate).Persistable := by
  simp only [Task.Persistable, Task.new, orDefault]
  refine ⟨?_, ?_, ?_, ?_, ?_, ?_⟩ <;> first | (split <;> simp_all) | simp

theorem Task.setField_persistable (t : Task) (key : String) (v : Val)
    (hv : v ≠ .undefined) (h : t.Persistable) : (t.setField key v).Persistable := by
  obtain ⟨h1, h2, h3, h4, h5, h6⟩ := h
  unfold Task.setField
  split_ifs <;> exact ⟨by assumption, by assumption, by assumption, by assumption,
    by assumption, by assumption⟩

theorem Task.applyKey_persistable (updates : Obj) (t : Task) (key : String)
    (h : t.Persistable) : (Task.applyKey updates t key).Persistable := by
  unfold Task.applyKey
  split
  · rename_i hc
    simp only [Bool.and_eq_true, bne_iff_ne, ne_eq] at hc
    exact Task.setField_persistable t key _ hc.2 h
  · exact h

theorem Task.updateTask_persistable (now : Int) (t : Task) (updates : Obj)
    (h : t.Persistable) : (Task.updateTask now t updates).Persistable := by
  have hfold : ∀ (keys : List String) (t : Task), t.Persistable →
      (keys.foldl (Task.applyKey updates) t).Persistable := by
    intro keys
    induction keys with
    | nil => intro t ht; exact ht
    | cons k ks ih =>
      intro t ht
      exact ih _ (Task.applyKey_persistable updates t k ht)
  obtain ⟨h1, h2, h3, h4, h5, _⟩ := hfold updates.keys t h
  exact ⟨h1, h2, h3, h4, h5, by simp [Task.updateTask]⟩

theorem Task.updateStatus_persistable (now : Int) (t : Task) (newStatus : Val)
    (h : t.Persistable) : (Task.updateStatus now t newStatus).1.Persistable := by
  obtain ⟨h1, h2, h3, h4, h5, h6⟩ := h
  unfold Task.updateStatus
  split
  · exact ⟨h1, h2, h3, h4, h5, by simp⟩
  · exact ⟨h1, h2, h3, h4, h5, h6⟩

theorem TaskController.updateTask_unknown (env : Env) (id : Val) (updates : Obj) (s : State)
    (h : ∀ t ∈ s.ctrlView, t.id ≠ id) :
    TaskController.updateTask env id updates s = (none, s) := by
  have hrefs := State.no_ref_of_no_task s id h
  have hfind : TaskController.getTaskById id s = none := by
    unfold TaskController.getTaskById
    exact List.find?_eq_none.mpr (fun r hr => by simpa using hrefs r hr)
  simp [TaskController.updateTask, hfind]

theorem TaskController.deleteTask_unknown (env : Env) (id : Val) (s : State)
    (h : ∀ t ∈ s.ctrlView, t.id ≠ id) :
    TaskController.deleteTask env id s = (none, s) := by
  have hrefs := State.no_ref_of_no_task s id h
  simp [TaskController.deleteTask, findIndex_eq_none _ _ hrefs]

theorem TaskController.getTaskById_some (id : Val) (s : State) (r : Nat) (h : s.WF)
    (hfind : TaskController.getTaskById id s = some r) :
    r < s.objs.length ∧ (s.task r).id = id := by
  unfold TaskController.getTaskById at hfind
  have hmem := List.mem_of_find?_eq_some hfind
  have hp := List.find?_some hfind
  exact ⟨State.refs_lt s h _ r hmem, by simpa using hp⟩

theorem TaskStore.updateTask_found (env : Env) (id : Val) (updates : Obj) (s : State)
    (r : Nat) (h : s.WF) (hfind : TaskController.getTaskById id s = some r) :
    (TaskStore.updateTask env id updates s).task r =
      Task.updateTask (env.clock s.clockReads) (s.task r) updates ∧
    (TaskStore.updateTask env id updates s).error = .null ∧
    (∀ x, ((TaskStore.updateTask env id updates s).task x).id = (s.task x).id) ∧
    (TaskStore.updateTask env id updates s).array
        (TaskStore.updateTask env id updates s).ctrlTasks = s.array s.ctrlTasks := by
  obtain ⟨hlt, _⟩ := TaskController.getTaskById_some id s r h hfind
  have hobjs : (TaskStore.updateTask env id updates s).objs =
      s.objs.set r (Task.updateTask (env.clock s.clockReads) (s.task r) updates) := by
    simp [TaskStore.updateTask, TaskController.updateTask, hfind,
      TaskController.saveTasksToStorage, State.allocArray, State.emitChange]
  refine ⟨?_, ?_, ?_, ?_⟩
  · simp [State.task, hobjs, List.getD_eq_getElem?_getD, List.getElem?_set_self hlt]
  · simp [TaskStore.updateTask, TaskController.updateTask, hfind,
      TaskController.saveTasksToStorage, State.allocArray, State.emitChange]
  · intro x
    by_cases hx : x = r
    · subst hx
      simp only [State.task, hobjs, List.getD_eq_getElem?_getD, List.getElem?_set_self hlt,
        Option.getD_some]
      exact Task.updateTask_id _ _ _
    · simp [State.task, hobjs, List.getD_eq_getElem?_getD, List.getElem?_set_ne (Ne.symm hx)]
  · simp only [TaskStore.updateTask, TaskController.updateTask, hfind,
      TaskController.saveTasksToStorage, State.allocArray, State.emitChange, State.array]
    simp [List.getD_eq_getElem?_getD, List.getElem?_append_left h.1]

theorem TaskActions.updateTask_truthy (env : Env) (id : Val) (updates : Obj) (s : State)
    (h : id.truthy = true) :
    TaskActions.updateTask env id updates s =
      { state := TaskStore.updateTask env id updates s, raised := none } := by
  simp [TaskActions.updateTask, h, TaskStore.handleAction]

theorem TaskActions.updateTask_falsy (env : Env) (id : Val) (updates : Obj) (s : State)
    (h : id.truthy = false) :
    TaskActions.updateTask env id updates s =
      { state := s, raised := some "Task ID is required" } := by
  simp [TaskActions.updateTask, h]

theorem TaskStore.updateTask_unknown_emits (env : Env) (id : Val) (updates : Obj) (s : State)
    (h : ∀ t ∈ s.ctrlView, t.id ≠ id) :
    TaskStore.updateTask env id updates s = s.emitChange := by
  simp [TaskStore.updateTask, TaskController.updateTask_unknown env id updates s h]

theorem EventEmitter.lookup_on {σ : Type} (events : Events σ) (cb : Listener σ) :
    (EventEmitter.on events "change" cb).lookup "change" =
      some ((events.lookup "change").getD [] ++ [cb]) := by
  induction events with
  | nil => simp [EventEmitter.on, List.lookup]
  | cons entry rest ih =>
    obtain ⟨e, cbs⟩ := entry
    by_cases he : e = "change"
    · subst he
      simp [EventEmitter.on, List.lookup]
    · have hne : ("change" == e) = false := by
        simpa using fun h => he h.symm
      simp [EventEmitter.on, he, List.lookup, hne, ih]

theorem EventEmitter.emit_registered_aux {σ : Type} (cbs : List (Listener σ))
    (events : Events σ) (w : σ) :
    EventEmitter.emit (cbs.foldl TaskStore.addChangeListener events) "change" w =
      EventEmitter.forEach ((events.lookup "change").getD [] ++ cbs) w := by
  induction cbs generalizing events with
  | nil =>
    simp only [List.foldl_nil, List.append_nil, EventEmitter.emit]
    cases List.lookup "change" events <;> simp [EventEmitter.forEach]
  | cons cb rest ih =>
    rw [List.foldl_cons, ih, TaskStore.addChangeListener, EventEmitter.lookup_on]
    simp

theorem EventEmitter.emit_registered {σ : Type} (cbs : List (Listener σ)) (w : σ) :
    EventEmitter.emit (TaskStore.registered cbs) "change" w = EventEmitter.forEach cbs w := by
  unfold TaskStore.registered
  rw [EventEmitter.emit_registered_aux]
  simp [List.lookup]

theorem EventEmitter.forEach_all_return {σ : Type} (cbs : List (Listener σ)) (w : σ)
    (h : ∀ cb ∈ cbs, cb.Returns) :
    (EventEmitter.forEach cbs w).invoked = cbs.map Listener.ident ∧
    (EventEmitter.forEach cbs w).raised = none := by
  induction cbs generalizing w with
  | nil => simp [EventEmitter.forEach]
  | cons cb rest ih =>
    obtain ⟨w1, hw1⟩ := h cb (List.mem_cons_self cb rest) w
    obtain ⟨h1, h2⟩ := ih w1 (fun c hc => h c (List.mem_cons_of_mem cb hc))
    simp [EventEmitter.forEach, hw1, h1, h2]

theorem EventEmitter.forEach_stops_at_throw {σ : Type} (before after : List (Listener σ))
    (thrower : Listener σ) (w : σ) (h : ∀ cb ∈ before, cb.Returns) (ht : thrower.Throws) :
    (EventEmitter.forEach (before ++ thrower :: after) w).invoked =
      before.map Listener.ident ++ [thrower.ident] ∧
    (EventEmitter.forEach (before ++ thrower :: after) w).raised ≠ none := by
  induction before generalizing w with
  | nil =>
    obtain ⟨msg, hmsg⟩ := ht w
    simp [EventEmitter.forEach, hmsg]
  | cons cb rest ih =>
    obtain ⟨w1, hw1⟩ := h cb (List.mem_cons_self cb rest) w
    obtain ⟨h1, h2⟩ := ih w1 (fun c hc => h c (List.mem_cons_of_mem cb hc))
    have hstep : EventEmitter.forEach (cb :: rest ++ thrower :: after) w =
        { EventEmitter.forEach (rest ++ thrower :: after) w1 with
          invoked := cb.ident :: (EventEmitter.forEach (rest ++ thrower :: after) w1).invoked } := by
      show EventEmitter.forEach (cb :: (rest ++ thrower :: after)) w = _
      simp [EventEmitter.forEach, hw1]
    rw [hstep]
    exact ⟨by simp [h1], h2⟩

theorem Val.truthy_eq_false_iff (v : Val) : v.truthy = false ↔ v.MissingOrEmpty := by
  cases v with
  | undefined => simp [Val.truthy, Val.MissingOrEmpty]
  | null => simp [Val.truthy, Val.MissingOrEmpty]
  | str s => simp [Val.truthy, Val.MissingOrEmpty]

theorem TaskStore.createTask_changes (env : Env) (data : Obj) (s : State) :
    (TaskStore.createTask env data s).changes.length = s.changes.length + 1 := by
  simp [TaskStore.createTask, TaskController.createTask, TaskController.saveTasksToStorage,
    State.push, State.emitChange]

theorem TaskStore.updateTask_changes (env : Env) (id : Val) (updates : Obj) (s : State) :
    (TaskStore.updateTask env id updates s).changes.length = s.changes.length + 1 := by
  unfold TaskStore.updateTask TaskController.updateTask
  cases TaskController.getTaskById id s <;>
    simp [TaskController.saveTasksToStorage, State.allocArray, State.emitChange]

theorem TaskStore.deleteTask_changes (env : Env) (id : Val) (s : State) :
    (TaskStore.deleteTask env id s).changes.length = s.changes.length + 1 := by
  unfold TaskStore.deleteTask TaskController.deleteTask
  cases findIndex (fun r => decide ((s.task r).id = id)) (s.array s.ctrlTasks) <;>
    simp [TaskController.saveTasksToStorage, State.allocArray, State.emitChange]

theorem completionRate_sample_values :
    completionRate 1 2 = 50 ∧ completionRate 1 8 = 13 ∧ completionRate 1 3 = 33 ∧
    completionRate 2 3 = 67 ∧ completionRate 40 40 = 100 ∧ completionRate 0 40 = 0 ∧
    (Float64.ofDiv 23 40).mulNat 100 = { mant := 8092405580431359, scale := 47 } := by
  decide

theorem Obj.mem_keys_of_prop (o : Obj) (k : String) (h : o.prop k ≠ .undefined) :
    k ∈ o.keys := by
  by_contra hk
  exact h (Obj.prop_of_not_mem o k hk)

theorem Task.applyKey_field (updates : Obj) (g : Task → Val) (kf : String)
    (hkf : kf ∈ allowedFields)
    (hset : ∀ (t : Task) (key : String) (v : Val),
      g (t.setField key v) = if key = kf then v else g t)
    (t : Task) (key : String) :
    g (Task.applyKey updates t key) =
      if key = kf ∧ updates.prop kf ≠ .undefined then updates.prop kf else g t := by
  unfold Task.applyKey
  by_cases hk : key = kf
  · subst hk
    have hc : allowedFields.contains key = true := by simpa using hkf
    by_cases hu : updates.prop key = .undefined
    · simp [hc, hu]
    · simp [hkf, hu, hset]
  · split
    · simp [hset, hk]
    · simp [hk]

theorem Task.foldl_applyKey_field (updates : Obj) (g : Task → Val) (kf : String)
    (hkf : kf ∈ allowedFields)
    (hset : ∀ (t : Task) (key : String) (v : Val),
      g (t.setField key v) = if key = kf then v else g t)
    (keys : List String) (t : Task) :
    g (keys.foldl (Task.applyKey updates) t) =
      if kf ∈ keys ∧ updates.prop kf ≠ .undefined then updates.prop kf else g t := by
  induction keys generalizing t with
  | nil => simp
  | cons k ks ih =>
    rw [List.foldl_cons, ih, Task.applyKey_field updates g kf hkf hset]
    by_cases hu : updates.prop kf = .undefined
    · simp [hu]
    · by_cases hk : k = kf
      · simp [hu, hk]
      · by_cases hmem : kf ∈ ks
        · simp [hu, hmem]
        · have hne : ¬ kf = k := fun h => hk h.symm
          simp [hu, hk, hmem, hne]

theorem Task.updateTask_field (updates : Obj) (g : Task → Val) (kf : String)
    (hkf : kf ∈ allowedFields)
    (hset : ∀ (t : Task) (key : String) (v : Val),
      g (t.setField key v) = if key = kf then v else g t)
    (t : Task) :
    g (updates.keys.foldl (Task.applyKey updates) t) = updatedField updates kf (g t) := by
  rw [Task.foldl_applyKey_field updates g kf hkf hset]
  unfold updatedField
  by_cases hu : updates.prop kf = .undefined
  · simp [hu]
  · simp [hu, Obj.mem_keys_of_prop updates kf hu]

theorem Task.setField_title (t : Task) (key : String) (v : Val) :
    (t.setField key v).title = if key = "title" then v else t.title := by
  unfold Task.setField
  split_ifs <;> simp_all

theorem Task.setField_description (t : Task) (key : String) (v : Val) :
    (t.setField key v).description = if key = "description" then v else t.description := by
  unfold Task.setField
  split_ifs <;> simp_all

theorem Task.setField_assignee (t : Task) (key : String) (v : Val) :
    (t.setField key v).assignee = if key = "assignee" then v else t.assignee := by
  unfold Task.setField
  split_ifs <;> simp_all

theorem Task.setField_priority (t : Task) (key : String) (v : Val) :
    (t.setField key v).priority = if key = "priority" then v else t.priority := by
  unfold Task.setField
  split_ifs <;> simp_all

theorem Task.setField_dueDate (t : Task) (key : String) (v : Val) :
    (t.setField key v).dueDate = if key = "dueDate" then v else t.dueDate := by
  unfold Task.setField
  split_ifs <;> simp_all

theorem Task.foldl_applyKey_frame (updates : Obj) (keys : List String) (t : Task) :
    (keys.foldl (Task.applyKey updates) t).status = t.status ∧
    (keys.foldl (Task.applyKey updates) t).createdAt = t.createdAt := by
  induction keys generalizing t with
  | nil => exact ⟨rfl, rfl⟩
  | cons k ks ih =>
    rw [List.foldl_cons]
    obtain ⟨h1, h2⟩ := ih (Task.applyKey updates t k)
    rw [h1, h2]
    unfold Task.applyKey Task.setField
    split_ifs <;> exact ⟨rfl, rfl⟩

theorem Task.eta (t : Task) :
    t = { id := t.id, title := t.title, description := t.description,
          assignee := t.assignee, priority := t.priority, status := t.status,
          dueDate := t.dueDate, createdAt := t.createdAt, updatedAt := t.updatedAt } := by
  cases t; rfl

theorem Task.updateTask_eq (now : Int) (t : Task) (updates : Obj) :
    Task.updateTask now t updates =
      { id := t.id
        title := updatedField updates "title" t.title
        description := updatedField updates "description" t.description
        assignee := updatedField updates "assignee" t.assignee
        priority := updatedField updates "priority" t.priority
        status := t.status
        dueDate := updatedField updates "dueDate" t.dueDate
        createdAt := t.createdAt
        updatedAt := some now } := by
  have h1 := Task.updateTask_field updates Task.title "title" (by decide) Task.setField_title t
  have h2 := Task.updateTask_field updates Task.description "description" (by decide)
    Task.setField_description t
  have h3 := Task.updateTask_field updates Task.assignee "assignee" (by decide)
    Task.setField_assignee t
  have h4 := Task.updateTask_field updates Task.priority "priority" (by decide)
    Task.setField_priority t
  have h5 := Task.updateTask_field updates Task.dueDate "dueDate" (by decide)
    Task.setField_dueDate t
  have h6 := Task.foldl_applyKey_id updates updates.keys t
  obtain ⟨h7, h8⟩ := Task.foldl_applyKey_frame updates updates.keys t
  rw [Task.eta (Task.updateTask now t updates)]
  simp only [Task.updateTask, h1, h2, h3, h4, h5, h6, h7, h8]

theorem Task.mutate_status (t : Task) (call : Mutation) (h : t.status ∈ validStatuses) :
    (t.mutate call).status ∈ validStatuses := by
  cases call with
  | updateStatus now newStatus =>
    simp only [Task.mutate, Task.updateStatus]
    split
    · rename_i hc
      simpa using hc
    · exact h
  | updateTask now updates =>
    simp only [Task.mutate, Task.updateTask_eq]
    exact h

theorem Task.mutateAll_status (calls : List Mutation) (t : Task)
    (h : t.status ∈ validStatuses) : (t.mutateAll calls).status ∈ validStatuses := by
  induction calls generalizing t with
  | nil => exact h
  | cons call rest ih => exact ih (t.mutate call) (Task.mutate_status t call h)

theorem findIndex_spec {α : Type} (p : α → Bool) (l : List α) (i : Nat)
    (h : findIndex p l = some i) :
    l.eraseIdx i = l.eraseP p ∧ l[i]? = l.find? p := by
  induction l generalizing i with
  | nil => simp [findIndex] at h
  | cons x xs ih =>
    by_cases hx : p x = true
    · simp only [findIndex, hx, if_true, Option.some.injEq] at h
      subst h
      simp [List.eraseP_cons, hx, List.find?_cons]
    · have hx' : p x = false := by simpa using hx
      simp only [findIndex, hx', Bool.false_eq_true, if_false, Option.map_eq_some'] at h
      obtain ⟨j, hj, rfl⟩ := h
      obtain ⟨h1, h2⟩ := ih j hj
      simp [List.eraseP_cons, hx', List.find?_cons, h1, h2]

theorem findIndex_isSome_of_mem {α : Type} (p : α → Bool) (l : List α) (x : α)
    (hx : x ∈ l) (hp : p x = true) : ∃ i, findIndex p l = some i := by
  induction l with
  | nil => simp at hx
  | cons y ys ih =>
    by_cases hy : p y = true
    · exact ⟨0, by simp [findIndex, hy]⟩
    · have hy' : p y = false := by simpa using hy
      rcases List.mem_cons.mp hx with rfl | hmem
      · exact absurd hp hy
      · obtain ⟨j, hj⟩ := ih hmem
        exact ⟨j + 1, by simp [findIndex, hy', hj]⟩

theorem List.not_of_mem_eraseP_of_nodup {α β : Type} [DecidableEq β] (g : α → β) (a : β)
    (l : List α) (h : (l.map g).Nodup) :
    ∀ x ∈ l.eraseP (fun t => decide (g t = a)), g x ≠ a := by
  induction l with
  | nil => simp
  | cons y ys ih =>
    simp only [List.map_cons, List.nodup_cons] at h
    intro x hx
    by_cases hy : g y = a
    · simp only [List.eraseP_cons, hy, decide_True, if_true] at hx
      intro hxa
      apply h.1
      rw [hy, ← hxa]
      exact List.mem_map_of_mem g hx
    · simp only [List.eraseP_cons, hy, decide_False, Bool.false_eq_true, if_false] at hx
      rcases List.mem_cons.mp hx with hxy | hmem
      · rw [hxy]; exact hy
      · exact ih h.2 x hmem

theorem TaskController.deleteTask_found (env : Env) (id : Val) (s : State) (h : s.WF)
    (hmem : ∃ t ∈ s.ctrlView, t.id = id) :
    (TaskController.deleteTask env id s).1.map s.task =
      s.ctrlView.find? (fun t => decide (t.id = id)) ∧
    (TaskController.deleteTask env id s).2.ctrlView =
      s.ctrlView.eraseP (fun t => decide (t.id = id)) ∧
    (TaskController.deleteTask env id s).2.objs = s.objs := by
  obtain ⟨t, ht, hid⟩ := hmem
  obtain ⟨r, hr, rfl⟩ := List.mem_map.mp ht
  obtain ⟨i, hi⟩ := findIndex_isSome_of_mem (fun r => decide ((s.task r).id = id))
    (s.array s.ctrlTasks) r hr (by simpa using hid)
  obtain ⟨h1, h2⟩ := findIndex_spec _ _ i hi
  have hcomp : ((fun t : Task => decide (t.id = id)) ∘ s.task) =
      (fun r => decide ((s.task r).id = id)) := rfl
  have hdel : TaskController.deleteTask env id s =
      (some ((s.array s.ctrlTasks).getD i 0),
       TaskController.saveTasksToStorage env
        { s with arrs := s.arrs.set s.ctrlTasks ((s.array s.ctrlTasks).eraseIdx i) }) := by
    unfold TaskController.deleteTask
    rw [hi]
  rw [hdel]
  refine ⟨?_, ?_, ?_⟩
  · simp only [Option.map_some', State.ctrlView, State.view, List.find?_map, hcomp, ← h2]
    cases hget : (s.array s.ctrlTasks)[i]? with
    | none =>
      rw [hget] at h2
      have := List.find?_eq_none.mp h2.symm r hr
      simp [hid] at this
    | some x => simp [List.getD_eq_getElem?_getD, hget]
  · show List.map s.task ((s.arrs.set s.ctrlTasks
      ((s.array s.ctrlTasks).eraseIdx i)).getD s.ctrlTasks []) = _
    rw [State.array_set_same _ _ _ h.1, h1, State.ctrlView, State.view, List.eraseP_map, hcomp]
  · rfl

theorem filterM_eq_filter {α : Type} (p : α → Option Bool) (q : α → Bool) (l : List α)
    (h : ∀ x ∈ l, p x = some (q x)) : filterM p l = some (l.filter q) := by
  induction l with
  | nil => rfl
  | cons x xs ih =>
    have hx := h x (List.mem_cons_self x xs)
    have hxs := ih (fun y hy => h y (List.mem_cons_of_mem x hy))
    cases hq : q x <;> simp [filterM, hx, hxs, hq, List.filter_cons]

theorem TaskStore.passesFilters_eq (env : Env) (s : State) (task : Task) :
    TaskStore.passesFilters env s task = matchesFilters env s.filters task := rfl

theorem TaskStore.getFilteredTasks_eq (env : Env) (s : State) :
    TaskStore.getFilteredTasks env s = filterM (matchesFilters env s.filters) s.storeView := by
  unfold TaskStore.getFilteredTasks
  exact congrArg (fun p => filterM p s.storeView) (funext (TaskStore.passesFilters_eq env s))

theorem matchesFilters_of_no_search (env : Env) (filters : Obj) (t : Task)
    (h : (filters.prop "search").truthy = false) :
    matchesFilters env filters t = some (satisfiesFilters env filters t) := by
  unfold matchesFilters satisfiesFilters
  cases hs : filters.prop "search" with
  | undefined => 
    cases h1 : (filters.prop "status").truthy <;> cases h2 : (filters.prop "assignee").truthy <;>
      cases h3 : (filters.prop "priority").truthy <;>
      by_cases e1 : t.status = filters.prop "status" <;>
      by_cases e2 : t.assignee = filters.prop "assignee" <;>
      by_cases e3 : t.priority = filters.prop "priority" <;> simp [e1, e2, e3]
  | null =>
    cases h1 : (filters.prop "status").truthy <;> cases h2 : (filters.prop "assignee").truthy <;>
      cases h3 : (filters.prop "priority").truthy <;>
      by_cases e1 : t.status = filters.prop "status" <;>
      by_cases e2 : t.assignee = filters.prop "assignee" <;>
      by_cases e3 : t.priority = filters.prop "priority" <;> simp [e1, e2, e3]
  | str search =>
    have hempty : search = "" := by
      rw [hs] at h
      simpa [Val.truthy] using h
    subst hempty
    cases h1 : (filters.prop "status").truthy <;> cases h2 : (filters.prop "assignee").truthy <;>
      cases h3 : (filters.prop "priority").truthy <;>
      by_cases e1 : t.status = filters.prop "status" <;>
      by_cases e2 : t.assignee = filters.prop "assignee" <;>
      by_cases e3 : t.priority = filters.prop "priority" <;> simp [e1, e2, e3]

theorem matchesFilters_of_text (env : Env) (filters : Obj) (t : Task) (h : t.HasText) :
    matchesFilters env filters t = some (satisfiesFilters env filters t) := by
  by_cases hsearch : (filters.prop "search").truthy = false
  · exact matchesFilters_of_no_search env filters t hsearch
  · obtain ⟨htitle, hdescription⟩ := h
    obtain ⟨title, ht⟩ : ∃ title, t.title = .str title := by
      cases hc : t.title <;> simp [hc, Val.isString] at htitle ⊢
    obtain ⟨description, hd⟩ : ∃ description, t.description = .str description := by
      cases hc : t.description <;> simp [hc, Val.isString] at hdescription ⊢
    unfold matchesFilters satisfiesFilters occursIn
    cases hs : filters.prop "search" with
    | undefined => simp [hs, Val.truthy] at hsearch
    | null => simp [hs, Val.truthy] at hsearch
    | str search =>
      have hne : search ≠ "" := by
        intro he
        simp [hs, Val.truthy, he] at hsearch
      cases h1 : (filters.prop "status").truthy <;>
        cases h2 : (filters.prop "assignee").truthy <;>
        cases h3 : (filters.prop "priority").truthy <;>
        by_cases e1 : t.status = filters.prop "status" <;>
        by_cases e2 : t.assignee = filters.prop "assignee" <;>
        by_cases e3 : t.priority = filters.prop "priority" <;>
        cases hi : includes (env.toLowerCase title) (env.toLowerCase search) <;>
        simp [e1, e2, e3, ht, hd, hne, hi]

theorem Obj.prop_assign (o : Obj) (k : String) (v : Val) (k' : String) :
    (Obj.assign o k v).prop k' = if k' = k then v else o.prop k' := by
  induction o with
  | nil =>
    rw [Obj.assign, Obj.prop_cons]
  | cons kv rest ih =>
    obtain ⟨k1, v1⟩ := kv
    by_cases h1 : k1 = k
    · subst h1
      simp only [Obj.assign, if_true, Obj.prop_cons]
      by_cases h : k' = k1
      · rw [if_pos h, if_pos h]
      · rw [if_neg h, if_neg h, if_neg h]
    · simp only [Obj.assign, h1, if_false, Obj.prop_cons, ih]
      by_cases h : k' = k
      · have hk1 : ¬ k' = k1 := fun h' => h1 (h'.symm.trans h)
        rw [if_neg hk1, if_pos h, if_pos h]
      · rw [if_neg h, if_neg h]

theorem Obj.keys_cons (k1 : String) (v1 : Val) (rest : Obj) :
    Obj.keys ((k1, v1) :: rest) = k1 :: Obj.keys rest := rfl

theorem Obj.prop_spread (a b : Obj) (hb : b.keys.Nodup) (k : String) :
    (Obj.spread a b).prop k = if k ∈ b.keys then b.prop k else a.prop k := by
  induction b generalizing a with
  | nil => simp [Obj.spread, Obj.keys]
  | cons kv rest ih =>
    obtain ⟨k1, v1⟩ := kv
    rw [Obj.keys_cons, List.nodup_cons] at hb
    have hstep : Obj.spread a ((k1, v1) :: rest) = Obj.spread (Obj.assign a k1 v1) rest := rfl
    rw [hstep, ih (Obj.assign a k1 v1) hb.2, Obj.prop_assign, Obj.prop_cons, Obj.keys_cons]
    by_cases hk : k = k1
    · subst hk
      rw [if_neg hb.1, if_pos rfl, if_pos (List.mem_cons_self _ _), if_pos rfl]
    · by_cases hmem : k ∈ Obj.keys rest
      · rw [if_pos hmem, if_pos (List.mem_cons_of_mem _ hmem), if_neg hk]
      · have hnot : k ∉ k1 :: Obj.keys rest := by
          intro h
          rcases List.mem_cons.mp h with h | h
          · exact hk h
          · exact hmem h
        rw [if_neg hmem, if_neg hk, if_neg hnot]

theorem MObj.member_prop_cons (k' : String) (v : MVal) (rest : MObj) (k : String) :
    MObj.prop ((k', v) :: rest) k = if k = k' then v else MObj.prop rest k := by
  by_cases hk : k = k'
  · simp [MObj.prop, List.lookup, hk]
  · have hne : (k == k') = false := by simpa using hk
    simp [MObj.prop, List.lookup, hk, hne]

theorem MObj.member_prop_assign (o : MObj) (k : String) (v : MVal) (k' : String) :
    (MObj.assign o k v).prop k' = if k' = k then v else o.prop k' := by
  induction o with
  | nil => rw [MObj.assign, MObj.member_prop_cons]
  | cons kv rest ih =>
    obtain ⟨k1, v1⟩ := kv
    by_cases h1 : k1 = k
    · subst h1
      simp only [MObj.assign, if_true, MObj.member_prop_cons]
      by_cases h : k' = k1
      · rw [if_pos h, if_pos h]
      · rw [if_neg h, if_neg h, if_neg h]
    · simp only [MObj.assign, h1, if_false, MObj.member_prop_cons, ih]
      by_cases h : k' = k
      · have hk1 : ¬ k' = k1 := fun h' => h1 (h'.symm.trans h)
        rw [if_neg hk1, if_pos h, if_pos h]
      · rw [if_neg h, if_neg h]

theorem MObj.member_prop_foldl_assign (source : MObj) (keys : List String) (target : MObj)
    (k : String) :
    (keys.foldl (fun acc key => MObj.assign acc key (source.prop key)) target).prop k =
      if k ∈ keys then source.prop k else target.prop k := by
  induction keys generalizing target with
  | nil => simp
  | cons k1 ks ih =>
    rw [List.foldl_cons, ih, MObj.member_prop_assign]
    by_cases hk : k = k1
    · subst hk
      by_cases hmem : k ∈ ks
      · rw [if_pos hmem, if_pos (List.mem_cons_of_mem _ hmem)]
      · rw [if_neg hmem, if_pos rfl, if_pos (List.mem_cons_self _ _)]
    · by_cases hmem : k ∈ ks
      · rw [if_pos hmem, if_pos (List.mem_cons_of_mem _ hmem)]
      · have hnot : k ∉ k1 :: ks := by
          intro h
          rcases List.mem_cons.mp h with h | h
          · exact hk h
          · exact hmem h
        rw [if_neg hmem, if_neg hk, if_neg hnot]

theorem MObj.member_prop_assignAll (target source : MObj) (k : String) :
    (MObj.assignAll target source).prop k =
      if k ∈ source.keys then source.prop k else target.prop k :=
  MObj.member_prop_foldl_assign source source.keys target k

theorem TeamMemberController.getMemberById_some (id : MVal) (ms : MemberState) (r : Nat)
    (h : ms.WF) (hfind : TeamMemberController.getMemberById id ms = some r) :
    r ∈ ms.members ∧ r < ms.objs.length ∧ (ms.member r).prop "id" = id := by
  unfold TeamMemberController.getMemberById at hfind
  have hmem := List.mem_of_find?_eq_some hfind
  have hp := List.find?_some hfind
  exact ⟨hmem, h r hmem, by simpa using hp⟩

theorem MemberState.member_set_self (ms : MemberState) (r : Nat) (m : MObj)
    (h : r < ms.objs.length) : (ms.objs.set r m).getD r [] = m := by
  simp [List.getD_eq_getElem?_getD, List.getElem?_set_self h]

theorem MemberState.member_set_other (ms : MemberState) (r r' : Nat) (m : MObj)
    (h : r' ≠ r) : (ms.objs.set r m).getD r' [] = ms.member r' := by
  simp [MemberState.member, List.getD_eq_getElem?_getD, List.getElem?_set_ne (Ne.symm h)]

theorem TeamMemberController.updateMember_found (env : Env) (id : MVal) (updates : MObj)
    (ms : MemberState) (r : Nat) (h : ms.WF)
    (hfind : TeamMemberController.getMemberById id ms = some r) :
    (TeamMemberController.updateMember env id updates ms).1 = some r ∧
    (TeamMemberController.updateMember env id updates ms).2.member r =
      MObj.assignAll (ms.member r) updates ∧
    (∀ r', r' ≠ r →
      (TeamMemberController.updateMember env id updates ms).2.member r' = ms.member r') ∧
    (TeamMemberController.updateMember env id updates ms).2.members = ms.members := by
  obtain ⟨_, hlt, _⟩ := TeamMemberController.getMemberById_some id ms r h hfind
  unfold TeamMemberController.updateMember
  rw [hfind]
  refine ⟨rfl, ?_, ?_, rfl⟩
  · exact MemberState.member_set_self ms r _ hlt
  · intro r' hr'
    exact MemberState.member_set_other ms r r' _ hr'

theorem TeamMemberController.deleteMember_found (env : Env) (id : MVal) (ms : MemberState)
    (r : Nat) (h : ms.WF) (hfind : TeamMemberController.getMemberById id ms = some r) :
    (TeamMemberController.deleteMember env id ms).1 = some r ∧
    (TeamMemberController.deleteMember env id ms).2.member r =
      TeamMember.deactivate (ms.member r) ∧
    (∀ r', r' ≠ r →
      (TeamMemberController.deleteMember env id ms).2.member r' = ms.member r') ∧
    (TeamMemberController.deleteMember env id ms).2.members = ms.members := by
  obtain ⟨_, hlt, _⟩ := TeamMemberController.getMemberById_some id ms r h hfind
  unfold TeamMemberController.deleteMember
  rw [hfind]
  refine ⟨rfl, ?_, ?_, rfl⟩
  · exact MemberState.member_set_self ms r _ hlt
  · intro r' hr'
    exact MemberState.member_set_other ms r r' _ hr'

theorem TeamMemberController.deleteMember_prop (env : Env) (id : MVal) (ms : MemberState)
    (h : ms.WF) (r' : Nat) (key : String) (hkey : key ≠ "isActive") :
    ((TeamMemberController.deleteMember env id ms).2.member r').prop key =
      (ms.member r').prop key := by
  cases hfind : TeamMemberController.getMemberById id ms with
  | none => simp [TeamMemberController.deleteMember, hfind]
  | some r =>
    obtain ⟨_, h2, h3, _⟩ := TeamMemberController.deleteMember_found env id ms r h hfind
    by_cases hr : r' = r
    · subst hr
      rw [h2, TeamMember.deactivate, MObj.member_prop_assign, if_neg hkey]
    · rw [h3 r' hr]

theorem Obj.assign_ne_nil (o : Obj) (k : String) (v : Val) : Obj.assign o k v ≠ [] := by
  cases o with
  | nil => simp [Obj.assign]
  | cons kv rest =>
    obtain ⟨k1, v1⟩ := kv
    simp only [Obj.assign]
    split <;> simp

theorem TeamMembers.existingMember_isSome (ms : MemberState) (page : MembersPage) (r : Nat)
    (hadding : page.editingMember = none) (hlisted : r ∈ page.members)
    (hemail : (ms.member r).prop "email" = .val (.str page.formData.email)) :
    ∃ x, TeamMembers.existingMember ms page = some x := by
  unfold TeamMembers.existingMember
  cases hfind : page.members.find? _ with
  | some x => exact ⟨x, rfl⟩
  | none =>
    have := List.find?_eq_none.mp hfind r hlisted
    simp [hadding, hemail] at this

theorem TeamMembers.formErrors_of_existing (ms : MemberState) (page : MembersPage) (r : Nat)
    (hadding : page.editingMember = none) (hlisted : r ∈ page.members)
    (hemail : (ms.member r).prop "email" = .val (.str page.formData.email)) :
    ((TeamMembers.formErrors ms page).prop "email").truthy = true ∧
    TeamMembers.formErrors ms page ≠ [] := by
  obtain ⟨x, hx⟩ := TeamMembers.existingMember_isSome ms page r hadding hlisted hemail
  unfold TeamMembers.formErrors
  simp only [hx]
  split_ifs <;>
    exact ⟨by rw [Obj.prop_assign, if_pos rfl]; rfl, Obj.assign_ne_nil _ _ _⟩

theorem TeamMembers.formErrors_of_free (ms : MemberState) (page : MembersPage)
    (hname : trim page.formData.name ≠ "") (hblank : trim page.formData.email ≠ "")
    (hpattern : emailPattern page.formData.email = true)
    (hfree : TeamMembers.existingMember ms page = none) :
    TeamMembers.formErrors ms page = [] := by
  unfold TeamMembers.formErrors
  simp [hname, hblank, hpattern, hfree]

theorem TeamMemberController.createMember_spec (env : Env) (data : MObj) (ms : MemberState) :
    (TeamMemberController.createMember env data ms).1 = ms.objs.length ∧
    (TeamMemberController.createMember env data ms).2.members =
      ms.members ++ [ms.objs.length] ∧
    (TeamMemberController.createMember env data ms).2.member ms.objs.length =
      TeamMember.new (env.random ms.randomReads) (env.clock ms.clockReads)
        (data.prop "name") (data.prop "email") (data.prop "role") := by
  refine ⟨rfl, rfl, ?_⟩
  simp [TeamMemberController.createMember, TeamMemberController.saveMembersToStorage,
    MemberState.member, List.getD_eq_getElem?_getD]

theorem TeamMembers.handleDeleteMember_confirmed (env : Env) (memberId : MVal)
    (ms : MemberState) (page : MembersPage) :
    TeamMembers.handleDeleteMember env true memberId ms page =
      ((TeamMemberController.deleteMember env memberId ms).2,
       { page with
         members := page.members.filter (fun x => decide
           (((TeamMemberController.deleteMember env memberId ms).2.member x).prop "id" ≠
             memberId)) }) := by
  simp [TeamMembers.handleDeleteMember]

theorem TeamMembers.existingMember_after_delete (env : Env) (ms : MemberState)
    (page : MembersPage) (r : Nat) (hwf : ms.WF) (hadding : page.editingMember = none)
    (honly : ∀ x ∈ page.members,
      (ms.member x).prop "email" = .val (.str page.formData.email) → x = r) :
    TeamMembers.existingMember
      (TeamMembers.handleDeleteMember env true ((ms.member r).prop "id") ms page).1
      (TeamMembers.handleDeleteMember env true ((ms.member r).prop "id") ms page).2 = none := by
  rw [TeamMembers.handleDeleteMember_confirmed]
  unfold TeamMembers.existingMember
  apply List.find?_eq_none.mpr
  intro x hx
  obtain ⟨hxmem, hxid⟩ := List.mem_filter.mp hx
  have hid := TeamMemberController.deleteMember_prop env ((ms.member r).prop "id") ms hwf x "id"
    (by decide)
  have hmail := TeamMemberController.deleteMember_prop env ((ms.member r).prop "id") ms hwf x
    "email" (by decide)
  simp only [hadding, Bool.and_true, decide_eq_true_eq]
  intro he
  rw [hmail] at he
  have hxr := honly x hxmem he
  subst hxr
  rw [hid] at hxid
  simp at hxid

theorem emailPattern_sample_values :
    emailPattern "ann@team.org" = true ∧ emailPattern "a@b..c" = true ∧
    emailPattern "@team.org" = false ∧ emailPattern "ann@.org" = false ∧
    emailPattern "ann@team" = false ∧ emailPattern "ann @team.org" = false ∧
    emailPattern "x ann@team.org y" = true ∧ trim "  Bob \n" = "Bob" ∧ trim " \t " = "" := by
  decide

theorem MObj.member_prop_of_not_mem (o : MObj) (k : String) (h : k ∉ o.keys) :
    MObj.prop o k = .val .undefined := by
  induction o with
  | nil => rfl
  | cons kv rest ih =>
    obtain ⟨k', v⟩ := kv
    have hne : k ≠ k' := fun hk => h (by simp [MObj.keys, hk])
    have hrest : k ∉ MObj.keys rest := fun hk => h (by
      simp only [MObj.keys, List.map_cons, List.mem_cons]
      exact Or.inr hk)
    rw [MObj.member_prop_cons, if_neg hne]
    exact ih hrest

theorem filterM_eq_none {α : Type} (p : α → Option Bool) (l : List α) (x : α)
    (hx : x ∈ l) (hp : p x = none) : filterM p l = none := by
  induction l with
  | nil => cases hx
  | cons y ys ih =>
    rcases List.mem_cons.mp hx with h | h
    · subst h
      simp [filterM, hp]
    · cases hy : p y with
      | none => simp [filterM, hy]
      | some keep => simp [filterM, hy, ih h]

theorem filterM_total {α : Type} (p : α → Option Bool) (l : List α)
    (h : ∀ x ∈ l, ∃ b, p x = some b) : ∃ res, filterM p l = some res := by
  induction l with
  | nil => exact ⟨[], rfl⟩
  | cons y ys ih =>
    obtain ⟨b, hb⟩ := h y (List.mem_cons_self y ys)
    obtain ⟨res, hres⟩ := ih (fun x hx => h x (List.mem_cons_of_mem y hx))
    exact ⟨if b then y :: res else res, by simp [filterM, hb, hres]⟩

theorem matchesFilters_of_untitled (env : Env) (filters : Obj) (t : Task) (search : String)
    (hstatus : (filters.prop "status").truthy = false)
    (hassignee : (filters.prop "assignee").truthy = false)
    (hpriority : (filters.prop "priority").truthy = false)
    (hsearch : filters.prop "search" = .str search) (hne : search ≠ "")
    (htitle : t.title = .undefined) :
    matchesFilters env filters t = none := by
  simp [matchesFilters, hstatus, hassignee, hpriority, hsearch, hne, htitle]

theorem Task.updateTask_stamps (now : Int) (t : Task) (updates : Obj) :
    (Task.updateTask now t updates).updatedAt = some now ∧
    (Task.updateTask now t updates).createdAt = t.createdAt := by
  rw [Task.updateTask_eq]
  exact ⟨rfl, rfl⟩

theorem Task.mutate_stamps (t : Task) (call : Mutation) :
    (t.mutate call).createdAt = t.createdAt ∧
    (t.mutate call).updatedAt =
      match call.reading with
      | some now => some now
      | none => t.updatedAt := by
  cases call with
  | updateStatus now newStatus =>
    by_cases hv : newStatus ∈ validStatuses
    · simp [Task.mutate, Task.updateStatus, Mutation.reading, hv]
    · simp [Task.mutate, Task.updateStatus, Mutation.reading, hv]
  | updateTask now updates =>
    obtain ⟨h1, h2⟩ := Task.updateTask_stamps now t updates
    exact ⟨h2, by simpa [Task.mutate, Mutation.reading] using h1⟩

theorem Task.mutateAll_stamps (calls : List Mutation) (t : Task) (c u : Int)
    (hc : t.createdAt = some c) (hu : t.updatedAt = some u) (hcu : c ≤ u)
    (hclock : List.Chain (fun a b => a ≤ b) u (calls.filterMap Mutation.reading)) :
    ∃ u', (t.mutateAll calls).createdAt = some c ∧
      (t.mutateAll calls).updatedAt = some u' ∧ c ≤ u' ∧ u ≤ u' := by
  induction calls generalizing t u with
  | nil => exact ⟨u, hc, hu, hcu, le_refl u⟩
  | cons call rest ih =>
    obtain ⟨h1, h2⟩ := Task.mutate_stamps t call
    show ∃ u', ((t.mutate call).mutateAll rest).createdAt = some c ∧
      ((t.mutate call).mutateAll rest).updatedAt = some u' ∧ c ≤ u' ∧ u ≤ u'
    cases hr : call.reading with
    | none =>
      rw [hr] at h2
      have hclock' : List.Chain (fun a b => a ≤ b) u (rest.filterMap Mutation.reading) := by
        simpa [List.filterMap_cons, hr] using hclock
      exact ih (t.mutate call) u (h1.trans hc) (h2.trans hu) hcu hclock'
    | some now =>
      rw [hr] at h2
      have hclock' : List.Chain (fun a b => a ≤ b) u
          (now :: rest.filterMap Mutation.reading) := by
        simpa [List.filterMap_cons, hr] using hclock
      obtain ⟨hle, htail⟩ := List.chain_cons.mp hclock'
      obtain ⟨u', h3, h4, h5, h6⟩ :=
        ih (t.mutate call) now (h1.trans hc) h2 (le_trans hcu hle) htail
      exact ⟨u', h3, h4, h5, le_trans hle h6⟩

theorem State.byStatus_partition (s : State) (refs : List Nat)
    (h : ∀ r ∈ refs, (s.task r).status ∈ validStatuses) :
    (s.byStatus refs (.str "todo")).length + (s.byStatus refs (.str "in-progress")).length +
      (s.byStatus refs (.str "completed")).length = refs.length := by
  induction refs with
  | nil => rfl
  | cons r rs ih =>
    have ih' := ih (fun x hx => h x (List.mem_cons_of_mem r hx))
    have hr := h r (List.mem_cons_self r rs)
    simp only [State.byStatus] at ih' ⊢
    simp only [validStatuses, List.mem_cons, List.mem_singleton, List.not_mem_nil,
      or_false] at hr
    rcases hr with hr | hr | hr <;> simp [List.filter_cons, hr] <;> omega

theorem State.overdue_spec (env : Env) (s : State) (refs : List Nat) (k : Nat) :
    (∀ r ∈ (s.overdue env refs k).1,
      r ∈ refs ∧ (s.task r).status ≠ .str "completed" ∧ (s.task r).dueDate.truthy = true) ∧
    (s.overdue env refs k).1.length + (s.byStatus refs (.str "completed")).length ≤
      refs.length := by
  induction refs generalizing k with
  | nil => exact ⟨fun r hr => absurd hr (List.not_mem_nil r), by simp [State.overdue, State.byStatus]⟩
  | cons x xs ih =>
    obtain ⟨ih1, ih2⟩ := ih (Task.isOverdue env (s.task x) k).2
    have hstep : (s.overdue env (x :: xs) k).1 =
        if (Task.isOverdue env (s.task x) k).1 then
          x :: (s.overdue env xs (Task.isOverdue env (s.task x) k).2).1
        else (s.overdue env xs (Task.isOverdue env (s.task x) k).2).1 := rfl
    rw [hstep]
    cases hov : (Task.isOverdue env (s.task x) k).1 with
    | false =>
      simp only [Bool.false_eq_true, if_false]
      refine ⟨fun r hr => ?_, ?_⟩
      · obtain ⟨h1, h2⟩ := ih1 r hr
        exact ⟨List.mem_cons_of_mem x h1, h2⟩
      · simp only [State.byStatus, List.filter_cons] at ih2 ⊢
        split <;> simp only [List.length_cons] <;> omega
    | true =>
      have hdue : (s.task x).dueDate.truthy = true := by
        cases hd : (s.task x).dueDate.truthy with
        | true => rfl
        | false =>
          rw [Task.isOverdue_of_no_dueDate env _ k hd] at hov
          cases hov
      have hstatus : (s.task x).status ≠ .str "completed" := fun hc => by
        rw [Task.isOverdue_of_completed env _ k hc] at hov
        cases hov
      simp only [if_true]
      refine ⟨fun r hr => ?_, ?_⟩
      · rcases List.mem_cons.mp hr with h | h
        · subst h
          exact ⟨List.mem_cons_self _ _, hstatus, hdue⟩
        · obtain ⟨h1, h2⟩ := ih1 r h
          exact ⟨List.mem_cons_of_mem x h1, h2⟩
      · simp only [State.byStatus, List.filter_cons, hstatus, decide_False,
          Bool.false_eq_true, if_false, List.length_cons] at ih2 ⊢
        omega

theorem List.filter_not_eraseP {α : Type} (p : α → Bool) (l : List α) :
    (l.eraseP p).filter (fun x => !p x) = l.filter (fun x => !p x) := by
  induction l with
  | nil => rfl
  | cons x xs ih =>
    cases hp : p x with
    | true => simp [List.eraseP_cons, List.filter_cons, hp]
    | false => simp [List.eraseP_cons, List.filter_cons, hp, ih]

theorem List.eraseP_eq_filter_of_nodup {α β : Type} [DecidableEq β] (g : α → β) (a : β)
    (l : List α) (h : (l.map g).Nodup) :
    l.eraseP (fun t => decide (g t = a)) = l.filter (fun t => !decide (g t = a)) := by
  induction l with
  | nil => rfl
  | cons x xs ih =>
    rw [List.map_cons, List.nodup_cons] at h
    by_cases hx : g x = a
    · have hrest : ∀ y ∈ xs, (!decide (g y = a)) = true := by
        intro y hy
        have hne : g y ≠ a := fun hya => h.1 (List.mem_map.mpr ⟨y, hy, hya.trans hx.symm⟩)
        simp [hne]
      simp [List.eraseP_cons, List.filter_cons, hx, List.filter_eq_self.mpr hrest]
    · simp [List.eraseP_cons, List.filter_cons, hx, ih h.2]

theorem State.view_installed (st : State) (l : List Nat) (hctrl : st.ctrlTasks < st.arrs.length) :
    (({ (st.allocArray l).2 with storeTasks := (st.allocArray l).1, error := .null } :
        State).emitChange).storeView = l.map st.task ∧
    (({ (st.allocArray l).2 with storeTasks := (st.allocArray l).1, error := .null } :
        State).emitChange).ctrlView = st.ctrlView := by
  constructor
  · simp [State.emitChange, State.allocArray, State.storeView, State.view, State.array,
      State.task, List.getD_eq_getElem?_getD]
  · simp [State.emitChange, State.allocArray, State.ctrlView, State.view, State.array,
      State.task, List.getD_eq_getElem?_getD, List.getElem?_append_left hctrl]

theorem TaskStore.deleteTask_views (env : Env) (id : Val) (s : State) (h : s.WF)
    (hmem : ∃ t ∈ s.ctrlView, t.id = id) :
    (TaskStore.deleteTask env id s).ctrlView =
      s.ctrlView.eraseP (fun t => decide (t.id = id)) ∧
    (TaskStore.deleteTask env id s).storeView =
      s.storeView.filter (fun t => !decide (t.id = id)) := by
  obtain ⟨_, hview, hobjs⟩ := TaskController.deleteTask_found env id s h hmem
  obtain ⟨t, ht, hid⟩ := hmem
  obtain ⟨r, hr, rfl⟩ := List.mem_map.mp ht
  obtain ⟨i, hi⟩ := findIndex_isSome_of_mem (fun r => decide ((s.task r).id = id))
    (s.array s.ctrlTasks) r hr (by simpa using hid)
  have hdel : TaskController.deleteTask env id s =
      (some ((s.array s.ctrlTasks).getD i 0),
       TaskController.saveTasksToStorage env
        { s with arrs := s.arrs.set s.ctrlTasks ((s.array s.ctrlTasks).eraseIdx i) }) := by
    unfold TaskController.deleteTask
    rw [hi]
  generalize hst : (TaskController.deleteTask env id s).2 = st at hview hobjs
  have hfst : (TaskController.deleteTask env id s).1 = some ((s.array s.ctrlTasks).getD i 0) := by
    rw [hdel]
  have hctrl : st.ctrlTasks < st.arrs.length := by
    rw [← hst, hdel]
    simpa [TaskController.saveTasksToStorage] using h.1
  have htask : st.task = s.task := by
    funext x
    simp [State.task, hobjs]
  have hstore : st.view st.storeTasks =
      if s.storeTasks = s.ctrlTasks then s.ctrlView.eraseP (fun t => decide (t.id = id))
      else s.storeView := by
    by_cases halias : s.storeTasks = s.ctrlTasks
    · rw [if_pos halias, ← hview]
      have : st.storeTasks = st.ctrlTasks := by
        rw [← hst, hdel]
        exact halias
      rw [this]
      rfl
    · rw [if_neg halias, ← hst, hdel]
      simp [TaskController.saveTasksToStorage, State.view, State.array, State.storeView,
        State.task, List.getD_eq_getElem?_getD, List.getElem?_set_ne (Ne.symm halias)]
  have hfinal : TaskStore.deleteTask env id s =
      ({ (st.allocArray ((st.array st.storeTasks).filter
            (fun r => decide ((st.task r).id ≠ id)))).2 with
          storeTasks := (st.allocArray ((st.array st.storeTasks).filter
            (fun r => decide ((st.task r).id ≠ id)))).1,
          error := .null } : State).emitChange := by
    unfold TaskStore.deleteTask
    simp only [hfst, hst]
  obtain ⟨h1, h2⟩ := State.view_installed st ((st.array st.storeTasks).filter
    (fun r => decide ((st.task r).id ≠ id))) hctrl
  rw [hfinal, h1, h2]
  refine ⟨hview, ?_⟩
  have hmap : ((st.array st.storeTasks).filter (fun r => decide ((st.task r).id ≠ id))).map
      st.task = (st.view st.storeTasks).filter (fun t => !decide (t.id = id)) := by
    rw [State.view, List.filter_map]
    congr 1
    apply List.filter_congr
    intro x _
    simp
  rw [hmap, hstore]
  by_cases halias : s.storeTasks = s.ctrlTasks
  · rw [if_pos halias, List.filter_not_eraseP (fun t : Task => decide (t.id = id))]
    simp [State.storeView, State.ctrlView, halias]
  · rw [if_neg halias]
theorem TaskStore.updateTask_views (env : Env) (id : Val) (updates : Obj) (s : State)
    (r : Nat) (h : s.WF) (hfind : TaskController.getTaskById id s = some r) :
    (∀ x, x ≠ r → (TaskStore.updateTask env id updates s).task x = s.task x) ∧
    (TaskStore.updateTask env id updates s).array
        (TaskStore.updateTask env id updates s).storeTasks =
      (s.array s.storeTasks).map (fun x => if (s.task x).id = id then r else x) := by
  obtain ⟨hlt, _⟩ := TaskController.getTaskById_some id s r h hfind
  have hobjs : (TaskStore.updateTask env id updates s).objs =
      s.objs.set r (Task.updateTask (env.clock s.clockReads) (s.task r) updates) := by
    simp [TaskStore.updateTask, TaskController.updateTask, hfind,
      TaskController.saveTasksToStorage, State.allocArray, State.emitChange]
  have hids : ∀ x, ((s.objs.set r (Task.updateTask (env.clock s.clockReads) (s.task r)
      updates)).getD x default).id = (s.task x).id := by
    intro x
    by_cases hx : x = r
    · subst hx
      simp only [List.getD_eq_getElem?_getD, List.getElem?_set_self hlt, Option.getD_some]
      exact Task.updateTask_id _ _ _
    · simp [State.task, List.getD_eq_getElem?_getD, List.getElem?_set_ne (Ne.symm hx)]
  constructor
  · intro x hx
    simp [State.task, hobjs, List.getD_eq_getElem?_getD, List.getElem?_set_ne (Ne.symm hx)]
  · simp only [TaskStore.updateTask, TaskController.updateTask, hfind,
      TaskController.saveTasksToStorage, State.allocArray, State.emitChange, State.array,
      State.task]
    simp only [List.getD_eq_getElem?_getD, List.getElem?_append_right (le_refl _),
      Nat.sub_self, List.getElem?_cons_zero, Option.getD_some]
    apply List.map_congr_left
    intro x _
    have := hids x
    simp only [List.getD_eq_getElem?_getD, State.task] at this
    rw [this]

theorem Obj.keys_assign_length_pos (o : Obj) (k : String) (v : Val) :
    (Obj.assign o k v).keys.length ≠ 0 := by
  have h := Obj.assign_ne_nil o k v
  cases hcase : Obj.assign o k v with
  | nil => exact absurd hcase h
  | cons kv rest => simp [Obj.keys]

theorem trim_of_white (s : String) (h : ∀ c ∈ s.toList, isWhiteSpace c = true) :
    trim s = "" := by
  have hdrop : s.toList.dropWhile isWhiteSpace = [] :=
    List.dropWhile_eq_nil_iff.mpr h
  unfold trim
  rw [hdrop]
  rfl

theorem List.sum_map_one {α : Type} (l : List α) : (l.map (fun _ => 1)).sum = l.length := by
  induction l with
  | nil => rfl
  | cons x xs ih =>
    rw [List.map_cons, List.sum_cons, ih, List.length_cons]
    omega

theorem jsLength_of_basic (s : String) (h : ∀ c ∈ s.toList, c.toNat < 65536) :
    jsLength s = s.length := by
  unfold jsLength
  have hmap : s.toList.map (fun c => if c.toNat < 65536 then 1 else 2) =
      s.toList.map (fun _ => 1) :=
    List.map_congr_left (fun c hc => if_pos (h c hc))
  rw [hmap, List.sum_map_one]
  rfl

theorem TaskForm.validateForm_no_dueDate (env : Env) (startOfDay : Int → Int) (now : Int)
    (formData : TaskFormData) (hdue : formData.dueDate = "") :
    (TaskForm.validateForm env startOfDay now formData).1 = true ↔
      trim formData.title ≠ "" ∧ jsLength formData.title ≤ 100 ∧
        jsLength formData.description ≤ 500 := by
  have hpos := Obj.keys_assign_length_pos
  have hval : (TaskForm.validateForm env startOfDay now formData).1 =
      decide ((TaskForm.newErrors env startOfDay now formData).keys.length = 0) := rfl
  rw [hval, decide_eq_true_iff]
  unfold TaskForm.newErrors
  simp only [hdue, ne_eq, not_true_eq_false, if_false]
  by_cases h3 : jsLength formData.description > 500
  · rw [if_pos h3]
    constructor
    · intro h
      exact absurd h (hpos _ _ _)
    · intro h
      omega
  · rw [if_neg h3]
    by_cases h2 : jsLength formData.title > 100
    · rw [if_pos h2]
      constructor
      · intro h
        exact absurd h (hpos _ _ _)
      · intro h
        omega
    · rw [if_neg h2]
      by_cases h1 : trim formData.title = ""
      · rw [if_pos h1]
        constructor
        · intro h
          exact absurd h (hpos _ _ _)
        · intro h
          exact absurd h1 h.1
      · rw [if_neg h1]
        constructor
        · intro _
          exact ⟨h1, by omega, by omega⟩
        · intro _
          rfl

theorem WeatherApp.step_inStep (env : Env) (app : WeatherApp) (event : WeatherEvent)
    (h : app.InStep env) : (app.step env event).InStep env := by
  obtain ⟨h1, h2⟩ := h
  cases event with
  | submit input =>
    by_cases hblank : trim input = ""
    · have hsame : app.step env (.submit input) = app := by
        simp [WeatherApp.step, WeatherForm.handleSubmit, hblank, WeatherController.effect]
      rw [hsame]
      exact ⟨h1, h2⟩
    · by_cases hcity : some (trim input) = app.state.city
      · have hstep : app.step env (.submit input) =
            { state := { city := some (trim input), weather := none, error := none },
              pending := app.pending } := by
          simp [WeatherApp.step, WeatherForm.handleSubmit, hblank, WeatherController.effect,
            weatherReducer, hcity]
        rw [hstep]
        refine ⟨fun hne => ?_, fun _ data hdata => ?_⟩
        · exact hcity.trans (h1 hne)
        · cases hdata
      · have hstep : app.step env (.submit input) =
            { state := { city := some (trim input), weather := none, error := none },
              pending := app.pending ++ [trim input] } := by
          simp [WeatherApp.step, WeatherForm.handleSubmit, hblank, WeatherController.effect,
            weatherReducer, hcity]
        rw [hstep]
        refine ⟨fun _ => ?_, fun hnil => ?_⟩
        · simp
        · simp at hnil
  | timer =>
    cases hp : app.pending with
    | nil =>
      have hsame : app.step env .timer = app := by
        simp [WeatherApp.step, WeatherController.settle, hp]
      rw [hsame]
      exact ⟨h1, h2⟩
    | cons city rest =>
      have hlast : app.state.city = (city :: rest).getLast? := by
        rw [← hp]
        exact h1 (by simp [hp])
      cases hfetch : fetchFakeWeather env city with
      | ok data =>
        have hstep : app.step env .timer =
            { state := { city := app.state.city, weather := some data, error := none },
              pending := rest } := by
          simp [WeatherApp.step, WeatherController.settle, hp, hfetch, weatherReducer]
        rw [hstep]
        refine ⟨fun hne => ?_, fun hnil d hd => ?_⟩
        · obtain ⟨x, xs, rfl⟩ := List.exists_cons_of_ne_nil hne
          rw [hlast, List.getLast?_cons_cons]
        · have hnil' : rest = [] := hnil
          subst hnil'
          have hd' : data = d := Option.some.inj hd
          subst hd'
          exact ⟨city, by simpa using hlast, hfetch⟩
      | error err =>
        have hstep : app.step env .timer =
            { state := { city := app.state.city, weather := none, error := some err.2 },
              pending := rest } := by
          simp [WeatherApp.step, WeatherController.settle, hp, hfetch, weatherReducer]
        rw [hstep]
        refine ⟨fun hne => ?_, fun _ d hd => ?_⟩
        · obtain ⟨x, xs, rfl⟩ := List.exists_cons_of_ne_nil hne
          rw [hlast, List.getLast?_cons_cons]
        · cases hd

theorem WeatherApp.foldl_inStep (env : Env) (events : List WeatherEvent) (app : WeatherApp)
    (h : app.InStep env) : (events.foldl (WeatherApp.step env) app).InStep env := by
  induction events generalizing app with
  | nil => exact h
  | cons event rest ih => exact ih _ (WeatherApp.step_inStep env app event h)

theorem WeatherApp.run_inStep (env : Env) (events : List WeatherEvent) :
    (WeatherApp.run env events).InStep env :=
  WeatherApp.foldl_inStep env events WeatherApp.start
    ⟨fun hne => absurd rfl hne, fun _ data hdata => by cases hdata⟩

/-! ## Claims -/

/-- C1 (the code departs from the claim). A task created with a due date in the past
and then updated through `TaskController.updateTask(id, {status: 'completed'})` keeps
status `todo`, because `status` is not in `allowedFields`, and `isOverdue()` still
returns true. -/
theorem C1_status_update_ignored_task_still_overdue :
    (TaskController.updateTask sampleEnv (overdueState.task 0).id
        [("status", .str "completed")] overdueState).1 = some 0 ∧
    ((TaskController.updateTask sampleEnv (overdueState.task 0).id
        [("status", .str "completed")] overdueState).2.task 0).status = .str "todo" ∧
    (Task.isOverdue sampleEnv
      ((TaskController.updateTask sampleEnv (overdueState.task 0).id
        [("status", .str "completed")] overdueState).2.task 0)
      (TaskController.updateTask sampleEnv (overdueState.task 0).id
        [("status", .str "completed")] overdueState).2.clockReads).1 = true := by
  decide

/-- C2 (as amended). `TaskController.createTask` returns a new task, and afterwards
`getAllTasks()` is the previous collection with exactly that task appended at the end
(one more entity). The new task has status `todo`; `createdAt` and `updatedAt` are the
two successive clock readings of the constructor, so `updatedAt` equals `createdAt`
whenever the clock has not advanced between the two readings. -/
theorem C2_createTask_appends_one_task (env : Env) (taskData : Obj) (s : State) (h : s.WF) :
    (TaskController.createTask env taskData s).2.view
        (TaskController.getAllTasks (TaskController.createTask env taskData s).2) =
      s.view (TaskController.getAllTasks s) ++
        [(TaskController.createTask env taskData s).2.task
          (TaskController.createTask env taskData s).1] ∧
    ((TaskController.createTask env taskData s).2.view
        (TaskController.getAllTasks (TaskController.createTask env taskData s).2)).length =
      (s.view (TaskController.getAllTasks s)).length + 1 ∧
    ((TaskController.createTask env taskData s).2.task
        (TaskController.createTask env taskData s).1).status = .str "todo" ∧
    ((TaskController.createTask env taskData s).2.task
        (TaskController.createTask env taskData s).1).createdAt =
      some (env.clock (s.clockReads + 1)) ∧
    ((TaskController.createTask env taskData s).2.task
        (TaskController.createTask env taskData s).1).updatedAt =
      some (env.clock (s.clockReads + 2)) ∧
    (env.clock (s.clockReads + 2) = env.clock (s.clockReads + 1) →
      ((TaskController.createTask env taskData s).2.task
          (TaskController.createTask env taskData s).1).updatedAt =
        ((TaskController.createTask env taskData s).2.task
          (TaskController.createTask env taskData s).1).createdAt) := by
  have hview := TaskController.createTask_ctrlView env taskData s h
  have htask := TaskController.createTask_task env taskData s
  rw [TaskController.createTask_fst]
  refine ⟨hview, ?_, ?_, ?_, ?_, ?_⟩
  · have := congrArg List.length hview
    simpa [State.ctrlView] using this
  · rw [htask]; rfl
  · rw [htask]; rfl
  · rw [htask]; rfl
  · intro hclock
    rw [htask]
    simp [Task.new, hclock]

/-- Witness for C2: creating the task `A` on the state after start-up. -/
theorem C2_createTask_appends_one_task_witness :
    (TaskController.createTask sampleEnv [("title", .str "A")] freshState).2.view
        (TaskController.getAllTasks
          (TaskController.createTask sampleEnv [("title", .str "A")] freshState).2) =
      freshState.view (TaskController.getAllTasks freshState) ++
        [(TaskController.createTask sampleEnv [("title", .str "A")] freshState).2.task
          (TaskController.createTask sampleEnv [("title", .str "A")] freshState).1] :=
  (C2_createTask_appends_one_task sampleEnv [("title", .str "A")] freshState (by decide)).1

/-- C2, counterexample to the claim as stated. With a clock that advances by one
millisecond per reading, the task created from a title alone is appended and has
status `todo`, but its `updatedAt` is one millisecond after its `createdAt`. -/
theorem C2_updatedAt_differs_from_createdAt :
    ¬ ((TaskController.createTask sampleEnv [("title", .str "A")] freshState).2.ctrlView =
          freshState.ctrlView ++
            [(TaskController.createTask sampleEnv [("title", .str "A")] freshState).2.task
              (TaskController.createTask sampleEnv [("title", .str "A")] freshState).1] ∧
       ((TaskController.createTask sampleEnv [("title", .str "A")] freshState).2.task
          (TaskController.createTask sampleEnv [("title", .str "A")] freshState).1).status
        = .str "todo" ∧
       ((TaskController.createTask sampleEnv [("title", .str "A")] freshState).2.task
          (TaskController.createTask sampleEnv [("title", .str "A")] freshState).1).updatedAt
        = ((TaskController.createTask sampleEnv [("title", .str "A")] freshState).2.task
          (TaskController.createTask sampleEnv [("title", .str "A")] freshState).1).createdAt) := by
  decide

/-- C4. For an id that matches no task of the collection, `deleteTask(id)` and
`updateTask(id, updates)` return `null` and leave the whole state, hence the
collection and every field of every task, as it was. -/
theorem C4_unknown_id_is_a_no_op (env : Env) (id : Val) (updates : Obj) (s : State)
    (h : ∀ t ∈ s.ctrlView, t.id ≠ id) :
    TaskController.deleteTask env id s = (none, s) ∧
    TaskController.updateTask env id updates s = (none, s) ∧
    (TaskController.deleteTask env id s).2.ctrlView = s.ctrlView ∧
    (TaskController.updateTask env id updates s).2.ctrlView = s.ctrlView := by
  have hdel := TaskController.deleteTask_unknown env id s h
  have hupd := TaskController.updateTask_unknown env id updates s h
  exact ⟨hdel, hupd, by rw [hdel], by rw [hupd]⟩

/-- Witness for C4: the id `nope` on a collection holding one task. -/
theorem C4_unknown_id_is_a_no_op_witness :
    TaskController.deleteTask sampleEnv (.str "nope")
        (TaskController.createTask sampleEnv [("title", .str "T")] freshState).2
      = (none, (TaskController.createTask sampleEnv [("title", .str "T")] freshState).2) :=
  (C4_unknown_id_is_a_no_op sampleEnv (.str "nope") []
    (TaskController.createTask sampleEnv [("title", .str "T")] freshState).2
    (by decide)).1

/-- C3 (the code departs from the claim). After `loadTasks` the store holds the very
array of the controller, so handling `CREATE_TASK` pushes the new task onto it twice:
the store's collection, and the controller's, is the previous collection followed by
the returned task two times, not once. -/
theorem C3_create_after_load_holds_task_twice (env : Env) (taskData : Obj) (s : State)
    (h : s.WF) :
    (TaskStore.handleAction env { type := "CREATE_TASK", data := taskData }
        (TaskStore.loadTasks s)).storeView =
      (TaskStore.loadTasks s).storeView ++
        [(TaskController.createTask env taskData (TaskStore.loadTasks s)).2.task
            (TaskController.createTask env taskData (TaskStore.loadTasks s)).1,
         (TaskController.createTask env taskData (TaskStore.loadTasks s)).2.task
            (TaskController.createTask env taskData (TaskStore.loadTasks s)).1] ∧
    (TaskStore.handleAction env { type := "CREATE_TASK", data := taskData }
        (TaskStore.loadTasks s)).ctrlView =
      (TaskStore.handleAction env { type := "CREATE_TASK", data := taskData }
        (TaskStore.loadTasks s)).storeView := by
  have hal := TaskStore.createTask_aliased env taskData (TaskStore.loadTasks s)
    (TaskStore.loadTasks_WF s h) rfl
  have hact : TaskStore.handleAction env { type := "CREATE_TASK", data := taskData }
      (TaskStore.loadTasks s) = TaskStore.createTask env taskData (TaskStore.loadTasks s) := by
    simp [TaskStore.handleAction]
  rw [hact]
  exact hal

/-- Witness for C3: the action `CREATE_TASK` with the title `A` right after start-up
leaves two entries in the store. -/
theorem C3_create_after_load_holds_task_twice_witness :
    (TaskStore.handleAction sampleEnv { type := "CREATE_TASK", data := [("title", .str "A")] }
        (TaskStore.loadTasks freshState)).storeView.length = 2 := by
  have h := (C3_create_after_load_holds_task_twice sampleEnv [("title", .str "A")]
    freshState (by decide)).1
  rw [h]
  decide

/-- C5 (the code departs from the claim). On a collection of 40 tasks of which 23 are
completed, both `getTaskStatistics` return total 40, completed 23 and completionRate
57, whereas 100 * 23 / 40 = 57.5 rounds half up to 58: the quotient 23 / 40 is rounded
to binary64 before the multiplication by 100. -/
theorem C5_completion_rate_of_23_in_40_is_57 :
    (TaskController.getTaskStatistics sampleEnv statsState).1 =
      { total := 40, todo := 17, inProgress := 0, completed := 23, overdue := 0,
        completionRate := 57 } ∧
    (TaskStore.getTaskStatistics sampleEnv statsState).1 =
      { total := 40, todo := 17, inProgress := 0, completed := 23, overdue := 0,
        completionRate := 57 } ∧
    roundHalfUp (100 * 23) 40 = 58 := by
  decide

/-- C6. For a collection of three tasks A (status todo), B (status in-progress), both
without a due date, and C (status completed, whatever its due date, yesterday
included), both `getTaskStatistics` return total 3, todo 1, inProgress 1, completed 1,
overdue 0 and completionRate 33; and after setting the status filter to `todo` on
otherwise empty filters, `getFilteredTasks` returns exactly the list of A. -/
theorem C6_three_task_scenario (env : Env) (s : State) (a b c : Nat)
    (hstore : s.array s.storeTasks = [a, b, c]) (hctrl : s.array s.ctrlTasks = [a, b, c])
    (ha : (s.task a).status = .str "todo") (hb : (s.task b).status = .str "in-progress")
    (hc : (s.task c).status = .str "completed")
    (hda : (s.task a).dueDate.truthy = false) (hdb : (s.task b).dueDate.truthy = false)
    (hfilters : s.filters = emptyFilters) :
    (TaskStore.getTaskStatistics env s).1 =
      { total := 3, todo := 1, inProgress := 1, completed := 1, overdue := 0,
        completionRate := 33 } ∧
    (TaskController.getTaskStatistics env s).1 =
      { total := 3, todo := 1, inProgress := 1, completed := 1, overdue := 0,
        completionRate := 33 } ∧
    TaskStore.getFilteredTasks env (TaskStore.setFilters [("status", .str "todo")] s) =
      some [s.task a] := by
  have hoc := Task.isOverdue_of_completed env (s.task c) s.clockReads hc
  have hrate : completionRate 1 3 = 33 := by decide
  refine ⟨?_, ?_, ?_⟩
  · simp [TaskStore.getTaskStatistics, TaskStore.getTasksByStatus, State.byStatus, hstore,
      List.filter, ha, hb, hc, State.overdue, Task.isOverdue_of_no_dueDate, hda, hdb, hoc, hrate]
  · simp [TaskController.getTaskStatistics, TaskController.getTasksByStatus,
      TaskController.getOverdueTasks, State.byStatus, hctrl,
      List.filter, ha, hb, hc, State.overdue, Task.isOverdue_of_no_dueDate, hda, hdb, hoc, hrate]
  · have hview : (TaskStore.setFilters [("status", .str "todo")] s).storeView =
        [s.task a, s.task b, s.task c] := by
      show List.map s.task (s.array s.storeTasks) = _
      rw [hstore]; rfl
    have hf : (TaskStore.setFilters [("status", .str "todo")] s).filters =
        [("status", .str "todo"), ("assignee", .str ""), ("priority", .str ""),
         ("search", .str "")] := by
      show Obj.spread s.filters _ = _
      rw [hfilters]; rfl
    rw [TaskStore.getFilteredTasks_eq, hview, hf]
    simp [filterM, matchesFilters, Obj.prop, List.lookup, Val.truthy, ha, hb, hc]

/-- Witness for C6: the three tasks as reloaded from `localStorage`, C being due one
millisecond before the epoch while the clock reads 10 or later. -/
theorem C6_three_task_scenario_witness :
    newDate sampleEnv (scenarioState.task 2).dueDate = some (-1) ∧
    (TaskStore.getTaskStatistics sampleEnv scenarioState).1 =
      { total := 3, todo := 1, inProgress := 1, completed := 1, overdue := 0,
        completionRate := 33 } ∧
    TaskStore.getFilteredTasks sampleEnv
        (TaskStore.setFilters [("status", .str "todo")] scenarioState) =
      some [scenarioState.task 0] :=
  ⟨by decide,
   (C6_three_task_scenario sampleEnv scenarioState 0 1 2 (by decide) (by decide) (by decide)
    (by decide) (by decide) (by decide) (by decide) (by decide)).1,
   (C6_three_task_scenario sampleEnv scenarioState 0 1 2 (by decide) (by decide) (by decide)
    (by decide) (by decide) (by decide) (by decide) (by decide)).2.2⟩

/-- C7. Saving the task collection (`saveTasksToStorage`) and reconstructing it at the
next start-up (`loadTasksFromStorage` through `Task.fromJSON`) gives a collection of
the same length and order whose tasks are equal to the originals in every field, for
every collection of tasks as the class builds them (defaulted fields not `undefined`,
valid timestamps), `Date` parsing being the inverse of `toISOString`. -/
theorem C7_save_then_load_roundtrip (env : Env) (s : State)
    (hdate : ∀ i, env.parseDate (env.toISOString i) = some i)
    (hp : ∀ t ∈ s.ctrlView, t.Persistable) :
    (State.initial env (TaskController.saveTasksToStorage env s).storage).ctrlView =
      s.ctrlView := by
  obtain ⟨h1, h2, _⟩ := TaskController.reconstruct_toJSON env hdate s.ctrlView hp
    (State.boot (.json (s.ctrlView.map (Task.toJSON env))))
  have hget := List.map_getD_range' (default : Task) [] s.ctrlView
  show (State.initial env (.json (s.ctrlView.map (Task.toJSON env)))).ctrlView = s.ctrlView
  rw [State.initial_json_ctrlView, h1, h2]
  exact hget

/-- Witness for C7: the collection holding the task `A`, with the sample dates. -/
theorem C7_save_then_load_roundtrip_witness :
    (State.initial sampleEnv
        (TaskController.saveTasksToStorage sampleEnv oneTaskState).storage).ctrlView =
      oneTaskState.ctrlView :=
  C7_save_then_load_roundtrip sampleEnv oneTaskState sampleEnv_dates (by decide)

/-- C8 (as amended). For `TaskActions.batchUpdateTasks([X, Y], updates)` where X is the
non-empty id of an existing task: the update of X is handled first and is kept whatever
happens at Y (task X is what `Task.updateTask(updates)` makes of it, with `updatedAt`
refreshed, and is never rolled back). If Y is missing or empty the call raises
`Task ID is required` and leaves exactly the state reached after X. If Y is a non-empty
id that matches no task, nothing is raised and nothing is recorded: the state after X
is only extended by one change notification and the store's error stays `null`. -/
theorem C8_batch_update_is_not_atomic (env : Env) (X Y : Val) (updates : Obj) (s : State)
    (r : Nat) (hwf : s.WF) (hX : X.truthy = true)
    (hfind : TaskController.getTaskById X s = some r) :
    (Y.truthy = false →
      TaskActions.batchUpdateTasks env [X, Y] updates s =
        { state := TaskStore.updateTask env X updates s,
          raised := some "Task ID is required" } ∧
      (TaskActions.batchUpdateTasks env [X, Y] updates s).state.task r =
        Task.updateTask (env.clock s.clockReads) (s.task r) updates ∧
      ((TaskActions.batchUpdateTasks env [X, Y] updates s).state.task r).updatedAt =
        some (env.clock s.clockReads)) ∧
    (Y.truthy = true → (∀ t ∈ s.ctrlView, t.id ≠ Y) →
      TaskActions.batchUpdateTasks env [X, Y] updates s =
        { state := (TaskStore.updateTask env X updates s).emitChange, raised := none } ∧
      (TaskActions.batchUpdateTasks env [X, Y] updates s).state.error = .null ∧
      (TaskActions.batchUpdateTasks env [X, Y] updates s).state.task r =
        Task.updateTask (env.clock s.clockReads) (s.task r) updates ∧
      ((TaskActions.batchUpdateTasks env [X, Y] updates s).state.task r).updatedAt =
        some (env.clock s.clockReads)) := by
  obtain ⟨htask, herr, hids, harr⟩ := TaskStore.updateTask_found env X updates s r hwf hfind
  constructor
  · intro hY
    have hbatch : TaskActions.batchUpdateTasks env [X, Y] updates s =
        { state := TaskStore.updateTask env X updates s,
          raised := some "Task ID is required" } := by
      simp [TaskActions.batchUpdateTasks, forEachId, TaskActions.updateTask_truthy _ _ _ _ hX,
        TaskActions.updateTask_falsy _ _ _ _ hY]
    refine ⟨hbatch, ?_, ?_⟩
    · rw [hbatch]; exact htask
    · rw [hbatch]
      show ((TaskStore.updateTask env X updates s).task r).updatedAt = _
      rw [htask]; rfl
  · intro hY hunknown
    have hunknown' : ∀ t ∈ (TaskStore.updateTask env X updates s).ctrlView, t.id ≠ Y := by
      intro t ht
      simp only [State.ctrlView, State.view, harr, List.mem_map] at ht
      obtain ⟨x, hx, rfl⟩ := ht
      rw [hids x]
      exact hunknown _ (List.mem_map.mpr ⟨x, hx, rfl⟩)
    have hsecond := TaskStore.updateTask_unknown_emits env Y updates _ hunknown'
    have hbatch : TaskActions.batchUpdateTasks env [X, Y] updates s =
        { state := (TaskStore.updateTask env X updates s).emitChange, raised := none } := by
      simp [TaskActions.batchUpdateTasks, forEachId, TaskActions.updateTask_truthy _ _ _ _ hX,
        TaskActions.updateTask_truthy _ _ _ _ hY, hsecond]
    refine ⟨hbatch, ?_, ?_, ?_⟩
    · rw [hbatch]; exact herr
    · rw [hbatch]; exact htask
    · rw [hbatch]
      show ((TaskStore.updateTask env X updates s).task r).updatedAt = _
      rw [htask]; rfl

/-- Witness for C8: a batch over the id of task `A` and the empty id. -/
theorem C8_batch_update_is_not_atomic_witness :
    TaskActions.batchUpdateTasks sampleEnv [(oneTaskState.task 0).id, .str ""]
        [("status", .str "completed")] oneTaskState =
      { state := TaskStore.updateTask sampleEnv (oneTaskState.task 0).id
          [("status", .str "completed")] oneTaskState,
        raised := some "Task ID is required" } ∧
    (TaskActions.batchUpdateTasks sampleEnv [(oneTaskState.task 0).id, .str ""]
        [("status", .str "completed")] oneTaskState).state.task 0 =
      Task.updateTask (sampleEnv.clock oneTaskState.clockReads) (oneTaskState.task 0)
        [("status", .str "completed")] ∧
    ((TaskActions.batchUpdateTasks sampleEnv [(oneTaskState.task 0).id, .str ""]
        [("status", .str "completed")] oneTaskState).state.task 0).updatedAt =
      some (sampleEnv.clock oneTaskState.clockReads) :=
  (C8_batch_update_is_not_atomic sampleEnv (oneTaskState.task 0).id (.str "")
    [("status", .str "completed")] oneTaskState 0 (by decide) (by decide) (by decide)).1
    (by decide)

/-- C8, counterexample to the claim as stated. In the batch over the id of task `A` and
the unknown id `nope` with `{status: 'completed'}`, nothing is raised and the store's
error stays `null`, so the failure on `nope` is not flagged. -/
theorem C8_unknown_id_in_batch_is_not_flagged :
    (TaskActions.batchUpdateTasks sampleEnv [(oneTaskState.task 0).id, .str "nope"]
        [("status", .str "completed")] oneTaskState).raised = none ∧
    (TaskActions.batchUpdateTasks sampleEnv [(oneTaskState.task 0).id, .str "nope"]
        [("status", .str "completed")] oneTaskState).state.error = .null ∧
    ¬ (((TaskActions.batchUpdateTasks sampleEnv [(oneTaskState.task 0).id, .str "nope"]
          [("status", .str "completed")] oneTaskState).state.task 0).status
          = .str "completed" ∧
       ((TaskActions.batchUpdateTasks sampleEnv [(oneTaskState.task 0).id, .str "nope"]
          [("status", .str "completed")] oneTaskState).raised ≠ none ∨
        (TaskActions.batchUpdateTasks sampleEnv [(oneTaskState.task 0).id, .str "nope"]
          [("status", .str "completed")] oneTaskState).state.error ≠ .null)) := by
  decide

/-- C9 (as amended). For every list of registered change listeners, emitting `change`
invokes the listeners in registration order. If every listener returns, all of them
are invoked and nothing is raised. A listener that throws ends the emission: the
listeners registered before it have been invoked in order, those registered after it
are not invoked, and the exception reaches the caller of `emit`. -/
theorem C9_emit_runs_in_order_until_a_listener_throws {σ : Type} (w : σ) :
    (∀ cbs : List (Listener σ), (∀ cb ∈ cbs, cb.Returns) →
      (EventEmitter.emit (TaskStore.registered cbs) "change" w).invoked =
        cbs.map Listener.ident ∧
      (EventEmitter.emit (TaskStore.registered cbs) "change" w).raised = none) ∧
    (∀ (before after : List (Listener σ)) (thrower : Listener σ),
      (∀ cb ∈ before, cb.Returns) → thrower.Throws →
      (EventEmitter.emit (TaskStore.registered (before ++ thrower :: after)) "change" w).invoked
        = before.map Listener.ident ++ [thrower.ident] ∧
      (EventEmitter.emit (TaskStore.registered (before ++ thrower :: after)) "change" w).raised
        ≠ none) := by
  constructor
  · intro cbs h
    rw [EventEmitter.emit_registered]
    exact EventEmitter.forEach_all_return cbs w h
  · intro before after thrower h ht
    rw [EventEmitter.emit_registered]
    exact EventEmitter.forEach_stops_at_throw before after thrower w h ht

/-- Witness for C9: listeners 1, 2, 3 registered in this order, listener 2 throwing. -/
theorem C9_emit_runs_in_order_until_a_listener_throws_witness :
    (EventEmitter.emit (TaskStore.registered
        ([countingListener 1] ++ throwingListener 2 :: [countingListener 3])) "change" 0).invoked
      = [countingListener 1].map Listener.ident ++ [(throwingListener 2).ident] :=
  ((C9_emit_runs_in_order_until_a_listener_throws (0 : Nat)).2
    [countingListener 1] [countingListener 3] (throwingListener 2)
    (by
      intro cb hcb w
      rw [List.mem_singleton] at hcb
      subst hcb
      exact ⟨w + 1, rfl⟩)
    (fun _ => ⟨"listener failed", rfl⟩)).1

/-- C9, counterexample to the claim as stated. With listeners 1, 2, 3 registered in
this order and listener 2 throwing, `emit('change')` invokes 1 and 2 only: listener 3,
registered after the one that throws, is not invoked, and the exception escapes. -/
theorem C9_listener_after_a_throw_is_not_invoked :
    (EventEmitter.emit (TaskStore.registered
        [countingListener 1, throwingListener 2, countingListener 3]) "change" 0).invoked
      = [1, 2] ∧
    3 ∉ (EventEmitter.emit (TaskStore.registered
        [countingListener 1, throwingListener 2, countingListener 3]) "change" 0).invoked ∧
    (EventEmitter.emit (TaskStore.registered
        [countingListener 1, throwingListener 2, countingListener 3]) "change" 0).raised
      = some "listener failed" := by
  decide

/-- C10. `TaskActions.createTask` raises iff `taskData.title` is missing or empty;
`updateTask` and `deleteTask` raise iff `id` is missing or empty; `updateTaskStatus`
raises whenever `status` is not one of todo, in-progress, completed, and otherwise
raises iff `id` is missing or empty. An action that raises leaves the whole state as it
was: tasks, filters, error and the list of emitted change notifications. An action that
does not raise hands exactly one action object of the matching type to
`TaskStore.handleAction`, which emits one change notification; in particular
`updateTaskStatus` with a valid status and a non-empty id does not raise and hands over
one `UPDATE_TASK` action carrying the status. -/
theorem C10_actions_validate_before_dispatch (env : Env) (s : State) (taskData updates : Obj)
    (id status : Val) :
    (((TaskActions.createTask env taskData s).raised ≠ none ↔
        (taskData.prop "title").MissingOrEmpty) ∧
     ((TaskActions.updateTask env id updates s).raised ≠ none ↔ id.MissingOrEmpty) ∧
     ((TaskActions.deleteTask env id s).raised ≠ none ↔ id.MissingOrEmpty) ∧
     (status ∉ validStatuses →
        (TaskActions.updateTaskStatus env id status s).raised ≠ none) ∧
     ((TaskActions.updateTaskStatus env id status s).raised ≠ none ↔
        status ∉ validStatuses ∨ id.MissingOrEmpty)) ∧
    (((TaskActions.createTask env taskData s).raised ≠ none →
        (TaskActions.createTask env taskData s).state = s) ∧
     ((TaskActions.updateTask env id updates s).raised ≠ none →
        (TaskActions.updateTask env id updates s).state = s) ∧
     ((TaskActions.deleteTask env id s).raised ≠ none →
        (TaskActions.deleteTask env id s).state = s) ∧
     ((TaskActions.updateTaskStatus env id status s).raised ≠ none →
        (TaskActions.updateTaskStatus env id status s).state = s)) ∧
    (((TaskActions.createTask env taskData s).raised = none →
        (TaskActions.createTask env taskData s).state =
          TaskStore.handleAction env { type := "CREATE_TASK", data := taskData } s ∧
        (TaskActions.createTask env taskData s).state.changes.length =
          s.changes.length + 1) ∧
     ((TaskActions.updateTask env id updates s).raised = none →
        (TaskActions.updateTask env id updates s).state =
          TaskStore.handleAction env { type := "UPDATE_TASK", id := id, data := updates } s ∧
        (TaskActions.updateTask env id updates s).state.changes.length =
          s.changes.length + 1) ∧
     ((TaskActions.deleteTask env id s).raised = none →
        (TaskActions.deleteTask env id s).state =
          TaskStore.handleAction env { type := "DELETE_TASK", id := id } s ∧
        (TaskActions.deleteTask env id s).state.changes.length = s.changes.length + 1) ∧
     ((TaskActions.updateTaskStatus env id status s).raised = none →
        (TaskActions.updateTaskStatus env id status s).state =
          TaskStore.handleAction env
            { type := "UPDATE_TASK", id := id, data := [("status", status)] } s ∧
        (TaskActions.updateTaskStatus env id status s).state.changes.length =
          s.changes.length + 1) ∧
     (status ∈ validStatuses → id.truthy = true →
        (TaskActions.updateTaskStatus env id status s).raised = none ∧
        (TaskActions.updateTaskStatus env id status s).state =
          TaskStore.handleAction env
            { type := "UPDATE_TASK", id := id, data := [("status", status)] } s ∧
        (TaskActions.updateTaskStatus env id status s).state.changes.length =
          s.changes.length + 1)) := by
  have hc := TaskStore.createTask_changes env taskData s
  have hu := TaskStore.updateTask_changes env id updates s
  have hus := TaskStore.updateTask_changes env id [("status", status)] s
  have hd := TaskStore.deleteTask_changes env id s
  have htitle := Val.truthy_eq_false_iff (taskData.prop "title")
  have hid := Val.truthy_eq_false_iff id
  refine ⟨⟨?_, ?_, ?_, ?_, ?_⟩, ⟨?_, ?_, ?_, ?_⟩, ⟨?_, ?_, ?_, ?_, ?_⟩⟩
  · rw [← htitle]
    cases h : (taskData.prop "title").truthy <;> simp [TaskActions.createTask, h]
  · rw [← hid]
    cases h : id.truthy <;> simp [TaskActions.updateTask, h]
  · rw [← hid]
    cases h : id.truthy <;> simp [TaskActions.deleteTask, h]
  · intro hs
    simp [TaskActions.updateTaskStatus, hs]
  · rw [← hid]
    by_cases hv : status ∈ validStatuses <;> cases h : id.truthy <;>
      simp [TaskActions.updateTaskStatus, TaskActions.updateTask, hv, h]
  · cases h : (taskData.prop "title").truthy <;> simp [TaskActions.createTask, h]
  · cases h : id.truthy <;> simp [TaskActions.updateTask, h]
  · cases h : id.truthy <;> simp [TaskActions.deleteTask, h]
  · by_cases hv : status ∈ validStatuses <;> cases h : id.truthy <;>
      simp [TaskActions.updateTaskStatus, TaskActions.updateTask, hv, h]
  · cases h : (taskData.prop "title").truthy <;>
      simp [TaskActions.createTask, h, TaskStore.handleAction, hc]
  · cases h : id.truthy <;> simp [TaskActions.updateTask, h, TaskStore.handleAction, hu]
  · cases h : id.truthy <;> simp [TaskActions.deleteTask, h, TaskStore.handleAction, hd]
  · by_cases hv : status ∈ validStatuses <;> cases h : id.truthy <;>
      simp [TaskActions.updateTaskStatus, TaskActions.updateTask, hv, h,
        TaskStore.handleAction, hus]
  · intro hv h
    simp [TaskActions.updateTaskStatus, TaskActions.updateTask, hv, h,
      TaskStore.handleAction, hus]

/-- Witness for C10: a task data without title is rejected and leaves the state
after start-up as it was, and `updateTaskStatus` with the id of task `A` and the status
`completed` does not raise and hands one `UPDATE_TASK` action to the store. -/
theorem C10_actions_validate_before_dispatch_witness :
    (TaskActions.createTask sampleEnv [("description", .str "d")] freshState).state =
      freshState ∧
    ((TaskActions.updateTaskStatus sampleEnv (oneTaskState.task 0).id (.str "completed")
        oneTaskState).raised = none ∧
     (TaskActions.updateTaskStatus sampleEnv (oneTaskState.task 0).id (.str "completed")
        oneTaskState).state =
      TaskStore.handleAction sampleEnv
        { type := "UPDATE_TASK", id := (oneTaskState.task 0).id,
          data := [("status", .str "completed")] } oneTaskState ∧
     (TaskActions.updateTaskStatus sampleEnv (oneTaskState.task 0).id (.str "completed")
        oneTaskState).state.changes.length = oneTaskState.changes.length + 1) :=
  ⟨(C10_actions_validate_before_dispatch sampleEnv freshState [("description", .str "d")] []
      (.str "x") (.str "todo")).2.1.1 (by decide),
   (C10_actions_validate_before_dispatch sampleEnv oneTaskState [] []
      (oneTaskState.task 0).id (.str "completed")).2.2.2.2.2.2 (by decide) (by decide)⟩

/-- C11. `Task.updateTask(updates)` changes only whitelisted fields: each of title,
description, assignee, priority, dueDate takes the value `updates` gives it when that
value is not `undefined`, and keeps its value otherwise; id, status and createdAt are
unchanged for every `updates`; updatedAt becomes the clock reading. Keys outside the
whitelist are ignored: two `updates` objects that agree on the five whitelisted keys
produce the same task. -/
theorem C11_updateTask_changes_only_whitelisted_fields (now : Int) (t : Task) (updates : Obj) :
    (Task.updateTask now t updates).title = updatedField updates "title" t.title ∧
    (Task.updateTask now t updates).description =
      updatedField updates "description" t.description ∧
    (Task.updateTask now t updates).assignee = updatedField updates "assignee" t.assignee ∧
    (Task.updateTask now t updates).priority = updatedField updates "priority" t.priority ∧
    (Task.updateTask now t updates).dueDate = updatedField updates "dueDate" t.dueDate ∧
    (Task.updateTask now t updates).id = t.id ∧
    (Task.updateTask now t updates).status = t.status ∧
    (Task.updateTask now t updates).createdAt = t.createdAt ∧
    (Task.updateTask now t updates).updatedAt = some now ∧
    (∀ other : Obj, (∀ key ∈ allowedFields, other.prop key = updates.prop key) →
      Task.updateTask now t other = Task.updateTask now t updates) := by
  refine ⟨?_, ?_, ?_, ?_, ?_, ?_, ?_, ?_, ?_, ?_⟩
  · rw [Task.updateTask_eq]
  · rw [Task.updateTask_eq]
  · rw [Task.updateTask_eq]
  · rw [Task.updateTask_eq]
  · rw [Task.updateTask_eq]
  · rw [Task.updateTask_eq]
  · rw [Task.updateTask_eq]
  · rw [Task.updateTask_eq]
  · rw [Task.updateTask_eq]
  · intro other h
    rw [Task.updateTask_eq, Task.updateTask_eq]
    simp only [updatedField, h "title" (by decide), h "description" (by decide),
      h "assignee" (by decide), h "priority" (by decide), h "dueDate" (by decide)]

/-- Witness for C11: an update carrying a title, a status and an unknown key gives the
same task as the update carrying the title alone, with status unchanged. -/
theorem C11_updateTask_changes_only_whitelisted_fields_witness :
    Task.updateTask 5 (oneTaskState.task 0)
        [("title", .str "X"), ("status", .str "completed"), ("colour", .str "red")] =
      Task.updateTask 5 (oneTaskState.task 0) [("title", .str "X")] :=
  (C11_updateTask_changes_only_whitelisted_fields 5 (oneTaskState.task 0)
    [("title", .str "X")]).2.2.2.2.2.2.2.2.2
    [("title", .str "X"), ("status", .str "completed"), ("colour", .str "red")] (by decide)

/-- C16. `Task.updateStatus(s)` fails silently on an invalid target: when `s` is not
one of todo, in-progress, completed it returns false and leaves the task as it was,
every field included; when `s` is one of the three it returns true, sets status to `s`
and updatedAt to the clock reading, and leaves the other fields as they were. The
method returns in both cases, it never throws. -/
theorem C16_updateStatus_fails_silently (now : Int) (t : Task) (s : Val) :
    (s ∉ validStatuses → Task.updateStatus now t s = (t, false)) ∧
    (s ∈ validStatuses →
      Task.updateStatus now t s = ({ t with status := s, updatedAt := some now }, true)) ∧
    (s ∈ validStatuses ↔ s = .str "todo" ∨ s = .str "in-progress" ∨ s = .str "completed") := by
  refine ⟨?_, ?_, ?_⟩
  · intro h
    simp [Task.updateStatus, h]
  · intro h
    simp [Task.updateStatus, h]
  · simp [validStatuses]

/-- Witness for C16: the target `done` is rejected and the target `completed` is
accepted. -/
theorem C16_updateStatus_fails_silently_witness :
    Task.updateStatus 5 (oneTaskState.task 0) (.str "done") = (oneTaskState.task 0, false) ∧
    Task.updateStatus 5 (oneTaskState.task 0) (.str "completed") =
      ({ oneTaskState.task 0 with status := .str "completed", updatedAt := some 5 }, true) :=
  ⟨(C16_updateStatus_fails_silently 5 (oneTaskState.task 0) (.str "done")).1 (by decide),
   (C16_updateStatus_fails_silently 5 (oneTaskState.task 0) (.str "completed")).2.1
     (by decide)⟩

/-- C17. Every task obtained from the `Task` constructor by any sequence of
`updateStatus` and `updateTask` calls with arbitrary arguments has its status among
todo, in-progress, completed. -/
theorem C17_status_stays_in_the_enum (rnd : String) (t0 t1 t2 : Int)
    (title description assignee priority dueDate : Val) (calls : List Mutation) :
    ((Task.new rnd t0 t1 t2 title description assignee priority dueDate).mutateAll
      calls).status ∈ validStatuses :=
  Task.mutateAll_status calls _ (by simp [Task.new, validStatuses])

/-- C15. For an id present in the collection, `TaskController.deleteTask(id)` returns
the first task with that id and leaves the collection equal to the previous one with
exactly that element removed: the length decreases by one and the remaining tasks keep
their relative order (no task object is modified). When the ids are pairwise distinct,
`getTaskById(id)` afterwards finds no task. -/
theorem C15_deleteTask_removes_first_match (env : Env) (id : Val) (s : State) (h : s.WF)
    (hmem : ∃ t ∈ s.ctrlView, t.id = id) :
    (TaskController.deleteTask env id s).1.map s.task =
      s.ctrlView.find? (fun t => decide (t.id = id)) ∧
    (∃ t, (TaskController.deleteTask env id s).1.map s.task = some t ∧ t.id = id) ∧
    (TaskController.deleteTask env id s).2.ctrlView =
      s.ctrlView.eraseP (fun t => decide (t.id = id)) ∧
    (TaskController.deleteTask env id s).2.ctrlView.length + 1 = s.ctrlView.length ∧
    List.Sublist (TaskController.deleteTask env id s).2.ctrlView s.ctrlView ∧
    (TaskController.deleteTask env id s).2.objs = s.objs ∧
    ((s.ctrlView.map Task.id).Nodup →
      TaskController.getTaskById id (TaskController.deleteTask env id s).2 = none) := by
  obtain ⟨h1, h2, h3⟩ := TaskController.deleteTask_found env id s h hmem
  obtain ⟨t, ht, hid⟩ := hmem
  refine ⟨h1, ?_, h2, ?_, ?_, h3, ?_⟩
  · rw [h1]
    cases hfind : s.ctrlView.find? (fun t => decide (t.id = id)) with
    | none =>
      have := List.find?_eq_none.mp hfind t ht
      simp [hid] at this
    | some x => exact ⟨x, rfl, by simpa using List.find?_some hfind⟩
  · rw [h2, List.length_eraseP_of_mem ht (by simpa using hid)]
    have : 0 < s.ctrlView.length := List.length_pos_of_mem ht
    omega
  · rw [h2]
    exact List.eraseP_sublist _
  · intro hnodup
    have hnone : ∀ x ∈ (TaskController.deleteTask env id s).2.ctrlView, x.id ≠ id := by
      rw [h2]
      exact List.not_of_mem_eraseP_of_nodup Task.id id s.ctrlView hnodup
    have hrefs := State.no_ref_of_no_task _ id hnone
    unfold TaskController.getTaskById
    exact List.find?_eq_none.mpr (fun r hr => by simpa using hrefs r hr)

/-- Witness for C15: deleting the only task of the collection by its id. -/
theorem C15_deleteTask_removes_first_match_witness :
    (TaskController.deleteTask sampleEnv (oneTaskState.task 0).id oneTaskState).2.ctrlView =
      oneTaskState.ctrlView.eraseP (fun t => decide (t.id = (oneTaskState.task 0).id)) ∧
    TaskController.getTaskById (oneTaskState.task 0).id
      (TaskController.deleteTask sampleEnv (oneTaskState.task 0).id oneTaskState).2 = none :=
  ⟨(C15_deleteTask_removes_first_match sampleEnv (oneTaskState.task 0).id oneTaskState
      (by decide) (by decide)).2.2.1,
   (C15_deleteTask_removes_first_match sampleEnv (oneTaskState.task 0).id oneTaskState
      (by decide) (by decide)).2.2.2.2.2.2 (by decide)⟩

/-- C18 (as amended). On every collection whose tasks all have a string title and a
string description, and on every collection at all while the search filter is empty,
`TaskStore.getFilteredTasks` and `utils.filterTasks` return, in collection order,
exactly the tasks that satisfy every non-empty filter: status, assignee and priority
equal to the filter's value, and the search string occurring case-insensitively in the
title or in the description. A filter whose value is the empty string imposes no
restriction, so with all four filters empty the result is the whole collection. -/
theorem C18_filter_returns_the_matching_tasks (env : Env) (s : State) (tasks : List Task)
    (filters : Obj) :
    (((filters.prop "search").truthy = true → ∀ t ∈ tasks, t.HasText) →
      filterTasks env tasks filters = some (tasks.filter (satisfiesFilters env filters))) ∧
    (((s.filters.prop "search").truthy = true → ∀ t ∈ s.storeView, t.HasText) →
      TaskStore.getFilteredTasks env s =
        some (s.storeView.filter (satisfiesFilters env s.filters))) ∧
    (filters.prop "status" = .str "" → filters.prop "assignee" = .str "" →
      filters.prop "priority" = .str "" → filters.prop "search" = .str "" →
      filterTasks env tasks filters = some tasks) ∧
    (s.filters.prop "status" = .str "" → s.filters.prop "assignee" = .str "" →
      s.filters.prop "priority" = .str "" → s.filters.prop "search" = .str "" →
      TaskStore.getFilteredTasks env s = some s.storeView) := by
  have key : ∀ (l : List Task) (f : Obj),
      ((f.prop "search").truthy = true → ∀ t ∈ l, t.HasText) →
      filterM (matchesFilters env f) l = some (l.filter (satisfiesFilters env f)) := by
    intro l f h
    apply filterM_eq_filter
    intro t ht
    cases hsearch : (f.prop "search").truthy with
    | false => exact matchesFilters_of_no_search env f t hsearch
    | true => exact matchesFilters_of_text env f t (h hsearch t ht)
  have whole : ∀ (l : List Task) (f : Obj),
      f.prop "status" = .str "" → f.prop "assignee" = .str "" →
      f.prop "priority" = .str "" → f.prop "search" = .str "" →
      filterM (matchesFilters env f) l = some l := by
    intro l f h1 h2 h3 h4
    rw [key l f (by simp [h4, Val.truthy])]
    congr 1
    apply List.filter_eq_self.mpr
    intro t _
    simp [satisfiesFilters, h1, h2, h3, h4, Val.truthy]
  exact ⟨key tasks filters, key s.storeView s.filters, whole tasks filters,
    whole s.storeView s.filters⟩

/-- Witness for C18: the status filter `todo` with the search string `T` on the
three-task scenario. -/
theorem C18_filter_returns_the_matching_tasks_witness :
    filterTasks sampleEnv scenarioState.storeView
        [("status", .str "todo"), ("search", .str "T")] =
      some (scenarioState.storeView.filter
        (satisfiesFilters sampleEnv [("status", .str "todo"), ("search", .str "T")])) :=
  (C18_filter_returns_the_matching_tasks sampleEnv scenarioState scenarioState.storeView
    [("status", .str "todo"), ("search", .str "T")]).1 (by decide)

/-- C18, counterexample to the claim as stated. A task created by
`TaskController.createTask` from data without a title has the title `undefined`; with
the search filter `a`, `getFilteredTasks` raises a TypeError instead of returning the
tasks whose description contains the search string. -/
theorem C18_search_on_untitled_task_raises :
    (untitledSearchState.storeView.map Task.title = [.undefined]) ∧
    (untitledSearchState.storeView.map Task.description = [.str "about"]) ∧
    TaskStore.getFilteredTasks sampleEnv untitledSearchState = none ∧
    ¬ (TaskStore.getFilteredTasks sampleEnv untitledSearchState =
        some (untitledSearchState.storeView.filter
          (satisfiesFilters sampleEnv untitledSearchState.filters))) := by
  decide

/-- C19. Handling `SET_FILTERS(f)` merges `f` into the filter state: each key present
in `f` takes the value `f` gives it, every other filter key keeps its value, and the
held task collection and the error are unchanged. Handling `CLEAR_FILTERS` sets status,
assignee, priority and search to the empty string and leaves the tasks unchanged, after
which `getFilteredTasks()` is the collection `getTasks()` holds. Each of the two emits
one change notification. The keys of the object `f` are distinct. -/
theorem C19_filters_are_merged_and_cleared (env : Env) (s : State) (f : Obj)
    (hf : f.keys.Nodup) :
    ((∀ key, (TaskStore.handleAction env { type := "SET_FILTERS", filters := f } s).filters.prop
          key = if key ∈ f.keys then f.prop key else s.filters.prop key) ∧
     (TaskStore.handleAction env { type := "SET_FILTERS", filters := f } s).storeView =
        s.storeView ∧
     TaskStore.getTasks (TaskStore.handleAction env { type := "SET_FILTERS", filters := f } s) =
        TaskStore.getTasks s ∧
     (TaskStore.handleAction env { type := "SET_FILTERS", filters := f } s).error = s.error ∧
     (TaskStore.handleAction env { type := "SET_FILTERS", filters := f } s).changes.length =
        s.changes.length + 1) ∧
    ((TaskStore.handleAction env { type := "CLEAR_FILTERS" } s).filters.prop "status" = .str "" ∧
     (TaskStore.handleAction env { type := "CLEAR_FILTERS" } s).filters.prop "assignee" =
        .str "" ∧
     (TaskStore.handleAction env { type := "CLEAR_FILTERS" } s).filters.prop "priority" =
        .str "" ∧
     (TaskStore.handleAction env { type := "CLEAR_FILTERS" } s).filters.prop "search" = .str "" ∧
     (TaskStore.handleAction env { type := "CLEAR_FILTERS" } s).storeView = s.storeView ∧
     (TaskStore.handleAction env { type := "CLEAR_FILTERS" } s).error = s.error ∧
     (TaskStore.handleAction env { type := "CLEAR_FILTERS" } s).changes.length =
        s.changes.length + 1 ∧
     TaskStore.getFilteredTasks env (TaskStore.handleAction env { type := "CLEAR_FILTERS" } s) =
        some ((TaskStore.handleAction env { type := "CLEAR_FILTERS" } s).view
          (TaskStore.getTasks (TaskStore.handleAction env { type := "CLEAR_FILTERS" } s)))) := by
  have hset : TaskStore.handleAction env { type := "SET_FILTERS", filters := f } s =
      TaskStore.setFilters f s := by
    simp [TaskStore.handleAction]
  have hclear : TaskStore.handleAction env { type := "CLEAR_FILTERS" } s =
      TaskStore.clearFilters s := by
    simp [TaskStore.handleAction]
  rw [hset, hclear]
  refine ⟨⟨?_, rfl, rfl, rfl, ?_⟩, rfl, rfl, rfl, rfl, rfl, rfl, ?_, ?_⟩
  · intro key
    exact Obj.prop_spread s.filters f hf key
  · simp [TaskStore.setFilters, State.emitChange]
  · simp [TaskStore.clearFilters, State.emitChange]
  · have hall : ∀ t ∈ (TaskStore.clearFilters s).storeView,
        matchesFilters env (TaskStore.clearFilters s).filters t = some ((fun _ => true) t) := by
      intro t _
      have hsearch : ((TaskStore.clearFilters s).filters.prop "search").truthy = false := rfl
      rw [matchesFilters_of_no_search env _ t hsearch]
      simp [satisfiesFilters, TaskStore.clearFilters, State.emitChange, emptyFilters, Obj.prop,
        List.lookup, Val.truthy]
    rw [TaskStore.getFilteredTasks_eq, filterM_eq_filter _ _ _ hall]
    simp [State.storeView, TaskStore.getTasks]

/-- Witness for C19: merging a status filter into the filters after start-up. -/
theorem C19_filters_are_merged_and_cleared_witness :
    (TaskStore.handleAction sampleEnv
        { type := "SET_FILTERS", filters := [("status", .str "todo")] } freshState).filters.prop
        "status" = .str "todo" ∧
    (TaskStore.handleAction sampleEnv
        { type := "SET_FILTERS", filters := [("status", .str "todo")] } freshState).filters.prop
        "search" = freshState.filters.prop "search" :=
  ⟨(C19_filters_are_merged_and_cleared sampleEnv freshState [("status", .str "todo")]
      (by decide)).1.1 "status",
   (C19_filters_are_merged_and_cleared sampleEnv freshState [("status", .str "todo")]
      (by decide)).1.1 "search"⟩

/-- C20. Handling `RELOAD_TASKS` emits exactly two change notifications. At the first
the store has isLoading = true and error = null, its tasks being those held before.
At the second isLoading = false, and when `taskController.getAllTasks()` returned, the
held tasks are the controller's collection and error = null; when it threw, the held
tasks are those held before and error = `Failed to load tasks`. -/
theorem C20_reload_emits_starting_and_finished (env : Env) (s : State) (thrown : String) :
    (TaskStore.handleAction env { type := "RELOAD_TASKS" } s =
        TaskStore.loadTasksFrom (.ok (TaskController.getAllTasks s)) s) ∧
    ((TaskStore.loadTasksFrom (.ok (TaskController.getAllTasks s)) s).changes =
        s.changes ++
          [{ tasks := s.storeView, isLoading := true, error := .null, filters := s.filters },
           { tasks := s.ctrlView, isLoading := false, error := .null, filters := s.filters }] ∧
     (TaskStore.loadTasksFrom (.ok (TaskController.getAllTasks s)) s).isLoading = false ∧
     (TaskStore.loadTasksFrom (.ok (TaskController.getAllTasks s)) s).error = .null ∧
     (TaskStore.loadTasksFrom (.ok (TaskController.getAllTasks s)) s).storeView =
        (TaskStore.loadTasksFrom (.ok (TaskController.getAllTasks s)) s).ctrlView ∧
     (TaskStore.loadTasksFrom (.ok (TaskController.getAllTasks s)) s).ctrlView = s.ctrlView) ∧
    ((TaskStore.loadTasksFrom (.error thrown) s).changes =
        s.changes ++
          [{ tasks := s.storeView, isLoading := true, error := .null, filters := s.filters },
           { tasks := s.storeView, isLoading := false, error := .str "Failed to load tasks",
             filters := s.filters }] ∧
     (TaskStore.loadTasksFrom (.error thrown) s).isLoading = false ∧
     (TaskStore.loadTasksFrom (.error thrown) s).error = .str "Failed to load tasks" ∧
     (TaskStore.loadTasksFrom (.error thrown) s).storeView = s.storeView) := by
  refine ⟨?_, ⟨?_, rfl, rfl, rfl, rfl⟩, ⟨?_, rfl, rfl, rfl⟩⟩
  · simp [TaskStore.handleAction, TaskStore.loadTasks]
  · simp [TaskStore.loadTasksFrom, State.emitChange, State.snapshot, State.storeView,
      State.ctrlView, State.view, State.array, State.task, TaskController.getAllTasks]
  · simp [TaskStore.loadTasksFrom, State.emitChange, State.snapshot, State.storeView,
      State.view, State.array, State.task]

/-- C12 (as amended). For every existing member id and every `updates` object,
`TeamMemberController.updateMember` copies every own property of `updates` onto the
member (`Object.assign`): each key present in `updates`, whether name, email, role, id,
joinedAt, isActive or an unknown key, takes the value `updates` gives it, and every
property whose key is absent from `updates` keeps its value. So id, joinedAt and
isActive are unchanged when `updates` carries only name, email and role. The other
members and the collection are unchanged, and the updated member is returned. -/
theorem C12_updateMember_assigns_every_key (env : Env) (id : MVal) (updates : MObj)
    (ms : MemberState) (r : Nat) (h : ms.WF)
    (hfind : TeamMemberController.getMemberById id ms = some r) :
    (TeamMemberController.updateMember env id updates ms).1 = some r ∧
    (∀ key, ((TeamMemberController.updateMember env id updates ms).2.member r).prop key =
      if key ∈ updates.keys then updates.prop key else (ms.member r).prop key) ∧
    ((∀ key ∈ updates.keys, key = "name" ∨ key = "email" ∨ key = "role") →
      ((TeamMemberController.updateMember env id updates ms).2.member r).prop "id" =
        (ms.member r).prop "id" ∧
      ((TeamMemberController.updateMember env id updates ms).2.member r).prop "joinedAt" =
        (ms.member r).prop "joinedAt" ∧
      ((TeamMemberController.updateMember env id updates ms).2.member r).prop "isActive" =
        (ms.member r).prop "isActive") ∧
    (∀ r', r' ≠ r →
      (TeamMemberController.updateMember env id updates ms).2.member r' = ms.member r') ∧
    (TeamMemberController.updateMember env id updates ms).2.members = ms.members := by
  obtain ⟨h1, h2, h3, h4⟩ := TeamMemberController.updateMember_found env id updates ms r h hfind
  have hprop : ∀ key,
      ((TeamMemberController.updateMember env id updates ms).2.member r).prop key =
        if key ∈ updates.keys then updates.prop key else (ms.member r).prop key := by
    intro key
    rw [h2, MObj.member_prop_assignAll]
  refine ⟨h1, hprop, ?_, h3, h4⟩
  intro honly
  have hout : ∀ key, key ≠ "name" → key ≠ "email" → key ≠ "role" → key ∉ updates.keys := by
    intro key hn he hr hmem
    rcases honly key hmem with hk | hk | hk
    · exact hn hk
    · exact he hk
    · exact hr hk
  refine ⟨?_, ?_, ?_⟩
  · rw [hprop, if_neg (hout "id" (by decide) (by decide) (by decide))]
  · rw [hprop, if_neg (hout "joinedAt" (by decide) (by decide) (by decide))]
  · rw [hprop, if_neg (hout "isActive" (by decide) (by decide) (by decide))]

/-- Witness for C12: a role change on Ann leaves her id as it was. -/
theorem C12_updateMember_assigns_every_key_witness :
    ((TeamMemberController.updateMember sampleEnv ((oneMemberState.member 0).prop "id")
        [("role", .val (.str "lead"))] oneMemberState).2.member 0).prop "role" =
      .val (.str "lead") ∧
    ((TeamMemberController.updateMember sampleEnv ((oneMemberState.member 0).prop "id")
        [("role", .val (.str "lead"))] oneMemberState).2.member 0).prop "id" =
      (oneMemberState.member 0).prop "id" :=
  ⟨(C12_updateMember_assigns_every_key sampleEnv ((oneMemberState.member 0).prop "id")
      [("role", .val (.str "lead"))] oneMemberState 0 (by decide) (by decide)).2.1 "role",
   ((C12_updateMember_assigns_every_key sampleEnv ((oneMemberState.member 0).prop "id")
      [("role", .val (.str "lead"))] oneMemberState 0 (by decide) (by decide)).2.2.1
      (by decide)).1⟩

/-- C12, counterexample to the claim as stated. Updating Ann with an object that carries
an id, an activity flag and an unknown key changes her id, deactivates her and stores
the unknown key on her. -/
theorem C12_updateMember_overwrites_id_and_isActive :
    (oneMemberState.member 0).prop "id" = .val (.str "member_r") ∧
    (oneMemberState.member 0).prop "isActive" = .bool true ∧
    ((TeamMemberController.updateMember sampleEnv (.val (.str "member_r")) intrusiveUpdates
        oneMemberState).2.member 0).prop "id" = .val (.str "other") ∧
    ((TeamMemberController.updateMember sampleEnv (.val (.str "member_r")) intrusiveUpdates
        oneMemberState).2.member 0).prop "isActive" = .bool false ∧
    ((TeamMemberController.updateMember sampleEnv (.val (.str "member_r")) intrusiveUpdates
        oneMemberState).2.member 0).prop "nickname" = .val (.str "A") ∧
    ¬ (((TeamMemberController.updateMember sampleEnv (.val (.str "member_r")) intrusiveUpdates
          oneMemberState).2.member 0).prop "id" = (oneMemberState.member 0).prop "id" ∧
       ((TeamMemberController.updateMember sampleEnv (.val (.str "member_r")) intrusiveUpdates
          oneMemberState).2.member 0).prop "isActive" =
        (oneMemberState.member 0).prop "isActive") := by
  decide

/-- C14. For every id of a member in the collection, `deleteMember(id)` returns that
member, now with isActive = false and every other property as before, and does not
remove it: the collection keeps its elements and its length and `getMemberById(id)`
still returns the member. `getAllMembers()` returns exactly the members whose isActive
is true, in insertion order: afterwards it is the previous listing without the
deactivated member. -/
theorem C14_deleteMember_deactivates_without_removing (env : Env) (id : MVal)
    (ms : MemberState) (r : Nat) (h : ms.WF)
    (hfind : TeamMemberController.getMemberById id ms = some r) :
    (TeamMemberController.deleteMember env id ms).1 = some r ∧
    ((TeamMemberController.deleteMember env id ms).2.member r).prop "isActive" = .bool false ∧
    (∀ key, key ≠ "isActive" →
      ((TeamMemberController.deleteMember env id ms).2.member r).prop key =
        (ms.member r).prop key) ∧
    (TeamMemberController.deleteMember env id ms).2.members = ms.members ∧
    (TeamMemberController.deleteMember env id ms).2.members.length = ms.members.length ∧
    TeamMemberController.getMemberById id (TeamMemberController.deleteMember env id ms).2 =
      some r ∧
    (∀ x, x ∈ TeamMemberController.getAllMembers (TeamMemberController.deleteMember env id ms).2 ↔
      x ∈ (TeamMemberController.deleteMember env id ms).2.members ∧
      (((TeamMemberController.deleteMember env id ms).2.member x).prop "isActive").truthy = true) ∧
    List.Sublist (TeamMemberController.getAllMembers (TeamMemberController.deleteMember env id ms).2)
      (TeamMemberController.deleteMember env id ms).2.members ∧
    TeamMemberController.getAllMembers (TeamMemberController.deleteMember env id ms).2 =
      (TeamMemberController.getAllMembers ms).filter (fun x => decide (x ≠ r)) ∧
    r ∉ TeamMemberController.getAllMembers (TeamMemberController.deleteMember env id ms).2 := by
  obtain ⟨h1, h2, h3, h4⟩ := TeamMemberController.deleteMember_found env id ms r h hfind
  have hactive : ((TeamMemberController.deleteMember env id ms).2.member r).prop "isActive" =
      .bool false := by
    rw [h2, TeamMember.deactivate, MObj.member_prop_assign, if_pos rfl]
  have hlist : TeamMemberController.getAllMembers (TeamMemberController.deleteMember env id ms).2 =
      (TeamMemberController.getAllMembers ms).filter (fun x => decide (x ≠ r)) := by
    unfold TeamMemberController.getAllMembers
    rw [h4, List.filter_filter]
    apply List.filter_congr
    intro x _
    by_cases hx : x = r
    · subst hx
      simp [hactive, MVal.truthy]
    · simp [h3 x hx, hx]
  refine ⟨h1, hactive, ?_, h4, by rw [h4], ?_, ?_, ?_, hlist, ?_⟩
  · intro key hkey
    exact TeamMemberController.deleteMember_prop env id ms h r key hkey
  · have hpred : (fun x => decide
        (((TeamMemberController.deleteMember env id ms).2.member x).prop "id" = id)) =
        (fun x => decide ((ms.member x).prop "id" = id)) := by
      funext x
      rw [TeamMemberController.deleteMember_prop env id ms h x "id" (by decide)]
    unfold TeamMemberController.getMemberById
    rw [h4, hpred]
    exact hfind
  · intro x
    simp [TeamMemberController.getAllMembers, List.mem_filter]
  · exact List.filter_sublist _
  · rw [hlist]
    simp

/-- Witness for C14: deleting Ann by her id. -/
theorem C14_deleteMember_deactivates_without_removing_witness :
    ((TeamMemberController.deleteMember sampleEnv (.val (.str "member_r"))
        oneMemberState).2.member 0).prop "isActive" = .bool false ∧
    (TeamMemberController.deleteMember sampleEnv (.val (.str "member_r"))
        oneMemberState).2.members = oneMemberState.members :=
  ⟨(C14_deleteMember_deactivates_without_removing sampleEnv (.val (.str "member_r"))
      oneMemberState 0 (by decide) (by decide)).2.1,
   (C14_deleteMember_deactivates_without_removing sampleEnv (.val (.str "member_r"))
      oneMemberState 0 (by decide) (by decide)).2.2.2.1⟩

/-- C13. While a member is being added (no member is being edited), `validateForm`
reports an email error whenever some listed member has the submitted email, so
`handleAddMember` returns before calling `memberController.createMember`: the
controller and the list are as before. After that member, the only listed one with the
email, has been removed with `handleDeleteMember` (deactivated by `deleteMember` and
dropped from the list), the same form, its name not blank and its email well formed,
passes validation and `handleAddMember` creates the member: the controller holds one
more member, active and with the submitted email, and the list shows it. -/
theorem C13_email_is_unique_among_listed_members (env : Env) (ms : MemberState)
    (page : MembersPage) (r : Nat) (hwf : ms.WF) (hadding : page.editingMember = none)
    (hlisted : r ∈ page.members)
    (hemail : (ms.member r).prop "email" = .val (.str page.formData.email)) :
    ((TeamMembers.validateForm ms page).1 = false ∧
     ((TeamMembers.validateForm ms page).2.formErrors.prop "email").truthy = true ∧
     (TeamMembers.handleAddMember env ms page).1 = ms ∧
     (TeamMembers.handleAddMember env ms page).2.members = page.members) ∧
    (TeamMemberController.getMemberById ((ms.member r).prop "id") ms = some r →
     (∀ x ∈ page.members,
        (ms.member x).prop "email" = .val (.str page.formData.email) → x = r) →
     trim page.formData.name ≠ "" → trim page.formData.email ≠ "" →
     emailPattern page.formData.email = true →
      ((TeamMembers.handleDeleteMember env true ((ms.member r).prop "id") ms page).1.member
          r).prop "isActive" = .bool false ∧
      r ∉ (TeamMembers.handleDeleteMember env true ((ms.member r).prop "id") ms page).2.members ∧
      (TeamMembers.validateForm
        (TeamMembers.handleDeleteMember env true ((ms.member r).prop "id") ms page).1
        (TeamMembers.handleDeleteMember env true ((ms.member r).prop "id") ms page).2).1 = true ∧
      (TeamMembers.handleAddMember env
        (TeamMembers.handleDeleteMember env true ((ms.member r).prop "id") ms page).1
        (TeamMembers.handleDeleteMember env true ((ms.member r).prop "id") ms page).2).1 =
        (TeamMemberController.createMember env page.formData.toObj
          (TeamMembers.handleDeleteMember env true ((ms.member r).prop "id") ms page).1).2 ∧
      (TeamMembers.handleAddMember env
        (TeamMembers.handleDeleteMember env true ((ms.member r).prop "id") ms page).1
        (TeamMembers.handleDeleteMember env true ((ms.member r).prop "id") ms page).2).2.members =
        (TeamMembers.handleDeleteMember env true ((ms.member r).prop "id") ms page).2.members ++
          [(TeamMemberController.createMember env page.formData.toObj
            (TeamMembers.handleDeleteMember env true ((ms.member r).prop "id") ms page).1).1] ∧
      ((TeamMemberController.createMember env page.formData.toObj
          (TeamMembers.handleDeleteMember env true ((ms.member r).prop "id") ms page).1).2.member
        (TeamMemberController.createMember env page.formData.toObj
          (TeamMembers.handleDeleteMember env true ((ms.member r).prop "id") ms page).1).1).prop
        "email" = .val (.str page.formData.email) ∧
      (TeamMemberController.createMember env page.formData.toObj
          (TeamMembers.handleDeleteMember env true ((ms.member r).prop "id") ms page).1).1 ∈
        TeamMemberController.getAllMembers
          (TeamMemberController.createMember env page.formData.toObj
            (TeamMembers.handleDeleteMember env true ((ms.member r).prop "id") ms page).1).2) := by
  obtain ⟨herr, hne⟩ := TeamMembers.formErrors_of_existing ms page r hadding hlisted hemail
  have hvalid : (TeamMembers.validateForm ms page).1 = false := by
    have hlen : (TeamMembers.formErrors ms page).keys.length ≠ 0 := by
      simpa [Obj.keys] using hne
    simp [TeamMembers.validateForm, hlen]
  have hadd : TeamMembers.handleAddMember env ms page = (ms, (TeamMembers.validateForm ms page).2) := by
    simp only [TeamMembers.handleAddMember, hvalid, Bool.not_false, if_true]
  refine ⟨⟨hvalid, herr, ?_, ?_⟩, ?_⟩
  · rw [hadd]
  · rw [hadd]
    rfl
  · intro hfirst honly hname hblank hpattern
    have hfree := TeamMembers.existingMember_after_delete env ms page r hwf hadding honly
    generalize hdel : TeamMembers.handleDeleteMember env true ((ms.member r).prop "id") ms page
      = del at hfree ⊢
    have hdel' := TeamMembers.handleDeleteMember_confirmed env ((ms.member r).prop "id") ms page
    rw [hdel] at hdel'
    have hform : del.2.formData = page.formData := by rw [hdel']
    have hok : (TeamMembers.validateForm del.1 del.2).1 = true := by
      have := TeamMembers.formErrors_of_free del.1 del.2 (by rw [hform]; exact hname)
        (by rw [hform]; exact hblank) (by rw [hform]; exact hpattern) hfree
      simp [TeamMembers.validateForm, this, Obj.keys]
    obtain ⟨hc1, hc2, hc3⟩ := TeamMemberController.createMember_spec env page.formData.toObj del.1
    obtain ⟨_, hd2, _, _⟩ := TeamMemberController.deleteMember_found env
      ((ms.member r).prop "id") ms r hwf hfirst
    refine ⟨?_, ?_, hok, ?_, ?_, ?_, ?_⟩
    · rw [hdel']
      show ((TeamMemberController.deleteMember env ((ms.member r).prop "id") ms).2.member
        r).prop "isActive" = _
      rw [hd2, TeamMember.deactivate, MObj.member_prop_assign, if_pos rfl]
    · rw [hdel']
      intro hmem
      have := (List.mem_filter.mp hmem).2
      rw [TeamMemberController.deleteMember_prop env _ ms hwf r "id" (by decide)] at this
      simp at this
    · simp only [TeamMembers.handleAddMember, hok, Bool.not_true, Bool.false_eq_true, if_false,
        hform]
    · simp only [TeamMembers.handleAddMember, hok, Bool.not_true, Bool.false_eq_true, if_false,
        hform]
      rfl
    · rw [hc1, hc3]
      rfl
    · rw [hc1]
      unfold TeamMemberController.getAllMembers
      rw [List.mem_filter, hc2, hc3]
      exact ⟨by simp, rfl⟩

/-- Witness for C13: adding Bob with the email of the listed member Ann is refused;
once Ann has been removed the same form passes validation. -/
theorem C13_email_is_unique_among_listed_members_witness :
    (TeamMembers.validateForm oneMemberState (addPage "ann@team.org")).1 = false ∧
    (TeamMembers.validateForm
      (TeamMembers.handleDeleteMember sampleEnv true ((oneMemberState.member 0).prop "id")
        oneMemberState (addPage "ann@team.org")).1
      (TeamMembers.handleDeleteMember sampleEnv true ((oneMemberState.member 0).prop "id")
        oneMemberState (addPage "ann@team.org")).2).1 = true :=
  ⟨(C13_email_is_unique_among_listed_members sampleEnv oneMemberState
      (addPage "ann@team.org") 0 (by decide) rfl (by decide) (by decide)).1.1,
   ((C13_email_is_unique_among_listed_members sampleEnv oneMemberState
      (addPage "ann@team.org") 0 (by decide) rfl (by decide) (by decide)).2
      (by decide) (by decide) (by decide) (by decide) (by decide)).2.2.1⟩

/-- C23. Defaults. A task created by `TaskController.createTask` from data that carries
only a title has that title, description `''`, assignee `''`, priority `'medium'`,
status `'todo'` and dueDate `null`; a member created by
`TeamMemberController.createMember` from data without a role has role `'member'` and
`isActive = true`. -/
theorem C23_defaults_of_created_task_and_member (env : Env) (s : State) (ms : MemberState)
    (taskData : Obj) (memberData : MObj)
    (honly : ∀ k ∈ taskData.keys, k = "title") (hrole : "role" ∉ memberData.keys) :
    ((TaskController.createTask env taskData s).2.task
        (TaskController.createTask env taskData s).1).title = taskData.prop "title" ∧
    ((TaskController.createTask env taskData s).2.task
        (TaskController.createTask env taskData s).1).description = .str "" ∧
    ((TaskController.createTask env taskData s).2.task
        (TaskController.createTask env taskData s).1).assignee = .str "" ∧
    ((TaskController.createTask env taskData s).2.task
        (TaskController.createTask env taskData s).1).priority = .str "medium" ∧
    ((TaskController.createTask env taskData s).2.task
        (TaskController.createTask env taskData s).1).status = .str "todo" ∧
    ((TaskController.createTask env taskData s).2.task
        (TaskController.createTask env taskData s).1).dueDate = .null ∧
    ((TeamMemberController.createMember env memberData ms).2.member
        (TeamMemberController.createMember env memberData ms).1).prop "role" =
      .val (.str "member") ∧
    ((TeamMemberController.createMember env memberData ms).2.member
        (TeamMemberController.createMember env memberData ms).1).prop "isActive" =
      .bool true := by
  have habsent : ∀ k : String, k ≠ "title" → taskData.prop k = .undefined := fun k hk =>
    Obj.prop_of_not_mem taskData k (fun hmem => hk (honly k hmem))
  obtain ⟨hfst, _, hmember⟩ := TeamMemberController.createMember_spec env memberData ms
  rw [TaskController.createTask_fst, TaskController.createTask_task, hfst, hmember,
    habsent "description" (by decide), habsent "assignee" (by decide),
    habsent "priority" (by decide), habsent "dueDate" (by decide),
    MObj.member_prop_of_not_mem memberData "role" hrole]
  refine ⟨rfl, rfl, rfl, rfl, rfl, rfl, ?_, ?_⟩ <;>
    simp [TeamMember.new, MObj.member_prop_cons, MVal.orDefault]

/-- Witness for C23: a task created from a title alone and a member created from a name
and an email. -/
theorem C23_defaults_of_created_task_and_member_witness :
    ((TaskController.createTask sampleEnv [("title", .str "A")] freshState).2.task
        (TaskController.createTask sampleEnv [("title", .str "A")] freshState).1).priority =
      .str "medium" ∧
    ((TeamMemberController.createMember sampleEnv
          [("name", .val (.str "Ann")), ("email", .val (.str "ann@team.org"))]
          (MemberState.initial sampleEnv .empty)).2.member
        (TeamMemberController.createMember sampleEnv
          [("name", .val (.str "Ann")), ("email", .val (.str "ann@team.org"))]
          (MemberState.initial sampleEnv .empty)).1).prop "role" = .val (.str "member") :=
  ⟨(C23_defaults_of_created_task_and_member sampleEnv freshState
      (MemberState.initial sampleEnv .empty) [("title", .str "A")]
      [("name", .val (.str "Ann")), ("email", .val (.str "ann@team.org"))]
      (by decide) (by decide)).2.2.2.1,
   (C23_defaults_of_created_task_and_member sampleEnv freshState
      (MemberState.initial sampleEnv .empty) [("title", .str "A")]
      [("name", .val (.str "Ann")), ("email", .val (.str "ann@team.org"))]
      (by decide) (by decide)).2.2.2.2.2.2.1⟩

/-- C28. The two duplicated filter implementations agree: on a store holding any
collection and any filter state, `TaskStore.getFilteredTasks()` gives what
`utils.filterTasks(tasks, filters)` gives on that collection and that filter state,
the same list when one returns and a TypeError when the other raises. -/
theorem C28_store_filter_agrees_with_filterTasks (env : Env) (s : State) :
    TaskStore.getFilteredTasks env s = filterTasks env s.storeView s.filters ∧
    (∀ task, TaskStore.passesFilters env s task = matchesFilters env s.filters task) :=
  ⟨TaskStore.getFilteredTasks_eq env s, TaskStore.passesFilters_eq env s⟩

/-- C30. `filterTasks` and `getFilteredTasks` are total on collections of tasks with a
string title and a string description: for every filter state they return a list. But
`TaskController.createTask` accepts data with no title and stores the task with the
title `undefined`; with a non-empty search string (and no other filter set),
`filterTasks` on the resulting collection raises instead of returning a list, and so
does `getFilteredTasks` on a store that holds this collection and this filter. -/
theorem C30_filter_total_on_text_raises_on_untitled (env : Env) (tasks : List Task)
    (filters : Obj) (s store : State) (taskData searchFilters : Obj) (search : String)
    (htext : ∀ t ∈ tasks, t.HasText) (hstore : ∀ t ∈ s.storeView, t.HasText)
    (hwf : s.WF) (hno : "title" ∉ taskData.keys)
    (hstatus : (searchFilters.prop "status").truthy = false)
    (hassignee : (searchFilters.prop "assignee").truthy = false)
    (hpriority : (searchFilters.prop "priority").truthy = false)
    (hsearch : searchFilters.prop "search" = .str search) (hne : search ≠ "")
    (hholds : store.storeView = (TaskController.createTask env taskData s).2.ctrlView)
    (hfilters : store.filters = searchFilters) :
    (∃ result, filterTasks env tasks filters = some result) ∧
    (∃ result, TaskStore.getFilteredTasks env s = some result) ∧
    ((TaskController.createTask env taskData s).2.task
        (TaskController.createTask env taskData s).1).title = .undefined ∧
    (TaskController.createTask env taskData s).2.task
        (TaskController.createTask env taskData s).1 ∈
      (TaskController.createTask env taskData s).2.ctrlView ∧
    filterTasks env (TaskController.createTask env taskData s).2.ctrlView searchFilters =
      none ∧
    TaskStore.getFilteredTasks env store = none := by
  have htitle : ((TaskController.createTask env taskData s).2.task
      (TaskController.createTask env taskData s).1).title = .undefined := by
    rw [TaskController.createTask_fst, TaskController.createTask_task]
    exact Obj.prop_of_not_mem taskData "title" hno
  have hmem : (TaskController.createTask env taskData s).2.task
      (TaskController.createTask env taskData s).1 ∈
        (TaskController.createTask env taskData s).2.ctrlView := by
    rw [TaskController.createTask_ctrlView env taskData s hwf, TaskController.createTask_fst]
    exact List.mem_append_right _ (List.mem_singleton_self _)
  have hraise : filterTasks env (TaskController.createTask env taskData s).2.ctrlView
      searchFilters = none :=
    filterM_eq_none _ _ _ hmem
      (matchesFilters_of_untitled env searchFilters _ search hstatus hassignee hpriority
        hsearch hne htitle)
  refine ⟨?_, ?_, htitle, hmem, hraise, ?_⟩
  · exact filterM_total _ _ (fun t ht => ⟨_, matchesFilters_of_text env filters t (htext t ht)⟩)
  · exact filterM_total _ _
      (fun t ht => ⟨_, matchesFilters_of_text env s.filters t (hstore t ht)⟩)
  · show filterM (matchesFilters env store.filters) store.storeView = none
    rw [hholds, hfilters]
    exact hraise

/-- Witness for C30: the three-task scenario filtered by status and search, and a task
created from a description alone, searched for `a` after a reload of the store. -/
theorem C30_filter_total_on_text_raises_on_untitled_witness :
    (∃ result, filterTasks sampleEnv scenarioState.storeView
      [("status", .str "todo"), ("search", .str "T")] = some result) ∧
    filterTasks sampleEnv
      (TaskController.createTask sampleEnv [("description", .str "about")]
        scenarioState).2.ctrlView [("search", .str "a")] = none ∧
    TaskStore.getFilteredTasks sampleEnv
      (TaskStore.setFilters [("search", .str "a")]
        (TaskStore.loadTasks
          (TaskController.createTask sampleEnv [("description", .str "about")]
            scenarioState).2)) = none :=
  ⟨(C30_filter_total_on_text_raises_on_untitled sampleEnv scenarioState.storeView
      [("status", .str "todo"), ("search", .str "T")] scenarioState
      (TaskStore.setFilters [("search", .str "a")]
        (TaskStore.loadTasks
          (TaskController.createTask sampleEnv [("description", .str "about")]
            scenarioState).2))
      [("description", .str "about")]
      (Obj.spread emptyFilters [("search", .str "a")]) "a"
      (by decide) (by decide) (by decide) (by decide) (by decide) (by decide) (by decide)
      (by decide) (by decide) (by decide) (by decide)).1,
   (C30_filter_total_on_text_raises_on_untitled sampleEnv scenarioState.storeView
      [("status", .str "todo"), ("search", .str "T")] scenarioState
      (TaskStore.setFilters [("search", .str "a")]
        (TaskStore.loadTasks
          (TaskController.createTask sampleEnv [("description", .str "about")]
            scenarioState).2))
      [("description", .str "about")]
      (Obj.spread emptyFilters [("search", .str "a")]) "a"
      (by decide) (by decide) (by decide) (by decide) (by decide) (by decide) (by decide)
      (by decide) (by decide) (by decide) (by decide)).2.2.2.2.1,
   (C30_filter_total_on_text_raises_on_untitled sampleEnv scenarioState.storeView
      [("status", .str "todo"), ("search", .str "T")] scenarioState
      (TaskStore.setFilters [("search", .str "a")]
        (TaskStore.loadTasks
          (TaskController.createTask sampleEnv [("description", .str "about")]
            scenarioState).2))
      [("description", .str "about")]
      (Obj.spread emptyFilters [("search", .str "a")]) "a"
      (by decide) (by decide) (by decide) (by decide) (by decide) (by decide) (by decide)
      (by decide) (by decide) (by decide) (by decide)).2.2.2.2.2⟩

/-- C22. `updatedAt` always advances on mutation. For every task, `updateTask(updates)`
with any `updates` (the empty object included) and every successful `updateStatus`,
performed at a clock reading `now` later than the task's current `updatedAt`, set
`updatedAt` to `now` and leave `createdAt` unchanged, so `createdAt <= updatedAt` still
holds. Hence for a task built by the constructor and then mutated by any sequence of
`updateTask` and `updateStatus` calls under a non-decreasing clock, `createdAt` is the
constructor's reading and `createdAt <= updatedAt` holds after the sequence. -/
theorem C22_updatedAt_advances_on_mutation (t : Task) (c u now : Int) (updates : Obj)
    (newStatus : Val) (rnd : String) (t0 t1 t2 : Int)
    (title description assignee priority dueDate : Val) (calls : List Mutation)
    (hc : t.createdAt = some c) (hu : t.updatedAt = some u) (hcu : c ≤ u)
    (hlater : u < now) (hvalid : newStatus ∈ validStatuses) (hctor : t1 ≤ t2)
    (hclock : List.Chain (fun a b => a ≤ b) t2 (calls.filterMap Mutation.reading)) :
    ((Task.updateTask now t updates).updatedAt = some now ∧
      (Task.updateTask now t updates).updatedAt ≠ t.updatedAt ∧
      (Task.updateTask now t updates).createdAt = some c ∧ c < now) ∧
    ((Task.updateTask now t []).updatedAt = some now ∧
      (Task.updateTask now t []).createdAt = some c) ∧
    ((Task.updateStatus now t newStatus).2 = true ∧
      (Task.updateStatus now t newStatus).1.updatedAt = some now ∧
      (Task.updateStatus now t newStatus).1.createdAt = some c) ∧
    (∃ u', ((Task.new rnd t0 t1 t2 title description assignee priority dueDate).mutateAll
          calls).createdAt = some t1 ∧
      ((Task.new rnd t0 t1 t2 title description assignee priority dueDate).mutateAll
          calls).updatedAt = some u' ∧ t1 ≤ u') := by
  refine ⟨?_, ?_, ?_, ?_⟩
  · obtain ⟨h1, h2⟩ := Task.updateTask_stamps now t updates
    refine ⟨h1, ?_, h2.trans hc, lt_of_le_of_lt hcu hlater⟩
    rw [h1, hu]
    intro heq
    exact absurd (Option.some.inj heq) (ne_of_gt hlater)
  · obtain ⟨h1, h2⟩ := Task.updateTask_stamps now t []
    exact ⟨h1, h2.trans hc⟩
  · simp [Task.updateStatus, hvalid, hc]
  · obtain ⟨u', h1, h2, h3, _⟩ := Task.mutateAll_stamps calls
      (Task.new rnd t0 t1 t2 title description assignee priority dueDate) t1 t2 rfl rfl
      hctor hclock
    exact ⟨u', h1, h2, h3⟩

/-- Witness for C22: a task built at the readings 1, 2, 3, then given a new title at
reading 5, an invalid status, and the status `completed` at reading 8. -/
theorem C22_updatedAt_advances_on_mutation_witness :
    ∃ u', ((Task.new "r" 1 2 3 (.str "A") .undefined .undefined .undefined
          .undefined).mutateAll
        [.updateTask 5 [("title", .str "B")], .updateStatus 0 (.str "done"),
         .updateStatus 8 (.str "completed")]).createdAt = some 2 ∧
      ((Task.new "r" 1 2 3 (.str "A") .undefined .undefined .undefined
          .undefined).mutateAll
        [.updateTask 5 [("title", .str "B")], .updateStatus 0 (.str "done"),
         .updateStatus 8 (.str "completed")]).updatedAt = some u' ∧ (2 : Int) ≤ u' :=
  (C22_updatedAt_advances_on_mutation
    (Task.new "r" 1 2 3 (.str "A") .undefined .undefined .undefined .undefined) 2 3 5
    [("title", .str "B")] (.str "completed") "r" 1 2 3 (.str "A") .undefined .undefined
    .undefined .undefined
    [.updateTask 5 [("title", .str "B")], .updateStatus 0 (.str "done"),
     .updateStatus 8 (.str "completed")]
    rfl rfl (by decide) (by decide) (by decide) (by decide)
    (by simp [Mutation.reading, validStatuses])).2.2.2

/-- C29. For every collection in which each task's status is one of `todo`,
`in-progress`, `completed`, the counts returned by `getTaskStatistics` (of the controller
and of the store) partition the collection: `todo + inProgress + completed = total`, and
`overdue <= todo + inProgress`, because every task that `getOverdueTasks` keeps is a task
of the collection that is not completed and has a due date. -/
theorem C29_statistics_partition_the_collection (env : Env) (s : State)
    (hctrl : ∀ t ∈ s.ctrlView, t.status ∈ validStatuses)
    (hstore : ∀ t ∈ s.storeView, t.status ∈ validStatuses) :
    ((TaskController.getTaskStatistics env s).1.todo +
        (TaskController.getTaskStatistics env s).1.inProgress +
        (TaskController.getTaskStatistics env s).1.completed =
      (TaskController.getTaskStatistics env s).1.total ∧
     (TaskController.getTaskStatistics env s).1.overdue ≤
      (TaskController.getTaskStatistics env s).1.todo +
        (TaskController.getTaskStatistics env s).1.inProgress) ∧
    ((TaskStore.getTaskStatistics env s).1.todo +
        (TaskStore.getTaskStatistics env s).1.inProgress +
        (TaskStore.getTaskStatistics env s).1.completed =
      (TaskStore.getTaskStatistics env s).1.total ∧
     (TaskStore.getTaskStatistics env s).1.overdue ≤
      (TaskStore.getTaskStatistics env s).1.todo +
        (TaskStore.getTaskStatistics env s).1.inProgress) ∧
    (TaskController.getTaskStatistics env s).1.overdue =
      (TaskController.getOverdueTasks env s).1.length ∧
    (∀ r ∈ (TaskController.getOverdueTasks env s).1,
      s.task r ∈ s.ctrlView ∧ (s.task r).status ≠ .str "completed" ∧
        (s.task r).dueDate.truthy = true) := by
  have key : ∀ refs : List Nat, (∀ r ∈ refs, (s.task r).status ∈ validStatuses) →
      (s.byStatus refs (.str "todo")).length + (s.byStatus refs (.str "in-progress")).length +
          (s.byStatus refs (.str "completed")).length = refs.length ∧
      (s.overdue env refs s.clockReads).1.length ≤
        (s.byStatus refs (.str "todo")).length +
          (s.byStatus refs (.str "in-progress")).length := by
    intro refs h
    have h1 := State.byStatus_partition s refs h
    have h2 := (State.overdue_spec env s refs s.clockReads).2
    exact ⟨h1, by omega⟩
  refine ⟨key (s.array s.ctrlTasks) (fun r hr => hctrl _ (List.mem_map.mpr ⟨r, hr, rfl⟩)),
    key (s.array s.storeTasks) (fun r hr => hstore _ (List.mem_map.mpr ⟨r, hr, rfl⟩)),
    rfl, fun r hr => ?_⟩
  obtain ⟨h1, h2⟩ := (State.overdue_spec env s (s.array s.ctrlTasks) s.clockReads).1 r hr
  exact ⟨List.mem_map.mpr ⟨r, h1, rfl⟩, h2⟩

/-- Witness for C29: the three-task scenario, whose completed task is past its due
date. -/
theorem C29_statistics_partition_the_collection_witness :
    (TaskController.getTaskStatistics sampleEnv scenarioState).1.todo +
        (TaskController.getTaskStatistics sampleEnv scenarioState).1.inProgress +
        (TaskController.getTaskStatistics sampleEnv scenarioState).1.completed =
      (TaskController.getTaskStatistics sampleEnv scenarioState).1.total ∧
     (TaskController.getTaskStatistics sampleEnv scenarioState).1.overdue ≤
      (TaskController.getTaskStatistics sampleEnv scenarioState).1.todo +
        (TaskController.getTaskStatistics sampleEnv scenarioState).1.inProgress :=
  (C29_statistics_partition_the_collection sampleEnv scenarioState (by decide)
    (by decide)).1

/-- C21. `TaskActions.batchDeleteTasks` raises `Task IDs array is required` when
`taskIds` is not an array or is empty, and is a sequential loop without rollback: for
the ids `[X, bad, Z]`, where X and Z are ids of existing tasks and `bad` is a missing or
empty id, the call raises `Task ID is required` at `bad` and leaves exactly the state
reached by deleting X. In that state the first task with id X is gone from the
controller's collection and no task with id X is left in the store's collection (nor in
the controller's when ids are pairwise distinct), while a task with id Z is still
present in both. -/
theorem C21_batch_delete_is_not_atomic (env : Env) (X bad Z v : Val) (s : State)
    (hwf : s.WF) (hX : X.truthy = true) (hbad : bad.truthy = false) (hZX : Z ≠ X)
    (hXin : ∃ t ∈ s.ctrlView, t.id = X) (hZctrl : ∃ t ∈ s.ctrlView, t.id = Z)
    (hZstore : ∃ t ∈ s.storeView, t.id = Z) :
    TaskActions.batchDeleteTasksCall env (.other v) s =
      { state := s, raised := some "Task IDs array is required" } ∧
    TaskActions.batchDeleteTasksCall env (.array []) s =
      { state := s, raised := some "Task IDs array is required" } ∧
    TaskActions.batchDeleteTasksCall env (.array [X, bad, Z]) s =
      { state := TaskStore.deleteTask env X s, raised := some "Task ID is required" } ∧
    (TaskActions.batchDeleteTasksCall env (.array [X, bad, Z]) s).state.ctrlView =
      s.ctrlView.eraseP (fun t => decide (t.id = X)) ∧
    (TaskActions.batchDeleteTasksCall env (.array [X, bad, Z]) s).state.storeView =
      s.storeView.filter (fun t => !decide (t.id = X)) ∧
    (∀ t ∈ (TaskActions.batchDeleteTasksCall env (.array [X, bad, Z]) s).state.storeView,
      t.id ≠ X) ∧
    ((s.ctrlView.map Task.id).Nodup →
      ∀ t ∈ (TaskActions.batchDeleteTasksCall env (.array [X, bad, Z]) s).state.ctrlView,
        t.id ≠ X) ∧
    (∃ t ∈ (TaskActions.batchDeleteTasksCall env (.array [X, bad, Z]) s).state.ctrlView,
      t.id = Z) ∧
    (∃ t ∈ (TaskActions.batchDeleteTasksCall env (.array [X, bad, Z]) s).state.storeView,
      t.id = Z) := by
  obtain ⟨hctrl, hstore⟩ := TaskStore.deleteTask_views env X s hwf hXin
  have hfirst : TaskActions.deleteTask env X s =
      { state := TaskStore.deleteTask env X s, raised := none } := by
    simp [TaskActions.deleteTask, hX, TaskStore.handleAction]
  have hsecond : ∀ st : State, TaskActions.deleteTask env bad st =
      { state := st, raised := some "Task ID is required" } := by
    intro st
    simp [TaskActions.deleteTask, hbad]
  have hbatch : TaskActions.batchDeleteTasksCall env (.array [X, bad, Z]) s =
      { state := TaskStore.deleteTask env X s, raised := some "Task ID is required" } := by
    simp [TaskActions.batchDeleteTasksCall, TaskActions.batchDeleteTasks, forEachId, hfirst,
      hsecond]
  rw [hbatch]
  refine ⟨rfl, rfl, rfl, hctrl, hstore, ?_, ?_, ?_, ?_⟩
  · intro t ht
    rw [hstore] at ht
    simpa using (List.mem_filter.mp ht).2
  · intro hnodup
    show ∀ t ∈ (TaskStore.deleteTask env X s).ctrlView, t.id ≠ X
    rw [hctrl]
    exact List.not_of_mem_eraseP_of_nodup Task.id X s.ctrlView hnodup
  · obtain ⟨t, ht, hid⟩ := hZctrl
    refine ⟨t, ?_, hid⟩
    show t ∈ (TaskStore.deleteTask env X s).ctrlView
    rw [hctrl]
    exact (List.mem_eraseP_of_neg (by simp [hid, hZX])).mpr ht
  · obtain ⟨t, ht, hid⟩ := hZstore
    refine ⟨t, ?_, hid⟩
    show t ∈ (TaskStore.deleteTask env X s).storeView
    rw [hstore]
    exact List.mem_filter.mpr ⟨ht, by simp [hid, hZX]⟩

/-- Witness for C21: the batch over `A`, the empty id and `C` on the three-task
scenario. -/
theorem C21_batch_delete_is_not_atomic_witness :
    TaskActions.batchDeleteTasksCall sampleEnv (.array [.str "A", .str "", .str "C"])
        scenarioState =
      { state := TaskStore.deleteTask sampleEnv (.str "A") scenarioState,
        raised := some "Task ID is required" } ∧
    (TaskActions.batchDeleteTasksCall sampleEnv (.array [.str "A", .str "", .str "C"])
        scenarioState).state.ctrlView =
      scenarioState.ctrlView.eraseP (fun t => decide (t.id = .str "A")) :=
  ⟨(C21_batch_delete_is_not_atomic sampleEnv (.str "A") (.str "") (.str "C") .null
      scenarioState (by decide) (by decide) (by decide) (by decide) (by decide) (by decide)
      (by decide)).2.2.1,
   (C21_batch_delete_is_not_atomic sampleEnv (.str "A") (.str "") (.str "C") .null
      scenarioState (by decide) (by decide) (by decide) (by decide) (by decide) (by decide)
      (by decide)).2.2.2.1⟩
/-- C27. For every store state whose held collection equals the controller's collection
and whose task ids are pairwise distinct, handling `UPDATE_TASK` or `DELETE_TASK` with
any id, present or absent, leaves the held collection equal to the controller's
collection, in the same order, and leaves the ids pairwise distinct. -/
theorem C27_update_and_delete_keep_the_collections_equal (env : Env) (id : Val) (data : Obj)
    (s : State) (hwf : s.WF) (hsame : s.storeView = s.ctrlView)
    (hids : (s.ctrlView.map Task.id).Nodup) :
    ((TaskStore.handleAction env { type := "UPDATE_TASK", id := id, data := data } s).storeView =
      (TaskStore.handleAction env { type := "UPDATE_TASK", id := id, data := data } s).ctrlView ∧
     ((TaskStore.handleAction env
        { type := "UPDATE_TASK", id := id, data := data } s).ctrlView.map Task.id).Nodup) ∧
    ((TaskStore.handleAction env { type := "DELETE_TASK", id := id } s).storeView =
      (TaskStore.handleAction env { type := "DELETE_TASK", id := id } s).ctrlView ∧
     ((TaskStore.handleAction env
        { type := "DELETE_TASK", id := id } s).ctrlView.map Task.id).Nodup) := by
  have hupd : TaskStore.handleAction env { type := "UPDATE_TASK", id := id, data := data } s =
      TaskStore.updateTask env id data s := by
    simp [TaskStore.handleAction]
  have hdel : TaskStore.handleAction env { type := "DELETE_TASK", id := id } s =
      TaskStore.deleteTask env id s := by
    simp [TaskStore.handleAction]
  rw [hupd, hdel]
  constructor
  · cases hfind : TaskController.getTaskById id s with
    | none =>
      have hstate : TaskStore.updateTask env id data s = s.emitChange := by
        simp [TaskStore.updateTask, TaskController.updateTask, hfind]
      rw [hstate]
      exact ⟨hsame, hids⟩
    | some r =>
      obtain ⟨hU, _, hkeep, harr⟩ := TaskStore.updateTask_found env id data s r hwf hfind
      obtain ⟨hother, hstoreArr⟩ := TaskStore.updateTask_views env id data s r hwf hfind
      obtain ⟨_, hrid⟩ := TaskController.getTaskById_some id s r hwf hfind
      have hrmem : r ∈ s.array s.ctrlTasks := by
        unfold TaskController.getTaskById at hfind
        exact List.mem_of_find?_eq_some hfind
      have hinj := List.inj_on_of_nodup_map (f := fun x => (s.task x).id)
        (l := s.array s.ctrlTasks)
        (by simpa [State.ctrlView, State.view, List.map_map, Function.comp_def] using hids)
      have hstore : (TaskStore.updateTask env id data s).storeView =
          s.storeView.map (fun t => if t.id = id then
            Task.updateTask (env.clock s.clockReads) (s.task r) data else t) := by
        rw [State.storeView, State.view, hstoreArr, State.storeView, State.view, List.map_map,
          List.map_map]
        apply List.map_congr_left
        intro x _
        by_cases hx : (s.task x).id = id
        · simp [hx, hU]
        · have hxr : x ≠ r := fun hxr => hx (hxr ▸ hrid)
          simp [hx, hother x hxr]
      have hctrl : (TaskStore.updateTask env id data s).ctrlView =
          s.ctrlView.map (fun t => if t.id = id then
            Task.updateTask (env.clock s.clockReads) (s.task r) data else t) := by
        rw [State.ctrlView, State.view, harr, State.ctrlView, State.view, List.map_map]
        apply List.map_congr_left
        intro x hxmem
        by_cases hx : x = r
        · subst hx
          simp [hU, hrid]
        · have hne : (s.task x).id ≠ id := fun hxid =>
            hx (hinj hxmem hrmem (hxid.trans hrid.symm))
          simp [hne, hother x hx]
      refine ⟨by rw [hstore, hctrl, hsame], ?_⟩
      have hsameIds : (TaskStore.updateTask env id data s).ctrlView.map Task.id =
          s.ctrlView.map Task.id := by
        rw [State.ctrlView, State.view, harr, State.ctrlView, State.view, List.map_map,
          List.map_map]
        apply List.map_congr_left
        intro x _
        exact hkeep x
      rw [hsameIds]
      exact hids
  · by_cases hmem : ∃ t ∈ s.ctrlView, t.id = id
    · obtain ⟨hctrl, hstore⟩ := TaskStore.deleteTask_views env id s hwf hmem
      rw [hctrl, hstore, hsame, List.eraseP_eq_filter_of_nodup Task.id id s.ctrlView hids]
      refine ⟨rfl, ?_⟩
      exact List.Nodup.sublist (List.Sublist.map Task.id (List.filter_sublist _)) hids
    · have hnone : ∀ t ∈ s.ctrlView, t.id ≠ id := fun t ht hid => hmem ⟨t, ht, hid⟩
      have hstate : TaskStore.deleteTask env id s = s.emitChange := by
        simp [TaskStore.deleteTask, TaskController.deleteTask_unknown env id s hnone]
      rw [hstate]
      exact ⟨hsame, hids⟩

/-- Witness for C27: updating and deleting task `B` of the three-task scenario. -/
theorem C27_update_and_delete_keep_the_collections_equal_witness :
    (TaskStore.handleAction sampleEnv
        { type := "UPDATE_TASK", id := .str "B", data := [("title", .str "B2")] }
        scenarioState).storeView =
      (TaskStore.handleAction sampleEnv
        { type := "UPDATE_TASK", id := .str "B", data := [("title", .str "B2")] }
        scenarioState).ctrlView ∧
    (TaskStore.handleAction sampleEnv { type := "DELETE_TASK", id := .str "B" }
        scenarioState).storeView =
      (TaskStore.handleAction sampleEnv { type := "DELETE_TASK", id := .str "B" }
        scenarioState).ctrlView :=
  ⟨(C27_update_and_delete_keep_the_collections_equal sampleEnv (.str "B")
      [("title", .str "B2")] scenarioState (by decide) (by decide) (by decide)).1.1,
   (C27_update_and_delete_keep_the_collections_equal sampleEnv (.str "B")
      [("title", .str "B2")] scenarioState (by decide) (by decide) (by decide)).2.1⟩

/-- C24. `TaskForm.validateForm` enforces the task field limits. With no due date it
accepts the form iff the title is non-blank after trimming, the title has at most 100
characters and the description has at most 500 characters, a character being a unit of
the string's `length` (one per character of the Basic Multilingual Plane). So a
non-blank title of exactly 100 characters with a description of exactly 500 characters
is accepted; a title of 101 characters, a description of 501 characters and a title of
white space only are rejected. -/
theorem C24_task_form_enforces_field_limits (env : Env) (startOfDay : Int → Int) (now : Int)
    (formData : TaskFormData) (hdue : formData.dueDate = "") :
    ((TaskForm.validateForm env startOfDay now formData).1 = true ↔
      trim formData.title ≠ "" ∧ jsLength formData.title ≤ 100 ∧
        jsLength formData.description ≤ 500) ∧
    (trim formData.title ≠ "" → jsLength formData.title = 100 →
      jsLength formData.description = 500 →
      (TaskForm.validateForm env startOfDay now formData).1 = true) ∧
    (jsLength formData.title = 101 →
      (TaskForm.validateForm env startOfDay now formData).1 = false) ∧
    (jsLength formData.description = 501 →
      (TaskForm.validateForm env startOfDay now formData).1 = false) ∧
    ((∀ c ∈ formData.title.toList, isWhiteSpace c = true) →
      (TaskForm.validateForm env startOfDay now formData).1 = false) ∧
    ((∀ c ∈ formData.title.toList, c.toNat < 65536) →
      jsLength formData.title = formData.title.length) ∧
    ((∀ c ∈ formData.description.toList, c.toNat < 65536) →
      jsLength formData.description = formData.description.length) := by
  have hiff := TaskForm.validateForm_no_dueDate env startOfDay now formData hdue
  have hreject : ∀ {p : Prop}, (p → False) →
      ((TaskForm.validateForm env startOfDay now formData).1 = true ↔ p) →
      (TaskForm.validateForm env startOfDay now formData).1 = false := by
    intro p hp h
    cases hv : (TaskForm.validateForm env startOfDay now formData).1 with
    | false => rfl
    | true => exact absurd (h.mp hv) hp
  refine ⟨hiff, ?_, ?_, ?_, ?_, jsLength_of_basic _, jsLength_of_basic _⟩
  · intro h1 h2 h3
    exact hiff.mpr ⟨h1, by omega, by omega⟩
  · intro h
    exact hreject (fun hp => by omega) hiff
  · intro h
    exact hreject (fun hp => by omega) hiff
  · intro h
    exact hreject (fun hp => hp.1 (trim_of_white _ h)) hiff

set_option maxRecDepth 20000 in
/-- Witness for C24: a title of exactly 100 letters with a description of exactly 500
letters is accepted, and one letter more in the title is rejected. -/
theorem C24_task_form_enforces_field_limits_witness :
    (TaskForm.validateForm sampleEnv (fun t => t) 0 (sampleForm 100 500)).1 = true ∧
    (TaskForm.validateForm sampleEnv (fun t => t) 0 (sampleForm 101 500)).1 = false :=
  ⟨(C24_task_form_enforces_field_limits sampleEnv (fun t => t) 0 (sampleForm 100 500)
      rfl).2.1 (by decide) (by decide) (by decide),
   (C24_task_form_enforces_field_limits sampleEnv (fun t => t) 0 (sampleForm 101 500)
      rfl).2.2.1 (by decide)⟩

/-- C25 (the code departs from the claim). `getAllTasks()` returns the controller's own
array, and the recent-task computation of `Dashboard` sorts that array in place. After
creating the tasks `A` and `B` in this order the collection is `A`, `B`; once the
`Dashboard` effect has run, the recent tasks are `B`, `A` and the controller's collection
itself is `B`, `A`; the store, which holds the same array, sees `B`, `A` too, and a task
`C` created afterwards is appended to the reordered collection, which is saved as `B`,
`A`, `C`. -/
theorem C25_dashboard_sort_reorders_the_collection :
    twoTaskState.ctrlView.map Task.title = [.str "A", .str "B"] ∧
    twoTaskState.ctrlView.map Task.createdAt = [some 11, some 14] ∧
    (Dashboard.loadData sampleEnv oneMemberState twoTaskState).1.recentTasks.map
        (fun r => ((Dashboard.loadData sampleEnv oneMemberState twoTaskState).2.task r).title) =
      [.str "B", .str "A"] ∧
    (Dashboard.loadData sampleEnv oneMemberState twoTaskState).2.ctrlView.map Task.title =
      [.str "B", .str "A"] ∧
    (Dashboard.loadData sampleEnv oneMemberState twoTaskState).2.ctrlView ≠
      twoTaskState.ctrlView ∧
    (Dashboard.loadData sampleEnv oneMemberState twoTaskState).2.storeView.map Task.title =
      [.str "B", .str "A"] ∧
    (TaskController.createTask sampleEnv [("title", .str "C")]
        (Dashboard.loadData sampleEnv oneMemberState twoTaskState).2).2.ctrlView.map
        Task.title = [.str "B", .str "A", .str "C"] ∧
    (match (TaskController.createTask sampleEnv [("title", .str "C")]
        (Dashboard.loadData sampleEnv oneMemberState twoTaskState).2).2.storage with
      | .json records => records.map (fun record => Obj.prop record "title")
      | _ => []) = [.str "B", .str "A", .str "C"] := by
  decide

/-- C26 (as amended). In the weather state machine the reducer applies every response
unconditionally: after `FETCH_WEATHER(c1)` followed by `FETCH_WEATHER(c2)`, a
`FETCH_SUCCESS` carrying the result of the fetch for `c1` sets `state.weather` to that
result, and a `FETCH_ERROR` sets `state.error` to its message, while `state.city` stays
`c2`. Responses arrive in request order: in every reachable state, while fetches are in
flight the newest one is for `state.city`, and when no fetch is in flight a non-null
`weather` is the data fetched for the current `state.city`. -/
theorem C26_responses_apply_in_request_order (env : Env) (state : WeatherState)
    (c1 c2 msg : String) (data : WeatherData) (events : List WeatherEvent) :
    weatherReducer (weatherReducer (weatherReducer state (.fetchWeather c1))
        (.fetchWeather c2)) (.fetchSuccess data) =
      { city := some c2, weather := some data, error := none } ∧
    weatherReducer (weatherReducer (weatherReducer state (.fetchWeather c1))
        (.fetchWeather c2)) (.fetchError msg) =
      { city := some c2, weather := none, error := some msg } ∧
    ((WeatherApp.run env events).pending ≠ [] →
      (WeatherApp.run env events).state.city = (WeatherApp.run env events).pending.getLast?) ∧
    ((WeatherApp.run env events).pending = [] →
      ∀ fetched, (WeatherApp.run env events).state.weather = some fetched →
        ∃ city, (WeatherApp.run env events).state.city = some city ∧
          fetchFakeWeather env city = .ok fetched) :=
  ⟨rfl, rfl, (WeatherApp.run_inStep env events).1, (WeatherApp.run_inStep env events).2⟩

/-- Witness for C26: Pune is submitted, then Delhi, and both fetches settle. -/
theorem C26_responses_apply_in_request_order_witness :
    ∃ city, (WeatherApp.run sampleEnv
        [.submit "Pune", .submit " Delhi ", .timer, .timer]).state.city = some city ∧
      fetchFakeWeather sampleEnv city =
        .ok { cod := 200, name := "Delhi", temp := 28, description := "cloudy",
              windSpeedTenths := 35 } :=
  (C26_responses_apply_in_request_order sampleEnv initialState "Pune" "Delhi" ""
    { cod := 200, name := "Pune", temp := 28, description := "cloudy", windSpeedTenths := 35 }
    [.submit "Pune", .submit " Delhi ", .timer, .timer]).2.2.2 (by decide) _ (by decide)

/-- C26, counterexample to the claim as stated. Pune is submitted, then Delhi before the
first fetch has settled. When the fetch for Pune settles, `state.weather` changes from
`null` to the data for Pune while `state.city` is Delhi: a reachable state whose
non-null weather is not the data fetched for the current city, which has the name
Delhi. Likewise the rejection of a stale
fetch for `nowhere` sets `state.error` while `state.city` is Delhi. -/
theorem C26_stale_response_overwrites_newer_state :
    (WeatherApp.run sampleEnv [.submit "Pune", .submit "Delhi"]).state =
      { city := some "Delhi", weather := none, error := none } ∧
    (WeatherApp.run sampleEnv [.submit "Pune", .submit "Delhi"]).pending =
      ["Pune", "Delhi"] ∧
    (WeatherApp.run sampleEnv [.submit "Pune", .submit "Delhi", .timer]).state =
      { city := some "Delhi",
        weather := some { cod := 200, name := "Pune", temp := 28, description := "cloudy",
                          windSpeedTenths := 35 },
        error := none } ∧
    (fetchFakeWeather sampleEnv "Delhi").toOption =
      some { cod := 200, name := "Delhi", temp := 28, description := "cloudy",
             windSpeedTenths := 35 } ∧
    (WeatherApp.run sampleEnv [.submit "nowhere", .submit "Delhi", .timer]).state =
      { city := some "Delhi", weather := none, error := some "City not found" } ∧
    (weatherReducer (weatherReducer (weatherReducer initialState (.fetchWeather "Pune"))
        (.fetchWeather "Delhi"))
        (.fetchSuccess { cod := 200, name := "Pune", temp := 28, description := "cloudy",
                         windSpeedTenths := 35 })).weather ≠
      (weatherReducer (weatherReducer initialState (.fetchWeather "Pune"))
        (.fetchWeather "Delhi")).weather := by
  decide

end TaskManager
